import Mathlib

/-!
# MUXLib: channel selection of multiplexer devices

A shallow embedding of the MUXLib device drivers (`MUXlib.h`, `MUXLib.cpp`,
`AnalogMUX.h`, `DigitalMUX.h`, `I2CMUX.h`, `SpecializedMUX.h`).

Conventions of the embedding:

* every `uint8_t`/`uint16_t` value is a natural number; where the C++ code can
  wrap, the reduction `% 256` / `% 65536` is written out;
* the platform primitives (`pinMode`, `digitalWrite`, `analogRead`,
  `delayMicroseconds`, the `Wire` calls) are not re-implemented: every call is
  recorded as an `Event`, and the values the platform returns are read from an
  `Env`, as a function of the events that happened so far;
* every operation takes the history `hist` of events before the call and
  returns the status, the new device state and the list of events it caused;
* a null or out-of-range array access and a polling loop that runs out of
  fuel are reported as a `Fault`.
-/

namespace MUXLib

/-! ## Status codes and the platform surface -/

/-- Status codes of `enum class MUXStatus`. -/
inductive MUXStatus where
  | OK
  | ERROR_INIT
  | ERROR_COMMUNICATION
  | ERROR_CHANNEL_INVALID
  | ERROR_NOT_ENABLED
  | ERROR_OVERFLOW
  deriving DecidableEq, Repr

/-- Trigger modes of `enum class InterruptMode`. -/
inductive InterruptMode where
  | NONE
  | LOW_LEVEL
  | HIGH_LEVEL
  | FALLING_EDGE
  | RISING_EDGE
  | CHANGE
  deriving DecidableEq, Repr

/-- Trigger constants of the platform's `attachInterrupt`: `LOW`, `HIGH`, `FALLING`,
`RISING`, `CHANGE`. -/
inductive TriggerMode where
  | LOW
  | HIGH
  | FALLING
  | RISING
  | CHANGE
  deriving DecidableEq, Repr

/-- Pin directions accepted by `pinMode`. -/
inductive PinMode where
  | INPUT
  | OUTPUT
  | INPUT_PULLUP
  deriving DecidableEq, Repr

/-- Logic level `HIGH`. -/
abbrev HIGH : Nat := 1

/-- Logic level `LOW`. -/
abbrev LOW : Nat := 0

/-- One call of a platform primitive, with the value it returned where it returns one. -/
inductive Event where
  | pinMode (pin : Nat) (mode : PinMode)
  | digitalWrite (pin : Nat) (level : Nat)
  | digitalRead (pin : Nat) (level : Nat)
  | analogRead (pin : Nat) (sample : Nat)
  | delayMicros (us : Nat)
  | millis (now : Nat)
  | wireBegin
  | beginTransmission (address : Nat)
  | wireWrite (byte : Nat)
  | endTransmission (code : Nat)
  | attachInterrupt (pin : Nat) (mode : TriggerMode)
  | detachInterrupt (pin : Nat)
  deriving DecidableEq, Repr

/-- Values returned by the platform, as functions of the events so far. -/
structure Env where
  analogRead : List Event → Nat → Nat
  digitalRead : List Event → Nat → Nat
  endTransmission : List Event → Nat
  millis : List Event → Nat

/-- Ways in which a call has no defined result. -/
inductive Fault where
  | nullPointer
  | outOfBounds
  | outOfFuel
  deriving DecidableEq, Repr

/-- Result of one operation: return value, new device state, events caused. -/
structure Step (σ : Type) (α : Type) where
  ret : α
  dev : σ
  trace : List Event
  deriving DecidableEq, Repr

/-! ## Pin levels -/

/-- Effect of one event on the output levels of the pins. -/
def Event.apply (levels : Nat → Nat) : Event → Nat → Nat
  | Event.digitalWrite pin level => fun q => if q = pin then level else levels q
  | _ => levels

/-- Output levels after a list of events. -/
def replay (levels : Nat → Nat) : List Event → Nat → Nat
  | [] => levels
  | e :: rest => replay (Event.apply levels e) rest

/-- The pin writes of a trace, in order. -/
def pinWrites : List Event → List (Nat × Nat)
  | [] => []
  | Event.digitalWrite pin level :: rest => (pin, level) :: pinWrites rest
  | _ :: rest => pinWrites rest

/-- The bus payload bytes of a trace, in order. -/
def busWrites : List Event → List Nat
  | [] => []
  | Event.wireWrite byte :: rest => byte :: busWrites rest
  | _ :: rest => busWrites rest

/-- A trace holds a bus transaction event. -/
def hasBusEvent : List Event → Bool
  | [] => false
  | Event.beginTransmission _ :: _ => true
  | Event.wireWrite _ :: _ => true
  | Event.endTransmission _ :: _ => true
  | _ :: rest => hasBusEvent rest

/-! ## Array access and the shared pin loops -/

/-- Read of `pins[i]` through a pointer that may be null. -/
def pinAt (pins : Option (List Nat)) (i : Nat) : Except Fault Nat :=
  match pins with
  | none => Except.error Fault.nullPointer
  | some l =>
    match l[i]? with
    | none => Except.error Fault.outOfBounds
    | some p => Except.ok p

/-- The pin array is present and holds exactly `n` pins. -/
def hasPins (pins : Option (List Nat)) (n : Nat) : Bool :=
  match pins with
  | none => false
  | some l => l.length == n

/-- Loop `for (i = i0; i < i0 + k; i++) digitalWrite(pins[i], (channel >> i) & 0x01)`. -/
def writeChannelBits (pins : Option (List Nat)) (channel : Nat) (i : Nat) :
    Nat → Except Fault (List Event)
  | 0 => Except.ok []
  | k + 1 =>
    match pinAt pins i with
    | Except.error f => Except.error f
    | Except.ok p =>
      match writeChannelBits pins channel (i + 1) k with
      | Except.error f => Except.error f
      | Except.ok rest => Except.ok (Event.digitalWrite p ((channel >>> i) &&& 1) :: rest)

/-- Loop `for (i = i0; i < i0 + k; i++) { pinMode(pins[i], OUTPUT); digitalWrite(pins[i], LOW); }`. -/
def configureOutputs (pins : Option (List Nat)) (i : Nat) : Nat → Except Fault (List Event)
  | 0 => Except.ok []
  | k + 1 =>
    match pinAt pins i with
    | Except.error f => Except.error f
    | Except.ok p =>
      match configureOutputs pins (i + 1) k with
      | Except.error f => Except.error f
      | Except.ok rest =>
        Except.ok (Event.pinMode p PinMode.OUTPUT :: Event.digitalWrite p LOW :: rest)

/-! ## MUXManager (MUXlib.h, MUXLib.cpp) -/

/-- Fields of `class MUXManager`; `interruptHandler` is the identity of the callback. -/
structure MUXManager where
  deviceAddress : Nat
  enabled : Bool
  currentChannel : Nat
  maxChannels : Nat
  interruptHandler : Option Nat
  interruptFlag : Bool
  interruptPin : Nat
  deriving DecidableEq, Repr

namespace MUXManager

/-- Constructor `MUXManager(address, channels)`. -/
def new (address channels : Nat) : MUXManager :=
  { deviceAddress := address, enabled := false, currentChannel := 0,
    maxChannels := channels, interruptHandler := none,
    interruptFlag := false, interruptPin := 255 }

/-- Member `getChannel()`. -/
def getChannel (s : MUXManager) : Nat := s.currentChannel

/-- Member `isEnabled()`. -/
def isEnabled (s : MUXManager) : Bool := s.enabled

/-- Member `enable()`. -/
def enable (s : MUXManager) : MUXManager := { s with enabled := true }

/-- Member `disable()`. -/
def disable (s : MUXManager) : MUXManager := { s with enabled := false }

/-- Member `isValidChannel(channel)`. -/
def isValidChannel (s : MUXManager) (channel : Nat) : Bool :=
  decide (channel < s.maxChannels)

/-- The `switch (mode)` of `attachInterrupt`: the platform trigger for a mode. -/
def arduinoMode : InterruptMode → TriggerMode
  | InterruptMode.LOW_LEVEL => TriggerMode.LOW
  | InterruptMode.HIGH_LEVEL => TriggerMode.HIGH
  | InterruptMode.FALLING_EDGE => TriggerMode.FALLING
  | InterruptMode.RISING_EDGE => TriggerMode.RISING
  | InterruptMode.CHANGE => TriggerMode.CHANGE
  | InterruptMode.NONE => TriggerMode.CHANGE

/-- Member `MUXManager::attachInterrupt(callback, pin, mode)` of MUXLib.cpp; `callback`
is `none` for a null pointer. The platform call is recorded with the pin. -/
def attachInterrupt (s : MUXManager) (callback : Option Nat) (pin : Nat)
    (mode : InterruptMode) : Step MUXManager Unit :=
  ⟨(), { s with interruptHandler := callback, interruptPin := pin },
    if pin ≠ 255 then
      [Event.pinMode pin PinMode.INPUT_PULLUP, Event.attachInterrupt pin (arduinoMode mode)]
    else []⟩

/-- Member `MUXManager::detachInterrupt()` of MUXLib.cpp (the in-class version of
MUXlib.h is the same without the reset of `interruptFlag`). -/
def detachInterrupt (s : MUXManager) : Step MUXManager Unit :=
  if s.interruptPin ≠ 255 then
    ⟨(), { s with interruptHandler := none, interruptPin := 255, interruptFlag := false },
      [Event.detachInterrupt s.interruptPin]⟩
  else ⟨(), s, []⟩

end MUXManager

/-! ## Analog multiplexers (AnalogMUX.h) -/

/-- Fields of `class AnalogMUX`; `selectPins` is `none` when `malloc` returned null. -/
structure AnalogMUX extends MUXManager where
  selectPins : Option (List Nat)
  numSelectPins : Nat
  enablePin : Nat
  signalPin : Nat
  settlingTime : Nat
  deriving DecidableEq, Repr

namespace AnalogMUX

/-- Constructor `AnalogMUX(selPins, numPins, sigPin, enPin)`; `allocated` tells
whether `malloc` succeeded. The channel count is `1 << numPins` stored in a byte. The
caller's array `selPins` is expected to hold at least `numPins` entries, of which the
first `numPins` are copied. -/
def new (selPins : List Nat) (numPins sigPin enPin : Nat) (allocated : Bool) : AnalogMUX :=
  { MUXManager.new 0 ((1 <<< numPins) % 256) with
    selectPins := if allocated then some (selPins.take numPins) else none,
    numSelectPins := numPins, enablePin := enPin, signalPin := sigPin,
    settlingTime := 10 }

/-- Member `AnalogMUX::begin()`. -/
def begin (s : AnalogMUX) : Except Fault (Step AnalogMUX MUXStatus) :=
  if s.selectPins = none then Except.ok ⟨MUXStatus.ERROR_INIT, s, []⟩
  else
    match configureOutputs s.selectPins 0 s.numSelectPins with
    | Except.error f => Except.error f
    | Except.ok sel =>
      let en := if s.enablePin ≠ 255 then
        [Event.pinMode s.enablePin PinMode.OUTPUT, Event.digitalWrite s.enablePin HIGH] else []
      let sig := if s.signalPin ≠ 255 then [Event.pinMode s.signalPin PinMode.INPUT] else []
      Except.ok ⟨MUXStatus.OK, { s with enabled := true }, sel ++ en ++ sig⟩

/-- Member `setSettlingTime(microseconds)`. -/
def setSettlingTime (s : AnalogMUX) (microseconds : Nat) : AnalogMUX :=
  { s with settlingTime := microseconds }

end AnalogMUX

namespace HC4051

/-- Constructor `HC4051(selPins, sigPin, enPin)`. -/
def new (selPins : List Nat) (sigPin enPin : Nat) (allocated : Bool) : AnalogMUX :=
  AnalogMUX.new selPins 3 sigPin enPin allocated

/-- Member `HC4051::setChannel(channel)`. -/
def setChannel (s : AnalogMUX) (channel : Nat) : Except Fault (Step AnalogMUX MUXStatus) :=
  if s.isValidChannel channel = false then Except.ok ⟨MUXStatus.ERROR_CHANNEL_INVALID, s, []⟩
  else if s.enabled = false then Except.ok ⟨MUXStatus.ERROR_NOT_ENABLED, s, []⟩
  else
    let pre := if s.enablePin ≠ 255 then
      [Event.digitalWrite s.enablePin HIGH, Event.delayMicros 1] else []
    match writeChannelBits s.selectPins channel 0 3 with
    | Except.error f => Except.error f
    | Except.ok sel =>
      let post := if s.enablePin ≠ 255 then
        [Event.delayMicros 1, Event.digitalWrite s.enablePin LOW] else []
      Except.ok ⟨MUXStatus.OK, { s with currentChannel := channel }, pre ++ sel ++ post⟩

end HC4051

namespace HC4067

/-- Constructor `HC4067(selPins, sigPin, enPin)`. -/
def new (selPins : List Nat) (sigPin enPin : Nat) (allocated : Bool) : AnalogMUX :=
  AnalogMUX.new selPins 4 sigPin enPin allocated

/-- Member `HC4067::setChannel(channel)`. -/
def setChannel (s : AnalogMUX) (channel : Nat) : Except Fault (Step AnalogMUX MUXStatus) :=
  if s.isValidChannel channel = false then Except.ok ⟨MUXStatus.ERROR_CHANNEL_INVALID, s, []⟩
  else if s.enabled = false then Except.ok ⟨MUXStatus.ERROR_NOT_ENABLED, s, []⟩
  else
    let pre := if s.enablePin ≠ 255 then
      [Event.digitalWrite s.enablePin HIGH, Event.delayMicros 1] else []
    match writeChannelBits s.selectPins channel 0 4 with
    | Except.error f => Except.error f
    | Except.ok sel =>
      let post := if s.enablePin ≠ 255 then
        [Event.delayMicros 1, Event.digitalWrite s.enablePin LOW] else []
      Except.ok ⟨MUXStatus.OK, { s with currentChannel := channel }, pre ++ sel ++ post⟩

end HC4067

/-- Fields of `class HC4052`. -/
structure HC4052 extends AnalogMUX where
  signalPin2 : Nat
  deriving DecidableEq, Repr

namespace HC4052

/-- Constructor `HC4052(selPins, sig1Pin, sig2Pin, enPin)`. -/
def new (selPins : List Nat) (sig1Pin sig2Pin enPin : Nat) (allocated : Bool) : HC4052 :=
  { AnalogMUX.new selPins 2 sig1Pin enPin allocated with signalPin2 := sig2Pin }

/-- Member `HC4052::setChannel(channel)`. -/
def setChannel (s : HC4052) (channel : Nat) : Except Fault (Step HC4052 MUXStatus) :=
  if channel ≥ 4 then Except.ok ⟨MUXStatus.ERROR_CHANNEL_INVALID, s, []⟩
  else if s.enabled = false then Except.ok ⟨MUXStatus.ERROR_NOT_ENABLED, s, []⟩
  else
    let pre := if s.enablePin ≠ 255 then
      [Event.digitalWrite s.enablePin HIGH, Event.delayMicros 1] else []
    match writeChannelBits s.selectPins channel 0 2 with
    | Except.error f => Except.error f
    | Except.ok sel =>
      let post := if s.enablePin ≠ 255 then
        [Event.delayMicros 1, Event.digitalWrite s.enablePin LOW] else []
      Except.ok ⟨MUXStatus.OK, { s with currentChannel := channel }, pre ++ sel ++ post⟩

end HC4052

/-- Fields of `class HC4053`. The class declares no `setChannel`. -/
structure HC4053 extends AnalogMUX where
  signalPin2 : Nat
  signalPin3 : Nat
  deriving DecidableEq, Repr

namespace HC4053

/-- Constructor `HC4053(selPins, sig1Pin, sig2Pin, sig3Pin, enPin)`. -/
def new (selPins : List Nat) (sig1Pin sig2Pin sig3Pin enPin : Nat) (allocated : Bool) :
    HC4053 :=
  { AnalogMUX.new selPins 3 sig1Pin enPin allocated with
    signalPin2 := sig2Pin, signalPin3 := sig3Pin }

/-- Member `HC4053::setChannels(ch1, ch2, ch3)`; a `bool` is written as level 1 or 0. -/
def setChannels (s : HC4053) (ch1 ch2 ch3 : Bool) : Except Fault (Step HC4053 MUXStatus) :=
  if s.enabled = false then Except.ok ⟨MUXStatus.ERROR_NOT_ENABLED, s, []⟩
  else
    let pre := if s.enablePin ≠ 255 then
      [Event.digitalWrite s.enablePin HIGH, Event.delayMicros 1] else []
    match pinAt s.selectPins 0 with
    | Except.error f => Except.error f
    | Except.ok p0 =>
      match pinAt s.selectPins 1 with
      | Except.error f => Except.error f
      | Except.ok p1 =>
        match pinAt s.selectPins 2 with
        | Except.error f => Except.error f
        | Except.ok p2 =>
          let post := if s.enablePin ≠ 255 then
            [Event.delayMicros 1, Event.digitalWrite s.enablePin LOW] else []
          Except.ok ⟨MUXStatus.OK, s,
            pre ++ [Event.digitalWrite p0 ch1.toNat, Event.digitalWrite p1 ch2.toNat,
              Event.digitalWrite p2 ch3.toNat] ++ post⟩

end HC4053

/-- Fields of `class ADG508A`. -/
structure ADG508A extends AnalogMUX where
  isDifferential : Bool
  signalPinB : Nat
  deriving DecidableEq, Repr

namespace ADG508A

/-- Constructor `ADG508A(selPins, sigPin, enPin, differential, sigPinB)`. -/
def new (selPins : List Nat) (sigPin enPin : Nat) (differential : Bool) (sigPinB : Nat)
    (allocated : Bool) : ADG508A :=
  { AnalogMUX.new selPins 3 sigPin enPin allocated with
    isDifferential := differential, signalPinB := sigPinB }

/-- Member `ADG508A::setChannel(channel)`. -/
def setChannel (s : ADG508A) (channel : Nat) : Except Fault (Step ADG508A MUXStatus) :=
  if s.isValidChannel channel = false then Except.ok ⟨MUXStatus.ERROR_CHANNEL_INVALID, s, []⟩
  else if s.enabled = false then Except.ok ⟨MUXStatus.ERROR_NOT_ENABLED, s, []⟩
  else
    let pre := if s.enablePin ≠ 255 then
      [Event.digitalWrite s.enablePin HIGH, Event.delayMicros 1] else []
    match writeChannelBits s.selectPins channel 0 3 with
    | Except.error f => Except.error f
    | Except.ok sel =>
      let post := if s.enablePin ≠ 255 then
        [Event.delayMicros 1, Event.digitalWrite s.enablePin LOW] else []
      Except.ok ⟨MUXStatus.OK, { s with currentChannel := channel }, pre ++ sel ++ post⟩

end ADG508A

/-- Fields of `class ADG706`. -/
structure ADG706 extends AnalogMUX where
  writePin : Nat
  isDifferential : Bool
  signalPinB : Nat
  deriving DecidableEq, Repr

namespace ADG706

/-- Constructor `ADG706(addrPins, sigPin, wrPin, enPin, differential, sigPinB)`. -/
def new (addrPins : List Nat) (sigPin wrPin enPin : Nat) (differential : Bool)
    (sigPinB : Nat) (allocated : Bool) : ADG706 :=
  { AnalogMUX.new addrPins 4 sigPin enPin allocated with
    writePin := wrPin, isDifferential := differential, signalPinB := sigPinB }

/-- Member `ADG706::begin()`. -/
def begin (s : ADG706) : Except Fault (Step ADG706 MUXStatus) :=
  match AnalogMUX.begin s.toAnalogMUX with
  | Except.error f => Except.error f
  | Except.ok r =>
    let s1 : ADG706 := { s with toAnalogMUX := r.dev }
    if r.ret ≠ MUXStatus.OK then Except.ok ⟨r.ret, s1, r.trace⟩
    else
      let wr := [Event.pinMode s.writePin PinMode.OUTPUT, Event.digitalWrite s.writePin HIGH]
      let sigB := if s.isDifferential = true ∧ s.signalPinB ≠ 255 then
        [Event.pinMode s.signalPinB PinMode.INPUT] else []
      Except.ok ⟨MUXStatus.OK, s1, r.trace ++ wr ++ sigB⟩

/-- Member `ADG706::setChannel(channel)`. -/
def setChannel (s : ADG706) (channel : Nat) : Except Fault (Step ADG706 MUXStatus) :=
  if s.isValidChannel channel = false then Except.ok ⟨MUXStatus.ERROR_CHANNEL_INVALID, s, []⟩
  else if s.enabled = false then Except.ok ⟨MUXStatus.ERROR_NOT_ENABLED, s, []⟩
  else
    match writeChannelBits s.selectPins channel 0 4 with
    | Except.error f => Except.error f
    | Except.ok sel =>
      let pulse := [Event.digitalWrite s.writePin LOW, Event.delayMicros 1,
        Event.digitalWrite s.writePin HIGH]
      Except.ok ⟨MUXStatus.OK, { s with currentChannel := channel }, sel ++ pulse⟩

end ADG706

/-- Fields of `class ADG506A`. -/
structure ADG506A extends AnalogMUX where
  isDifferential : Bool
  signalPinB : Nat
  is506 : Bool
  deriving DecidableEq, Repr

namespace ADG506A

/-- Constructor `ADG506A(addrPins, sigPin, is506A, enPin, differential, sigPinB)`. -/
def new (addrPins : List Nat) (sigPin : Nat) (is506A : Bool) (enPin : Nat)
    (differential : Bool) (sigPinB : Nat) (allocated : Bool) : ADG506A :=
  { AnalogMUX.new addrPins (if is506A then 4 else 3) sigPin enPin allocated with
    isDifferential := differential, signalPinB := sigPinB, is506 := is506A }

/-- Member `ADG506A::setChannel(channel)`. The source line
`returncurrentChannel = channel;` that follows the assignment of
`currentChannel` names no member and changes no field. -/
def setChannel (s : ADG506A) (channel : Nat) : Except Fault (Step ADG506A MUXStatus) :=
  let maxChannel := if s.is506 then 16 else 8
  if channel ≥ maxChannel then Except.ok ⟨MUXStatus.ERROR_CHANNEL_INVALID, s, []⟩
  else if s.enabled = false then Except.ok ⟨MUXStatus.ERROR_NOT_ENABLED, s, []⟩
  else
    let pre := if s.enablePin ≠ 255 then
      [Event.digitalWrite s.enablePin HIGH, Event.delayMicros 1] else []
    match writeChannelBits s.selectPins channel 0 s.numSelectPins with
    | Except.error f => Except.error f
    | Except.ok sel =>
      let post := if s.enablePin ≠ 255 then
        [Event.delayMicros 1, Event.digitalWrite s.enablePin LOW] else []
      Except.ok ⟨MUXStatus.OK, { s with currentChannel := channel }, pre ++ sel ++ post⟩

end ADG506A

namespace MPC506A

/-- Constructor `MPC506A(...)`: an `ADG506A` with a settling time of 20 microseconds. -/
def new (addrPins : List Nat) (sigPin : Nat) (is506A : Bool) (enPin : Nat)
    (differential : Bool) (sigPinB : Nat) (allocated : Bool) : ADG506A :=
  let s := ADG506A.new addrPins sigPin is506A enPin differential sigPinB allocated
  { s with toAnalogMUX := s.toAnalogMUX.setSettlingTime 20 }

end MPC506A

/-- Fields of `class DG408`. -/
structure DG408 extends AnalogMUX where
  signalPinB : Nat
  isDG409 : Bool
  deriving DecidableEq, Repr

namespace DG408

/-- Constructor `DG408(selPins, sigPin, sigPinB, enPin, isDG409Mode)`. -/
def new (selPins : List Nat) (sigPin sigPinB enPin : Nat) (isDG409Mode : Bool)
    (allocated : Bool) : DG408 :=
  { (AnalogMUX.new selPins 3 sigPin enPin allocated).setSettlingTime 150 with
    signalPinB := sigPinB, isDG409 := isDG409Mode }

/-- The DG409 address code `(channel & 0x04) | ((channel & 0x02) >> 1) | ((channel & 0x01) << 1)`. -/
def dg409Code (channel : Nat) : Nat :=
  (channel &&& 4) ||| ((channel &&& 2) >>> 1) ||| ((channel &&& 1) <<< 1)

/-- Member `DG408::setChannel(channel)`; the parameter is overwritten in DG409 mode. -/
def setChannel (s : DG408) (channel : Nat) : Except Fault (Step DG408 MUXStatus) :=
  if channel ≥ 8 then Except.ok ⟨MUXStatus.ERROR_CHANNEL_INVALID, s, []⟩
  else if s.enabled = false then Except.ok ⟨MUXStatus.ERROR_NOT_ENABLED, s, []⟩
  else
    let channel := if s.isDG409 then dg409Code channel else channel
    match writeChannelBits s.selectPins channel 0 3 with
    | Except.error f => Except.error f
    | Except.ok sel =>
      Except.ok ⟨MUXStatus.OK, { s with currentChannel := channel }, sel⟩

end DG408

namespace MAX4051A

/-- Constructor `MAX4051A(selPins, sigPin, enPin)`. -/
def new (selPins : List Nat) (sigPin enPin : Nat) (allocated : Bool) : AnalogMUX :=
  (AnalogMUX.new selPins 3 sigPin enPin allocated).setSettlingTime 5

/-- Member `MAX4051A::setChannel(channel)`. -/
def setChannel (s : AnalogMUX) (channel : Nat) : Except Fault (Step AnalogMUX MUXStatus) :=
  if s.isValidChannel channel = false then Except.ok ⟨MUXStatus.ERROR_CHANNEL_INVALID, s, []⟩
  else if s.enabled = false then Except.ok ⟨MUXStatus.ERROR_NOT_ENABLED, s, []⟩
  else
    let pre := if s.enablePin ≠ 255 then
      [Event.digitalWrite s.enablePin HIGH, Event.delayMicros 1] else []
    match writeChannelBits s.selectPins channel 0 3 with
    | Except.error f => Except.error f
    | Except.ok sel =>
      let post := if s.enablePin ≠ 255 then
        [Event.delayMicros 1, Event.digitalWrite s.enablePin LOW] else []
      Except.ok ⟨MUXStatus.OK, { s with currentChannel := channel }, pre ++ sel ++ post⟩

end MAX4051A

/-- Fields of `class MAX4582`. -/
structure MAX4582 extends AnalogMUX where
  loadPin : Nat
  deriving DecidableEq, Repr

namespace MAX4582

/-- Constructor `MAX4582(selPins, sigPin, ldPin, enPin)`. -/
def new (selPins : List Nat) (sigPin ldPin enPin : Nat) (allocated : Bool) : MAX4582 :=
  { (AnalogMUX.new selPins 3 sigPin enPin allocated).setSettlingTime 15 with
    loadPin := ldPin }

/-- Member `MAX4582::begin()`. -/
def begin (s : MAX4582) : Except Fault (Step MAX4582 MUXStatus) :=
  match AnalogMUX.begin s.toAnalogMUX with
  | Except.error f => Except.error f
  | Except.ok r =>
    let s1 : MAX4582 := { s with toAnalogMUX := r.dev }
    if r.ret ≠ MUXStatus.OK then Except.ok ⟨r.ret, s1, r.trace⟩
    else
      let ld := [Event.pinMode s.loadPin PinMode.OUTPUT, Event.digitalWrite s.loadPin HIGH]
      Except.ok ⟨MUXStatus.OK, s1, r.trace ++ ld⟩

/-- Member `MAX4582::setChannel(channel)`. -/
def setChannel (s : MAX4582) (channel : Nat) : Except Fault (Step MAX4582 MUXStatus) :=
  if s.isValidChannel channel = false then Except.ok ⟨MUXStatus.ERROR_CHANNEL_INVALID, s, []⟩
  else if s.enabled = false then Except.ok ⟨MUXStatus.ERROR_NOT_ENABLED, s, []⟩
  else
    match writeChannelBits s.selectPins channel 0 3 with
    | Except.error f => Except.error f
    | Except.ok sel =>
      let pulse := [Event.digitalWrite s.loadPin LOW, Event.delayMicros 1,
        Event.digitalWrite s.loadPin HIGH]
      Except.ok ⟨MUXStatus.OK, { s with currentChannel := channel }, sel ++ pulse⟩

end MAX4582

/-! ## Parallel digital multiplexers (DigitalMUX.h) -/

/-- Loop of `ParallelMUX::begin()`:
`for (i ...) if (selectPins[i] != 255) { pinMode(selectPins[i], OUTPUT); digitalWrite(selectPins[i], LOW); }`. -/
def configureSelect (pins : Option (List Nat)) (i : Nat) : Nat → Except Fault (List Event)
  | 0 => Except.ok []
  | k + 1 =>
    match pinAt pins i with
    | Except.error f => Except.error f
    | Except.ok p =>
      match configureSelect pins (i + 1) k with
      | Except.error f => Except.error f
      | Except.ok rest =>
        if p ≠ 255 then
          Except.ok (Event.pinMode p PinMode.OUTPUT :: Event.digitalWrite p LOW :: rest)
        else Except.ok rest

/-- Fields of `class ParallelMUX`; `selectPins` holds the initialised entries of
the five-element member array. -/
structure ParallelMUX extends MUXManager where
  selectPins : List Nat
  numSelectPins : Nat
  enablePin : Nat
  deriving DecidableEq, Repr

namespace ParallelMUX

/-- Constructor `ParallelMUX(selPins, numPins, enPin, maxCh)`. -/
def new (selPins : List Nat) (numPins enPin maxCh : Nat) : ParallelMUX :=
  { MUXManager.new 0 (if maxCh ≠ 0 then maxCh else (1 <<< numPins) % 256) with
    selectPins := selPins.take (min numPins 5),
    numSelectPins := numPins, enablePin := enPin }

/-- Member `ParallelMUX::enable()`. -/
def enable (s : ParallelMUX) : Step ParallelMUX Unit :=
  ⟨(), { s with enabled := true },
    if s.enablePin ≠ 255 then [Event.digitalWrite s.enablePin LOW] else []⟩

/-- Member `ParallelMUX::disable()`. -/
def disable (s : ParallelMUX) : Step ParallelMUX Unit :=
  ⟨(), { s with enabled := false },
    if s.enablePin ≠ 255 then [Event.digitalWrite s.enablePin HIGH] else []⟩

/-- Member `ParallelMUX::begin()`. -/
def begin (s : ParallelMUX) : Except Fault (Step ParallelMUX MUXStatus) :=
  match configureSelect (some s.selectPins) 0 s.numSelectPins with
  | Except.error f => Except.error f
  | Except.ok sel =>
    let en := if s.enablePin ≠ 255 then
      [Event.pinMode s.enablePin PinMode.OUTPUT, Event.digitalWrite s.enablePin HIGH] else []
    let r := enable s
    Except.ok ⟨MUXStatus.OK, r.dev, sel ++ en ++ r.trace⟩

end ParallelMUX

/-- Fields of `class HC405X`. -/
structure HC405X extends ParallelMUX where
  muxType : Nat
  deriving DecidableEq, Repr

namespace HC405X

/-- Constructor `HC405X(selPins, type, enPin)`. -/
def new (selPins : List Nat) (type enPin : Nat) : HC405X :=
  { ParallelMUX.new selPins (if type = 1 then 3 else if type = 2 then 2 else 1) enPin
      (if type = 1 then 8 else if type = 2 then 4 else 2) with
    muxType := type }

/-- The state of a type 1 (8-channel) `HC405X` once `begin()` has run, with `k` as the
recorded channel. -/
def begun (selPins : List Nat) (enPin k : Nat) : HC405X :=
  { new selPins 1 enPin with enabled := true, currentChannel := k }

/-- Member `begin()`, inherited from `ParallelMUX`. -/
def begin (s : HC405X) : Except Fault (Step HC405X MUXStatus) :=
  match ParallelMUX.begin s.toParallelMUX with
  | Except.error f => Except.error f
  | Except.ok r => Except.ok ⟨r.ret, { s with toParallelMUX := r.dev }, r.trace⟩

/-- Member `enable()`, inherited from `ParallelMUX`. -/
def enable (s : HC405X) : Step HC405X Unit :=
  let r := ParallelMUX.enable s.toParallelMUX
  ⟨(), { s with toParallelMUX := r.dev }, r.trace⟩

/-- Member `disable()`, inherited from `ParallelMUX`. -/
def disable (s : HC405X) : Step HC405X Unit :=
  let r := ParallelMUX.disable s.toParallelMUX
  ⟨(), { s with toParallelMUX := r.dev }, r.trace⟩

/-- Member `HC405X::setChannel(channel)`. -/
def setChannel (s : HC405X) (channel : Nat) : Except Fault (Step HC405X MUXStatus) :=
  if s.isValidChannel channel = false then Except.ok ⟨MUXStatus.ERROR_CHANNEL_INVALID, s, []⟩
  else if s.enabled = false then Except.ok ⟨MUXStatus.ERROR_NOT_ENABLED, s, []⟩
  else
    match writeChannelBits (some s.selectPins) channel 0 s.numSelectPins with
    | Except.error f => Except.error f
    | Except.ok sel =>
      Except.ok ⟨MUXStatus.OK, { s with currentChannel := channel }, sel⟩

end HC405X

/-- Fields of `class CD74HC4067`; `channelValues` is `none` for a null pointer. -/
structure CD74HC4067 extends ParallelMUX where
  sigPin : Nat
  autoRead : Bool
  channelValues : Option (List Nat)
  deriving DecidableEq, Repr

namespace CD74HC4067

/-- Constructor `CD74HC4067(selPins, enPin, signalPin)`; `allocated` tells
whether `malloc` succeeded when a signal pin is given. -/
def new (selPins : List Nat) (enPin signalPin : Nat) (allocated : Bool) : CD74HC4067 :=
  { ParallelMUX.new selPins 4 enPin 16 with
    sigPin := signalPin, autoRead := false,
    channelValues := if signalPin ≠ 255 ∧ allocated = true then
      some (List.replicate 16 0) else none }

/-- Member `CD74HC4067::begin()`. -/
def begin (s : CD74HC4067) : Except Fault (Step CD74HC4067 MUXStatus) :=
  match ParallelMUX.begin s.toParallelMUX with
  | Except.error f => Except.error f
  | Except.ok r =>
    let s1 : CD74HC4067 := { s with toParallelMUX := r.dev }
    if r.ret ≠ MUXStatus.OK then Except.ok ⟨r.ret, s1, r.trace⟩
    else
      let sig := if s.sigPin ≠ 255 then [Event.pinMode s.sigPin PinMode.INPUT] else []
      Except.ok ⟨MUXStatus.OK, s1, r.trace ++ sig⟩

/-- Member `CD74HC4067::setChannel(channel)`. -/
def setChannel (env : Env) (hist : List Event) (s : CD74HC4067) (channel : Nat) :
    Except Fault (Step CD74HC4067 MUXStatus) :=
  if s.isValidChannel channel = false then Except.ok ⟨MUXStatus.ERROR_CHANNEL_INVALID, s, []⟩
  else if s.enabled = false then Except.ok ⟨MUXStatus.ERROR_NOT_ENABLED, s, []⟩
  else
    match writeChannelBits (some s.selectPins) channel 0 4 with
    | Except.error f => Except.error f
    | Except.ok sel =>
      if s.autoRead = true ∧ s.sigPin ≠ 255 ∧ s.channelValues ≠ none then
        let sample := env.analogRead (hist ++ sel ++ [Event.delayMicros 50]) s.sigPin
        Except.ok ⟨MUXStatus.OK,
          { s with
            channelValues := s.channelValues.map (fun v => v.set channel (sample % 65536)),
            currentChannel := channel },
          sel ++ [Event.delayMicros 50, Event.analogRead s.sigPin sample]⟩
      else Except.ok ⟨MUXStatus.OK, { s with currentChannel := channel }, sel⟩

/-- Member `CD74HC4067::enableAutoRead(enable)`. -/
def enableAutoRead (s : CD74HC4067) (enable : Bool) : CD74HC4067 :=
  if s.sigPin ≠ 255 ∧ s.channelValues ≠ none then { s with autoRead := enable } else s

/-- Member `CD74HC4067::readChannel(channel)`; the status of `setChannel` is discarded. -/
def readChannel (env : Env) (hist : List Event) (s : CD74HC4067) (channel : Nat) :
    Except Fault (Step CD74HC4067 Nat) :=
  if s.sigPin = 255 ∨ s.isValidChannel channel = false then Except.ok ⟨0, s, []⟩
  else
    match setChannel env hist s channel with
    | Except.error f => Except.error f
    | Except.ok r =>
      let sample := env.analogRead (hist ++ r.trace ++ [Event.delayMicros 50]) r.dev.sigPin
      Except.ok ⟨sample % 65536, r.dev,
        r.trace ++ [Event.delayMicros 50, Event.analogRead r.dev.sigPin sample]⟩

end CD74HC4067

/-! ## Fast GPIO multiplexers (SpecializedMUX.h)

`fastDigitalWrite(pin, value)` is `digitalWrite(pin, value)` on the platforms
without fast GPIO and a single-bit register set/clear on the others; both are
recorded as a `digitalWrite` event. -/

/-- Fields of `class FastMUX`; `pins` is `none` when `malloc` returned null. -/
structure FastMUX extends MUXManager where
  pins : Option (List Nat)
  numPins : Nat
  pinMask : Nat
  deriving DecidableEq, Repr

namespace FastMUX

/-- Constructor `FastMUX(controlPins, pinCount, maxChannels)`. -/
def new (controlPins : List Nat) (pinCount maxChannels : Nat) (allocated : Bool) : FastMUX :=
  { MUXManager.new 0 maxChannels with
    pins := if allocated then some (controlPins.take pinCount) else none,
    numPins := pinCount, pinMask := 0 }

/-- Loop of `FastMUX::begin()`:
`for (i ...) { pinMode(pins[i], OUTPUT); digitalWrite(pins[i], LOW); pinMask |= (1 << pins[i]); }`
with the 32-bit `pinMask` threaded through. -/
def configurePins (pins : Option (List Nat)) (i : Nat) :
    Nat → Nat → Except Fault (List Event × Nat)
  | 0, mask => Except.ok ([], mask)
  | k + 1, mask =>
    match pinAt pins i with
    | Except.error f => Except.error f
    | Except.ok p =>
      match configurePins pins (i + 1) k ((mask ||| (1 <<< p)) % 2 ^ 32) with
      | Except.error f => Except.error f
      | Except.ok (rest, m) =>
        Except.ok (Event.pinMode p PinMode.OUTPUT :: Event.digitalWrite p LOW :: rest, m)

/-- Member `FastMUX::begin()`. -/
def begin (s : FastMUX) : Except Fault (Step FastMUX MUXStatus) :=
  if s.pins = none then Except.ok ⟨MUXStatus.ERROR_INIT, s, []⟩
  else
    match configurePins s.pins 0 s.numPins s.pinMask with
    | Except.error f => Except.error f
    | Except.ok (cfg, mask) =>
      Except.ok ⟨MUXStatus.OK, { s with pinMask := mask, enabled := true }, cfg⟩

end FastMUX

/-- Loop `while (digitalRead(syncPin) == HIGH) delayMicros(1);`, at most `fuel` polls. -/
def waitSync (env : Env) (syncPin : Nat) : Nat → List Event → Except Fault (List Event)
  | 0, _ => Except.error Fault.outOfFuel
  | fuel + 1, hist =>
    let level := env.digitalRead hist syncPin
    if level = HIGH then
      match waitSync env syncPin fuel
          (hist ++ [Event.digitalRead syncPin level, Event.delayMicros 1]) with
      | Except.error f => Except.error f
      | Except.ok rest =>
        Except.ok (Event.digitalRead syncPin level :: Event.delayMicros 1 :: rest)
    else Except.ok [Event.digitalRead syncPin level]

/-- Fields of `class VideoMUX`. -/
structure VideoMUX extends FastMUX where
  syncPin : Nat
  syncEnabled : Bool
  videoType : Nat
  deriving DecidableEq, Repr

namespace VideoMUX

/-- Constructor `VideoMUX(controlPins, pinCount, sync, type)`. -/
def new (controlPins : List Nat) (pinCount sync type : Nat) (allocated : Bool) : VideoMUX :=
  { FastMUX.new controlPins pinCount ((1 <<< pinCount) % 256) allocated with
    syncPin := sync, syncEnabled := false, videoType := type }

/-- Member `VideoMUX::setChannel(channel)`. -/
def setChannel (env : Env) (fuel : Nat) (hist : List Event) (s : VideoMUX) (channel : Nat) :
    Except Fault (Step VideoMUX MUXStatus) :=
  if s.isValidChannel channel = false then Except.ok ⟨MUXStatus.ERROR_CHANNEL_INVALID, s, []⟩
  else if s.enabled = false then Except.ok ⟨MUXStatus.ERROR_NOT_ENABLED, s, []⟩
  else
    match (if s.syncEnabled then waitSync env s.syncPin fuel hist else Except.ok []) with
    | Except.error f => Except.error f
    | Except.ok sync =>
      match writeChannelBits s.pins channel 0 s.numPins with
      | Except.error f => Except.error f
      | Except.ok sel =>
        Except.ok ⟨MUXStatus.OK, { s with currentChannel := channel }, sync ++ sel⟩

/-- Member `VideoMUX::setSyncEnabled(enable)`. -/
def setSyncEnabled (s : VideoMUX) (enable : Bool) : VideoMUX :=
  { s with syncEnabled := enable && decide (s.syncPin ≠ 255) }

end VideoMUX

/-- Fields of `class AudioMUX`. -/
structure AudioMUX extends FastMUX where
  fadeSteps : Nat
  fadeDelay : Nat
  useFading : Bool
  deriving DecidableEq, Repr

namespace AudioMUX

/-- Constructor `AudioMUX(controlPins, pinCount)`. -/
def new (controlPins : List Nat) (pinCount : Nat) (allocated : Bool) : AudioMUX :=
  { FastMUX.new controlPins pinCount ((1 <<< pinCount) % 256) allocated with
    fadeSteps := 16, fadeDelay := 1, useFading := true }

/-- Member `AudioMUX::setChannel(channel)`. -/
def setChannel (s : AudioMUX) (channel : Nat) : Except Fault (Step AudioMUX MUXStatus) :=
  if s.isValidChannel channel = false then Except.ok ⟨MUXStatus.ERROR_CHANNEL_INVALID, s, []⟩
  else if s.enabled = false then Except.ok ⟨MUXStatus.ERROR_NOT_ENABLED, s, []⟩
  else
    let fadeOut := if s.useFading then
      List.replicate s.fadeSteps (Event.delayMicros s.fadeDelay) else []
    match writeChannelBits s.pins channel 0 s.numPins with
    | Except.error f => Except.error f
    | Except.ok sel =>
      let fadeIn := if s.useFading then
        List.replicate s.fadeSteps (Event.delayMicros s.fadeDelay) else []
      Except.ok ⟨MUXStatus.OK, { s with currentChannel := channel }, fadeOut ++ sel ++ fadeIn⟩

/-- Member `AudioMUX::configureFade(steps, delayUs, enable)`. -/
def configureFade (s : AudioMUX) (steps delayUs : Nat) (enable : Bool) : AudioMUX :=
  { s with fadeSteps := steps, fadeDelay := delayUs, useFading := enable }

end AudioMUX

/-- Constant `DataMUX::BUFFER_SIZE`. -/
def BUFFER_SIZE : Nat := 32

/-- Fields of `class DataMUX`. -/
structure DataMUX extends FastMUX where
  buffer : List Nat
  bufferIndex : Nat
  buffering : Bool
  deriving DecidableEq, Repr

namespace DataMUX

/-- Constructor `DataMUX(controlPins, pinCount)`. -/
def new (controlPins : List Nat) (pinCount : Nat) (allocated : Bool) : DataMUX :=
  { FastMUX.new controlPins pinCount ((1 <<< pinCount) % 256) allocated with
    buffer := List.replicate BUFFER_SIZE 0, bufferIndex := 0, buffering := false }

/-- Member `DataMUX::setChannel(channel)`. -/
def setChannel (s : DataMUX) (channel : Nat) : Except Fault (Step DataMUX MUXStatus) :=
  if s.isValidChannel channel = false then Except.ok ⟨MUXStatus.ERROR_CHANNEL_INVALID, s, []⟩
  else if s.enabled = false then Except.ok ⟨MUXStatus.ERROR_NOT_ENABLED, s, []⟩
  else if s.buffering = true then
    if s.bufferIndex < BUFFER_SIZE then
      Except.ok ⟨MUXStatus.OK,
        { s with buffer := s.buffer.set s.bufferIndex channel,
                 bufferIndex := s.bufferIndex + 1 }, []⟩
    else Except.ok ⟨MUXStatus.ERROR_OVERFLOW, s, []⟩
  else
    match writeChannelBits s.pins channel 0 s.numPins with
    | Except.error f => Except.error f
    | Except.ok sel =>
      Except.ok ⟨MUXStatus.OK, { s with currentChannel := channel }, sel⟩

/-- Member `begin()`, inherited from `FastMUX`. -/
def begin (s : DataMUX) : Except Fault (Step DataMUX MUXStatus) :=
  match FastMUX.begin s.toFastMUX with
  | Except.error f => Except.error f
  | Except.ok r => Except.ok ⟨r.ret, { s with toFastMUX := r.dev }, r.trace⟩

/-- Member `DataMUX::startBuffering()`. -/
def startBuffering (s : DataMUX) : DataMUX :=
  { s with buffering := true, bufferIndex := 0 }

end DataMUX

/-! ## Bus-addressed multiplexers (I2CMUX.h) -/

/-- Fields of `class TCA9548A` (the `wire` handle belongs to the platform). -/
structure TCA9548A extends MUXManager where
  scanning : Bool
  scanInterval : Nat
  lastScanTime : Nat
  scanStartCh : Nat
  scanEndCh : Nat
  deriving DecidableEq, Repr

namespace TCA9548A

/-- Constructor `TCA9548A(address, wirePort)`. -/
def new (address : Nat) : TCA9548A :=
  { MUXManager.new address 8 with
    scanning := false, scanInterval := 100, lastScanTime := 0,
    scanStartCh := 0, scanEndCh := 7 }

/-- Member `TCA9548A::setChannel(channel)`; the payload `1 << channel` is sent as one byte. -/
def setChannel (env : Env) (hist : List Event) (s : TCA9548A) (channel : Nat) :
    Except Fault (Step TCA9548A MUXStatus) :=
  if s.isValidChannel channel = false then Except.ok ⟨MUXStatus.ERROR_CHANNEL_INVALID, s, []⟩
  else if s.enabled = false then Except.ok ⟨MUXStatus.ERROR_NOT_ENABLED, s, []⟩
  else
    let tx := [Event.beginTransmission s.deviceAddress, Event.wireWrite ((1 <<< channel) % 256)]
    let code := env.endTransmission (hist ++ tx)
    if code ≠ 0 then
      Except.ok ⟨MUXStatus.ERROR_COMMUNICATION, s, tx ++ [Event.endTransmission code]⟩
    else
      Except.ok ⟨MUXStatus.OK, { s with currentChannel := channel },
        tx ++ [Event.endTransmission code]⟩

/-- Member `TCA9548A::startScan(startChannel, endChannel)`; `startChannel - 1` is stored
in the 8-bit `currentChannel`. -/
def startScan (s : TCA9548A) (startChannel endChannel : Nat) : Step TCA9548A Bool :=
  if s.isValidChannel startChannel = false ∨ s.isValidChannel endChannel = false then
    ⟨false, s, []⟩
  else
    ⟨true, { s with scanning := true, scanStartCh := startChannel, scanEndCh := endChannel,
                    currentChannel := (startChannel + 255) % 256 }, []⟩

/-- Member `TCA9548A::stopScan()`. -/
def stopScan (s : TCA9548A) : TCA9548A := { s with scanning := false }

/-- Member `TCA9548A::setScanInterval(interval)`. -/
def setScanInterval (s : TCA9548A) (interval : Nat) : TCA9548A :=
  { s with scanInterval := interval }

/-- The test `millis() - lastScanTime >= scanInterval` of `update()`, in 32-bit unsigned
arithmetic, for the clock value `now`. -/
def tickDue (s : TCA9548A) (now : Nat) : Bool :=
  decide (s.scanInterval ≤ (now % 2 ^ 32 + 2 ^ 32 - s.lastScanTime % 2 ^ 32) % 2 ^ 32)

/-- Member `TCA9548A::update()`. The clock is read once by the test (only when a scan is
active) and once more after `setChannel`, whose status is discarded. -/
def update (env : Env) (hist : List Event) (s : TCA9548A) :
    Except Fault (Step TCA9548A Unit) :=
  if s.scanning = false then Except.ok ⟨(), s, []⟩
  else
    let now := env.millis hist
    if s.tickDue now = false then Except.ok ⟨(), s, [Event.millis now]⟩
    else
      let next := (s.currentChannel + 1) % 256
      let next := if next > s.scanEndCh ∨ next < s.scanStartCh then s.scanStartCh else next
      match setChannel env (hist ++ [Event.millis now]) { s with currentChannel := next } next with
      | Except.error f => Except.error f
      | Except.ok r =>
        let later := env.millis (hist ++ [Event.millis now] ++ r.trace)
        Except.ok ⟨(), { r.dev with lastScanTime := later % 2 ^ 32 },
          [Event.millis now] ++ r.trace ++ [Event.millis later]⟩

/-- A call of `update()` in this state fires a tick: a scan is active and the test on
the clock succeeds. -/
def fires (env : Env) (hist : List Event) (s : TCA9548A) : Bool :=
  s.scanning && s.tickDue (env.millis hist)

/-- The calls `update(); update(); ...`, `n` in number; the value returned is the number
of these calls that fired a tick. -/
def updates (env : Env) : Nat → List Event → TCA9548A → Except Fault (Step TCA9548A Nat)
  | 0, _, s => Except.ok ⟨0, s, []⟩
  | n + 1, hist, s =>
    match update env hist s with
    | Except.error f => Except.error f
    | Except.ok r1 =>
      match updates env n (hist ++ r1.trace) r1.dev with
      | Except.error f => Except.error f
      | Except.ok r2 =>
        Except.ok ⟨(if fires env hist s then 1 else 0) + r2.ret, r2.dev, r1.trace ++ r2.trace⟩

/-- The state of a scan of the range `a..b` after `k` ticks have fired: before the first
tick the counter is primed at `a - 1` (as a byte), after the `k`-th tick the channel is
`a + (k - 1) mod (b - a + 1)`. -/
def scanPhase (a b k : Nat) (s : TCA9548A) : Prop :=
  s.scanning = true ∧ s.scanStartCh = a ∧ s.scanEndCh = b ∧ s.enabled = true ∧
  s.maxChannels = 8 ∧
  s.currentChannel = if k = 0 then (a + 255) % 256 else a + (k - 1) % (b - a + 1)

end TCA9548A

/-- Fields of `class PCA9547`. -/
structure PCA9547 extends MUXManager where
  resetPin : Nat
  deriving DecidableEq, Repr

namespace PCA9547

/-- Constructor `PCA9547(address, rstPin, wirePort)`. -/
def new (address rstPin : Nat) : PCA9547 :=
  { MUXManager.new address 8 with resetPin := rstPin }

/-- Member `PCA9547::setChannel(channel)`. -/
def setChannel (env : Env) (hist : List Event) (s : PCA9547) (channel : Nat) :
    Except Fault (Step PCA9547 MUXStatus) :=
  if s.isValidChannel channel = false then Except.ok ⟨MUXStatus.ERROR_CHANNEL_INVALID, s, []⟩
  else if s.enabled = false then Except.ok ⟨MUXStatus.ERROR_NOT_ENABLED, s, []⟩
  else
    let tx := [Event.beginTransmission s.deviceAddress, Event.wireWrite (channel ||| 8)]
    let code := env.endTransmission (hist ++ tx)
    if code ≠ 0 then
      Except.ok ⟨MUXStatus.ERROR_COMMUNICATION, s, tx ++ [Event.endTransmission code]⟩
    else
      Except.ok ⟨MUXStatus.OK, { s with currentChannel := channel },
        tx ++ [Event.endTransmission code]⟩

end PCA9547

/-- Fields of `class PCA9646`. -/
structure PCA9646 extends MUXManager where
  resetPin : Nat
  voltageLevel : Nat
  deriving DecidableEq, Repr

namespace PCA9646

/-- Constructor `PCA9646(address, rstPin, wirePort)`. -/
def new (address rstPin : Nat) : PCA9646 :=
  { MUXManager.new address 4 with resetPin := rstPin, voltageLevel := 33 }

/-- Member `PCA9646::setChannel(channel)`; the payload `1 << channel` is sent as one byte. -/
def setChannel (env : Env) (hist : List Event) (s : PCA9646) (channel : Nat) :
    Except Fault (Step PCA9646 MUXStatus) :=
  if s.isValidChannel channel = false then Except.ok ⟨MUXStatus.ERROR_CHANNEL_INVALID, s, []⟩
  else if s.enabled = false then Except.ok ⟨MUXStatus.ERROR_NOT_ENABLED, s, []⟩
  else
    let tx := [Event.beginTransmission s.deviceAddress, Event.wireWrite ((1 <<< channel) % 256)]
    let code := env.endTransmission (hist ++ tx)
    if code ≠ 0 then
      Except.ok ⟨MUXStatus.ERROR_COMMUNICATION, s, tx ++ [Event.endTransmission code]⟩
    else
      Except.ok ⟨MUXStatus.OK, { s with currentChannel := channel },
        tx ++ [Event.endTransmission code]⟩

end PCA9646

/-! ## `begin()` of the remaining classes -/

/-- Member `HC4052::begin()`. -/
def HC4052.begin (s : HC4052) : Except Fault (Step HC4052 MUXStatus) :=
  match AnalogMUX.begin s.toAnalogMUX with
  | Except.error f => Except.error f
  | Except.ok r =>
    let s1 : HC4052 := { s with toAnalogMUX := r.dev }
    if r.ret ≠ MUXStatus.OK then Except.ok ⟨r.ret, s1, r.trace⟩
    else
      let sig2 := if s.signalPin2 ≠ 255 then [Event.pinMode s.signalPin2 PinMode.INPUT] else []
      Except.ok ⟨MUXStatus.OK, s1, r.trace ++ sig2⟩

/-- Member `ADG508A::begin()`. -/
def ADG508A.begin (s : ADG508A) : Except Fault (Step ADG508A MUXStatus) :=
  match AnalogMUX.begin s.toAnalogMUX with
  | Except.error f => Except.error f
  | Except.ok r =>
    let s1 : ADG508A := { s with toAnalogMUX := r.dev }
    if r.ret ≠ MUXStatus.OK then Except.ok ⟨r.ret, s1, r.trace⟩
    else
      let sigB := if s.isDifferential = true ∧ s.signalPinB ≠ 255 then
        [Event.pinMode s.signalPinB PinMode.INPUT] else []
      Except.ok ⟨MUXStatus.OK, s1, r.trace ++ sigB⟩

/-- Member `ADG506A::begin()`, inherited by `MPC506A`. -/
def ADG506A.begin (s : ADG506A) : Except Fault (Step ADG506A MUXStatus) :=
  match AnalogMUX.begin s.toAnalogMUX with
  | Except.error f => Except.error f
  | Except.ok r =>
    let s1 : ADG506A := { s with toAnalogMUX := r.dev }
    if r.ret ≠ MUXStatus.OK then Except.ok ⟨r.ret, s1, r.trace⟩
    else
      let sigB := if s.isDifferential = true ∧ s.signalPinB ≠ 255 then
        [Event.pinMode s.signalPinB PinMode.INPUT] else []
      Except.ok ⟨MUXStatus.OK, s1, r.trace ++ sigB⟩

/-- Member `DG408::begin()`. -/
def DG408.begin (s : DG408) : Except Fault (Step DG408 MUXStatus) :=
  match AnalogMUX.begin s.toAnalogMUX with
  | Except.error f => Except.error f
  | Except.ok r =>
    let s1 : DG408 := { s with toAnalogMUX := r.dev }
    if r.ret ≠ MUXStatus.OK then Except.ok ⟨r.ret, s1, r.trace⟩
    else Except.ok ⟨MUXStatus.OK, s1, r.trace ++ [Event.pinMode s.signalPinB PinMode.INPUT]⟩

/-- Member `VideoMUX::begin()`. -/
def VideoMUX.begin (s : VideoMUX) : Except Fault (Step VideoMUX MUXStatus) :=
  match FastMUX.begin s.toFastMUX with
  | Except.error f => Except.error f
  | Except.ok r =>
    let s1 : VideoMUX := { s with toFastMUX := r.dev }
    if r.ret ≠ MUXStatus.OK then Except.ok ⟨r.ret, s1, r.trace⟩
    else if s.syncPin ≠ 255 then
      Except.ok ⟨MUXStatus.OK, { s1 with syncEnabled := true },
        r.trace ++ [Event.pinMode s.syncPin PinMode.INPUT]⟩
    else Except.ok ⟨MUXStatus.OK, s1, r.trace⟩

/-- Member `begin()` of `AudioMUX`, inherited from `FastMUX`. -/
def AudioMUX.begin (s : AudioMUX) : Except Fault (Step AudioMUX MUXStatus) :=
  match FastMUX.begin s.toFastMUX with
  | Except.error f => Except.error f
  | Except.ok r => Except.ok ⟨r.ret, { s with toFastMUX := r.dev }, r.trace⟩

/-- Member `TCA9548A::begin()`: the address probe is a transaction without payload. -/
def TCA9548A.begin (env : Env) (hist : List Event) (s : TCA9548A) :
    Step TCA9548A MUXStatus :=
  let probe := [Event.wireBegin, Event.beginTransmission s.deviceAddress]
  let code := env.endTransmission (hist ++ probe)
  if code ≠ 0 then ⟨MUXStatus.ERROR_INIT, s, probe ++ [Event.endTransmission code]⟩
  else ⟨MUXStatus.OK, { s with enabled := true }, probe ++ [Event.endTransmission code]⟩

/-- Member `PCA9547::begin()`. -/
def PCA9547.begin (env : Env) (hist : List Event) (s : PCA9547) :
    Step PCA9547 MUXStatus :=
  let rst := if s.resetPin ≠ 255 then
    [Event.pinMode s.resetPin PinMode.OUTPUT, Event.digitalWrite s.resetPin HIGH] else []
  let probe := [Event.wireBegin] ++ rst ++ [Event.beginTransmission s.deviceAddress]
  let code := env.endTransmission (hist ++ probe)
  if code ≠ 0 then ⟨MUXStatus.ERROR_INIT, s, probe ++ [Event.endTransmission code]⟩
  else ⟨MUXStatus.OK, { s with enabled := true }, probe ++ [Event.endTransmission code]⟩

/-- Member `PCA9646::begin()`. -/
def PCA9646.begin (env : Env) (hist : List Event) (s : PCA9646) :
    Step PCA9646 MUXStatus :=
  let rst := if s.resetPin ≠ 255 then
    [Event.pinMode s.resetPin PinMode.OUTPUT, Event.digitalWrite s.resetPin HIGH] else []
  let probe := [Event.wireBegin] ++ rst ++ [Event.beginTransmission s.deviceAddress]
  let code := env.endTransmission (hist ++ probe)
  if code ≠ 0 then ⟨MUXStatus.ERROR_INIT, s, probe ++ [Event.endTransmission code]⟩
  else ⟨MUXStatus.OK, { s with enabled := true }, probe ++ [Event.endTransmission code]⟩

/-- Member `begin()` of `HC4053`. -/
def HC4053.begin (s : HC4053) : Except Fault (Step HC4053 MUXStatus) :=
  match AnalogMUX.begin s.toAnalogMUX with
  | Except.error f => Except.error f
  | Except.ok r =>
    let s1 : HC4053 := { s with toAnalogMUX := r.dev }
    if r.ret ≠ MUXStatus.OK then Except.ok ⟨r.ret, s1, r.trace⟩
    else
      let sig2 := if s.signalPin2 ≠ 255 then [Event.pinMode s.signalPin2 PinMode.INPUT] else []
      let sig3 := if s.signalPin3 ≠ 255 then [Event.pinMode s.signalPin3 PinMode.INPUT] else []
      Except.ok ⟨MUXStatus.OK, s1, r.trace ++ sig2 ++ sig3⟩

/-! ## Remaining members of the concrete classes -/

/-- Member `HC4052::readChannel2(channel)`. -/
def HC4052.readChannel2 (env : Env) (hist : List Event) (s : HC4052) (channel : Nat) :
    Except Fault (Step HC4052 Nat) :=
  match HC4052.setChannel s channel with
  | Except.error f => Except.error f
  | Except.ok r =>
    if r.ret ≠ MUXStatus.OK then Except.ok ⟨0, r.dev, r.trace⟩
    else
      let wait := Event.delayMicros r.dev.settlingTime
      let sample := env.analogRead (hist ++ r.trace ++ [wait]) r.dev.signalPin2
      Except.ok ⟨sample % 65536, r.dev,
        r.trace ++ [wait, Event.analogRead r.dev.signalPin2 sample]⟩

/-- Member `enable()` of `CD74HC4067`, inherited from `ParallelMUX`. -/
def CD74HC4067.enable (s : CD74HC4067) : Step CD74HC4067 Unit :=
  let r := ParallelMUX.enable s.toParallelMUX
  ⟨(), { s with toParallelMUX := r.dev }, r.trace⟩

/-- Member `disable()` of `CD74HC4067`, inherited from `ParallelMUX`. -/
def CD74HC4067.disable (s : CD74HC4067) : Step CD74HC4067 Unit :=
  let r := ParallelMUX.disable s.toParallelMUX
  ⟨(), { s with toParallelMUX := r.dev }, r.trace⟩

/-- Loop of `DataMUX::flushBuffer()` from index `i`, for `k` more entries:
`status = setChannel(buffer[i]); if (status != OK) return status; delayMicros(1);`.
The result `OK` means that the loop ran to its end. -/
def DataMUX.flushLoop (s : DataMUX) (i : Nat) : Nat → Except Fault (Step DataMUX MUXStatus)
  | 0 => Except.ok ⟨MUXStatus.OK, s, []⟩
  | k + 1 =>
    match s.buffer[i]? with
    | none => Except.error Fault.outOfBounds
    | some channel =>
      match DataMUX.setChannel s channel with
      | Except.error f => Except.error f
      | Except.ok r =>
        if r.ret ≠ MUXStatus.OK then Except.ok ⟨r.ret, r.dev, r.trace⟩
        else
          match DataMUX.flushLoop r.dev (i + 1) k with
          | Except.error f => Except.error f
          | Except.ok r2 =>
            Except.ok ⟨r2.ret, r2.dev, r.trace ++ [Event.delayMicros 1] ++ r2.trace⟩

/-- Member `DataMUX::flushBuffer()`. -/
def DataMUX.flushBuffer (s : DataMUX) : Except Fault (Step DataMUX MUXStatus) :=
  let s1 : DataMUX := { s with buffering := false }
  match DataMUX.flushLoop s1 0 s1.bufferIndex with
  | Except.error f => Except.error f
  | Except.ok r =>
    if r.ret ≠ MUXStatus.OK then Except.ok r
    else Except.ok ⟨MUXStatus.OK, { r.dev with bufferIndex := 0 }, r.trace⟩

/-- Member `DataMUX::clearBuffer()`. -/
def DataMUX.clearBuffer (s : DataMUX) : DataMUX :=
  { s with bufferIndex := 0, buffer := List.replicate BUFFER_SIZE 0 }

/-- Member `reset()` of `PCA9547` and of `PCA9646`, for their `resetPin`. -/
def resetPulse (resetPin : Nat) : List Event :=
  if resetPin ≠ 255 then
    [Event.digitalWrite resetPin LOW, Event.delayMicros 1,
      Event.digitalWrite resetPin HIGH, Event.delayMicros 1]
  else []

/-- Member `PCA9646::setVoltageLevel(level)`. -/
def PCA9646.setVoltageLevel (s : PCA9646) (level : Nat) : PCA9646 :=
  { s with voltageLevel := level }

/-! ## Read operations of the analog multiplexers -/

/-- Conversion of an `int` to `int16_t`. -/
def toInt16 (v : Int) : Int := (v + 32768) % 65536 - 32768

/-- Member `AnalogMUX::readChannel(channel)`. The virtual call of `setChannel`
is the parameter `setChannel` of the subclass `σ`, whose `AnalogMUX` part is `base`. -/
def AnalogMUX.readChannel {σ : Type} (base : σ → AnalogMUX)
    (setChannel : σ → Nat → Except Fault (Step σ MUXStatus))
    (env : Env) (hist : List Event) (s : σ) (channel : Nat) : Except Fault (Step σ Nat) :=
  match setChannel s channel with
  | Except.error f => Except.error f
  | Except.ok r =>
    if r.ret ≠ MUXStatus.OK then Except.ok ⟨0, r.dev, r.trace⟩
    else
      let wait := Event.delayMicros (base r.dev).settlingTime
      let sample := env.analogRead (hist ++ r.trace ++ [wait]) (base r.dev).signalPin
      Except.ok ⟨sample % 65536, r.dev,
        r.trace ++ [wait, Event.analogRead (base r.dev).signalPin sample]⟩

/-- Body shared by the four `readDifferential(channel)` members after their guard:
`setChannel(channel); delayMicros(settlingTime); return analogRead(signalPin) - analogRead(signalPinB);`
with the left operand sampled first. -/
def sampleDifference {σ : Type} (base : σ → AnalogMUX) (pinB : σ → Nat)
    (setChannel : σ → Nat → Except Fault (Step σ MUXStatus))
    (env : Env) (hist : List Event) (s : σ) (channel : Nat) : Except Fault (Step σ Int) :=
  match setChannel s channel with
  | Except.error f => Except.error f
  | Except.ok r =>
    let wait := Event.delayMicros (base r.dev).settlingTime
    let a := env.analogRead (hist ++ r.trace ++ [wait]) (base r.dev).signalPin
    let evA := Event.analogRead (base r.dev).signalPin a
    let b := env.analogRead (hist ++ r.trace ++ [wait, evA]) (pinB r.dev)
    Except.ok ⟨toInt16 ((a : Int) - (b : Int)), r.dev,
      r.trace ++ [wait, evA, Event.analogRead (pinB r.dev) b]⟩

/-- Member `ADG508A::readDifferential(channel)`. -/
def ADG508A.readDifferential (env : Env) (hist : List Event) (s : ADG508A) (channel : Nat) :
    Except Fault (Step ADG508A Int) :=
  if s.isDifferential = false ∨ s.signalPinB = 255 then Except.ok ⟨0, s, []⟩
  else sampleDifference ADG508A.toAnalogMUX ADG508A.signalPinB ADG508A.setChannel
    env hist s channel

/-- Member `ADG706::readDifferential(channel)`. -/
def ADG706.readDifferential (env : Env) (hist : List Event) (s : ADG706) (channel : Nat) :
    Except Fault (Step ADG706 Int) :=
  if s.isDifferential = false ∨ s.signalPinB = 255 then Except.ok ⟨0, s, []⟩
  else sampleDifference ADG706.toAnalogMUX ADG706.signalPinB ADG706.setChannel
    env hist s channel

/-- Member `ADG506A::readDifferential(channel)`. -/
def ADG506A.readDifferential (env : Env) (hist : List Event) (s : ADG506A) (channel : Nat) :
    Except Fault (Step ADG506A Int) :=
  if s.isDifferential = false ∨ s.signalPinB = 255 then Except.ok ⟨0, s, []⟩
  else sampleDifference ADG506A.toAnalogMUX ADG506A.signalPinB ADG506A.setChannel
    env hist s channel

/-- Member `DG408::readDifferential(channel)`. -/
def DG408.readDifferential (env : Env) (hist : List Event) (s : DG408) (channel : Nat) :
    Except Fault (Step DG408 Int) :=
  sampleDifference DG408.toAnalogMUX DG408.signalPinB DG408.setChannel env hist s channel

/-! ## The device families with a `setChannel` -/

/-- A device of any of the concrete classes that define `setChannel`. -/
inductive Device where
  | hc4051 (s : AnalogMUX)
  | hc4067 (s : AnalogMUX)
  | hc4052 (s : HC4052)
  | adg508a (s : ADG508A)
  | adg706 (s : ADG706)
  | adg506a (s : ADG506A)
  | mpc506a (s : ADG506A)
  | dg408 (s : DG408)
  | max4051a (s : AnalogMUX)
  | max4582 (s : MAX4582)
  | hc405x (s : HC405X)
  | cd74hc4067 (s : CD74HC4067)
  | videoMUX (s : VideoMUX)
  | audioMUX (s : AudioMUX)
  | dataMUX (s : DataMUX)
  | tca9548a (s : TCA9548A)
  | pca9547 (s : PCA9547)
  | pca9646 (s : PCA9646)
  deriving DecidableEq, Repr

/-- A result of a subclass seen as a result of `Device`. -/
def liftStep {σ α : Type} (wrap : σ → Device) :
    Except Fault (Step σ α) → Except Fault (Step Device α)
  | Except.error f => Except.error f
  | Except.ok r => Except.ok ⟨r.ret, wrap r.dev, r.trace⟩

namespace Device

/-- The `MUXManager` part of a device. -/
def base : Device → MUXManager
  | hc4051 s => s.toMUXManager
  | hc4067 s => s.toMUXManager
  | hc4052 s => s.toMUXManager
  | adg508a s => s.toMUXManager
  | adg706 s => s.toMUXManager
  | adg506a s => s.toMUXManager
  | mpc506a s => s.toMUXManager
  | dg408 s => s.toMUXManager
  | max4051a s => s.toMUXManager
  | max4582 s => s.toMUXManager
  | hc405x s => s.toMUXManager
  | cd74hc4067 s => s.toMUXManager
  | videoMUX s => s.toMUXManager
  | audioMUX s => s.toMUXManager
  | dataMUX s => s.toMUXManager
  | tca9548a s => s.toMUXManager
  | pca9547 s => s.toMUXManager
  | pca9646 s => s.toMUXManager

/-- Member `getChannel()`, which no class overrides. -/
def getChannel (d : Device) : Nat := d.base.getChannel

/-- Virtual call `begin()`. -/
def begin (env : Env) (hist : List Event) (d : Device) :
    Except Fault (Step Device MUXStatus) :=
  match d with
  | hc4051 s => liftStep hc4051 (AnalogMUX.begin s)
  | hc4067 s => liftStep hc4067 (AnalogMUX.begin s)
  | hc4052 s => liftStep hc4052 (HC4052.begin s)
  | adg508a s => liftStep adg508a (ADG508A.begin s)
  | adg706 s => liftStep adg706 (ADG706.begin s)
  | adg506a s => liftStep adg506a (ADG506A.begin s)
  | mpc506a s => liftStep mpc506a (ADG506A.begin s)
  | dg408 s => liftStep dg408 (DG408.begin s)
  | max4051a s => liftStep max4051a (AnalogMUX.begin s)
  | max4582 s => liftStep max4582 (MAX4582.begin s)
  | hc405x s => liftStep hc405x (HC405X.begin s)
  | cd74hc4067 s => liftStep cd74hc4067 (CD74HC4067.begin s)
  | videoMUX s => liftStep videoMUX (VideoMUX.begin s)
  | audioMUX s => liftStep audioMUX (AudioMUX.begin s)
  | dataMUX s => liftStep dataMUX (DataMUX.begin s)
  | tca9548a s => liftStep tca9548a (Except.ok (TCA9548A.begin env hist s))
  | pca9547 s => liftStep pca9547 (Except.ok (PCA9547.begin env hist s))
  | pca9646 s => liftStep pca9646 (Except.ok (PCA9646.begin env hist s))

/-- Virtual call `setChannel(channel)`. -/
def setChannel (env : Env) (fuel : Nat) (hist : List Event) (d : Device) (channel : Nat) :
    Except Fault (Step Device MUXStatus) :=
  match d with
  | hc4051 s => liftStep hc4051 (HC4051.setChannel s channel)
  | hc4067 s => liftStep hc4067 (HC4067.setChannel s channel)
  | hc4052 s => liftStep hc4052 (HC4052.setChannel s channel)
  | adg508a s => liftStep adg508a (ADG508A.setChannel s channel)
  | adg706 s => liftStep adg706 (ADG706.setChannel s channel)
  | adg506a s => liftStep adg506a (ADG506A.setChannel s channel)
  | mpc506a s => liftStep mpc506a (ADG506A.setChannel s channel)
  | dg408 s => liftStep dg408 (DG408.setChannel s channel)
  | max4051a s => liftStep max4051a (MAX4051A.setChannel s channel)
  | max4582 s => liftStep max4582 (MAX4582.setChannel s channel)
  | hc405x s => liftStep hc405x (HC405X.setChannel s channel)
  | cd74hc4067 s => liftStep cd74hc4067 (CD74HC4067.setChannel env hist s channel)
  | videoMUX s => liftStep videoMUX (VideoMUX.setChannel env fuel hist s channel)
  | audioMUX s => liftStep audioMUX (AudioMUX.setChannel s channel)
  | dataMUX s => liftStep dataMUX (DataMUX.setChannel s channel)
  | tca9548a s => liftStep tca9548a (TCA9548A.setChannel env hist s channel)
  | pca9547 s => liftStep pca9547 (PCA9547.setChannel env hist s channel)
  | pca9646 s => liftStep pca9646 (PCA9646.setChannel env hist s channel)

/-- The device is a `DataMUX` in buffering mode. -/
def isBuffering : Device → Bool
  | dataMUX s => s.buffering
  | _ => false

/-- The device is a `DG408` constructed in DG409 mode. -/
def isDG409Mode : Device → Bool
  | dg408 s => s.isDG409
  | _ => false

/-- The classes whose `setChannel` brackets the select writes with the enable line
(break-before-make): HC4051, HC4067, HC4052, ADG508A, ADG506A (and MPC506A, which
inherits it), MAX4051A. -/
def isBreakBeforeMake : Device → Bool
  | hc4051 _ => true
  | hc4067 _ => true
  | hc4052 _ => true
  | adg508a _ => true
  | adg506a _ => true
  | mpc506a _ => true
  | max4051a _ => true
  | _ => false

/-- The classes whose `setChannel` latches the address with a write/load pulse. -/
def isLatched : Device → Bool
  | adg706 _ => true
  | max4582 _ => true
  | _ => false

/-- The enable pin of the device; 255 when the class has no such member or none was given. -/
def enablePin : Device → Nat
  | hc4051 s => s.enablePin
  | hc4067 s => s.enablePin
  | hc4052 s => s.enablePin
  | adg508a s => s.enablePin
  | adg706 s => s.enablePin
  | adg506a s => s.enablePin
  | mpc506a s => s.enablePin
  | dg408 s => s.enablePin
  | max4051a s => s.enablePin
  | max4582 s => s.enablePin
  | hc405x s => s.enablePin
  | cd74hc4067 s => s.enablePin
  | _ => 255

/-- The stored select (address) pins of the device, in index order. -/
def selectPins : Device → List Nat
  | hc4051 s => s.selectPins.getD []
  | hc4067 s => s.selectPins.getD []
  | hc4052 s => s.selectPins.getD []
  | adg508a s => s.selectPins.getD []
  | adg706 s => s.selectPins.getD []
  | adg506a s => s.selectPins.getD []
  | mpc506a s => s.selectPins.getD []
  | dg408 s => s.selectPins.getD []
  | max4051a s => s.selectPins.getD []
  | max4582 s => s.selectPins.getD []
  | hc405x s => s.selectPins
  | cd74hc4067 s => s.selectPins
  | videoMUX s => s.pins.getD []
  | audioMUX s => s.pins.getD []
  | dataMUX s => s.pins.getD []
  | _ => []

/-- The write pin of an `ADG706`, the load pin of a `MAX4582`; 255 for the other classes. -/
def strobePin : Device → Nat
  | adg706 s => s.writePin
  | max4582 s => s.loadPin
  | _ => 255

/-- The code a successful `setChannel(channel)` puts on the select lines: the channel
itself, except on a `DG408` in DG409 mode. -/
def addressCode (d : Device) (channel : Nat) : Nat :=
  if d.isDG409Mode then DG408.dg409Code channel else channel

/-- The device is a `PCA9547`, whose payload is the channel code with the enable bit. -/
def isPCA9547 : Device → Bool
  | pca9547 _ => true
  | _ => false

/-- The pin list of an `AnalogMUX` or `FastMUX` device could not be stored (null pointer). -/
def pinsMissing : Device → Bool
  | hc4051 s => s.selectPins.isNone
  | hc4067 s => s.selectPins.isNone
  | hc4052 s => s.selectPins.isNone
  | adg508a s => s.selectPins.isNone
  | adg706 s => s.selectPins.isNone
  | adg506a s => s.selectPins.isNone
  | mpc506a s => s.selectPins.isNone
  | dg408 s => s.selectPins.isNone
  | max4051a s => s.selectPins.isNone
  | max4582 s => s.selectPins.isNone
  | videoMUX s => s.pins.isNone
  | audioMUX s => s.pins.isNone
  | dataMUX s => s.pins.isNone
  | _ => false

/-- The device is driven through GPIO pins (not through the bus). -/
def isGPIO : Device → Bool
  | tca9548a _ => false
  | pca9547 _ => false
  | pca9646 _ => false
  | _ => true

/-- The constants fixed by the constructor of the class: the channel count and
the number of select lines. No member function changes them. -/
def inv : Device → Bool
  | hc4051 s => s.numSelectPins == 3 && s.maxChannels == 8
  | hc4067 s => s.numSelectPins == 4 && s.maxChannels == 16
  | hc4052 s => s.numSelectPins == 2 && s.maxChannels == 4
  | adg508a s => s.numSelectPins == 3 && s.maxChannels == 8
  | adg706 s => s.numSelectPins == 4 && s.maxChannels == 16
  | adg506a s => s.numSelectPins == (if s.is506 then 4 else 3) &&
      s.maxChannels == (if s.is506 then 16 else 8)
  | mpc506a s => s.numSelectPins == (if s.is506 then 4 else 3) &&
      s.maxChannels == (if s.is506 then 16 else 8)
  | dg408 s => s.numSelectPins == 3 && s.maxChannels == 8
  | max4051a s => s.numSelectPins == 3 && s.maxChannels == 8
  | max4582 s => s.numSelectPins == 3 && s.maxChannels == 8
  | hc405x s =>
      s.numSelectPins == (if s.muxType = 1 then 3 else if s.muxType = 2 then 2 else 1) &&
      s.maxChannels == (if s.muxType = 1 then 8 else if s.muxType = 2 then 4 else 2)
  | cd74hc4067 s => s.numSelectPins == 4 && s.maxChannels == 16
  | videoMUX s => s.maxChannels == (1 <<< s.numPins) % 256
  | audioMUX s => s.maxChannels == (1 <<< s.numPins) % 256
  | dataMUX s => s.maxChannels == (1 <<< s.numPins) % 256
  | tca9548a s => s.maxChannels == 8
  | pca9547 s => s.maxChannels == 8
  | pca9646 s => s.maxChannels == 4

/-- The list of select pins was stored at construction, one pin per select line. -/
def pinsStored : Device → Bool
  | hc4051 s => hasPins s.selectPins s.numSelectPins
  | hc4067 s => hasPins s.selectPins s.numSelectPins
  | hc4052 s => hasPins s.selectPins s.numSelectPins
  | adg508a s => hasPins s.selectPins s.numSelectPins
  | adg706 s => hasPins s.selectPins s.numSelectPins
  | adg506a s => hasPins s.selectPins s.numSelectPins
  | mpc506a s => hasPins s.selectPins s.numSelectPins
  | dg408 s => hasPins s.selectPins s.numSelectPins
  | max4051a s => hasPins s.selectPins s.numSelectPins
  | max4582 s => hasPins s.selectPins s.numSelectPins
  | hc405x s => hasPins (some s.selectPins) s.numSelectPins
  | cd74hc4067 s => hasPins (some s.selectPins) s.numSelectPins
  | videoMUX s => hasPins s.pins s.numPins
  | audioMUX s => hasPins s.pins s.numPins
  | dataMUX s => hasPins s.pins s.numPins
  | tca9548a _ => true
  | pca9547 _ => true
  | pca9646 _ => true

/-- The device is a `VideoMUX` that polls its sync pin before switching. -/
def waitsForSync : Device → Bool
  | videoMUX s => s.syncEnabled
  | _ => false

end Device

/-! ## The public operations as steps

The members that change the state of a device or call the platform. The members that
only return a value (`getChannel`, `isEnabled`, `selfTest`, `readDiagnostics`,
`getChannelValue`), the empty `sleep` and `wake`, and `setI2CSpeed` (which at most
forwards to the platform's clock setting) are left out. -/

/-- A call of a public member function, with its arguments. -/
inductive Op where
  | begin
  | setChannel (channel : Nat)
  | enable
  | disable
  | attachInterrupt (callback : Option Nat) (pin : Nat) (mode : InterruptMode)
  | detachInterrupt
  | startScan (startChannel endChannel : Nat)
  | stopScan
  | update
  | setScanInterval (interval : Nat)
  | setSettlingTime (microseconds : Nat)
  | readChannel (channel : Nat)
  | readChannel2 (channel : Nat)
  | readDifferential (channel : Nat)
  | enableAutoRead (enable : Bool)
  | setSyncEnabled (enable : Bool)
  | configureFade (steps delayUs : Nat) (enable : Bool)
  | startBuffering
  | flushBuffer
  | clearBuffer
  | reset
  | setVoltageLevel (level : Nat)
  deriving DecidableEq, Repr

/-- The value returned by a call; `absent` when the class of the device has no such
member (the call is then no step at all). -/
inductive Ret where
  | unit
  | status (st : MUXStatus)
  | flag (b : Bool)
  | sample (v : Nat)
  | difference (v : Int)
  | absent
  deriving DecidableEq, Repr

/-- A result of a subclass seen as a result of `Device`, with its value wrapped. -/
def liftRet {σ α : Type} (wrap : σ → Device) (val : α → Ret) :
    Except Fault (Step σ α) → Except Fault (Step Device Ret)
  | Except.error f => Except.error f
  | Except.ok r => Except.ok ⟨val r.ret, wrap r.dev, r.trace⟩

namespace Device

/-- The device with its `MUXManager` part replaced by `f` of it. -/
def mapBase (f : MUXManager → MUXManager) : Device → Device
  | hc4051 s => hc4051 { s with toMUXManager := f s.toMUXManager }
  | hc4067 s => hc4067 { s with toMUXManager := f s.toMUXManager }
  | hc4052 s => hc4052 { s with toMUXManager := f s.toMUXManager }
  | adg508a s => adg508a { s with toMUXManager := f s.toMUXManager }
  | adg706 s => adg706 { s with toMUXManager := f s.toMUXManager }
  | adg506a s => adg506a { s with toMUXManager := f s.toMUXManager }
  | mpc506a s => mpc506a { s with toMUXManager := f s.toMUXManager }
  | dg408 s => dg408 { s with toMUXManager := f s.toMUXManager }
  | max4051a s => max4051a { s with toMUXManager := f s.toMUXManager }
  | max4582 s => max4582 { s with toMUXManager := f s.toMUXManager }
  | hc405x s => hc405x { s with toMUXManager := f s.toMUXManager }
  | cd74hc4067 s => cd74hc4067 { s with toMUXManager := f s.toMUXManager }
  | videoMUX s => videoMUX { s with toMUXManager := f s.toMUXManager }
  | audioMUX s => audioMUX { s with toMUXManager := f s.toMUXManager }
  | dataMUX s => dataMUX { s with toMUXManager := f s.toMUXManager }
  | tca9548a s => tca9548a { s with toMUXManager := f s.toMUXManager }
  | pca9547 s => pca9547 { s with toMUXManager := f s.toMUXManager }
  | pca9646 s => pca9646 { s with toMUXManager := f s.toMUXManager }

/-- The `AnalogMUX` part of a device of an analog class (for the other classes, which
have none, an `AnalogMUX` without pins). -/
def analogPart : Device → AnalogMUX
  | hc4051 s => s
  | hc4067 s => s
  | hc4052 s => s.toAnalogMUX
  | adg508a s => s.toAnalogMUX
  | adg706 s => s.toAnalogMUX
  | adg506a s => s.toAnalogMUX
  | mpc506a s => s.toAnalogMUX
  | dg408 s => s.toAnalogMUX
  | max4051a s => s
  | max4582 s => s.toAnalogMUX
  | _ => AnalogMUX.new [] 0 255 255 false

/-- The device is of a class derived from `AnalogMUX`. -/
def isAnalog : Device → Bool
  | hc4051 _ => true
  | hc4067 _ => true
  | hc4052 _ => true
  | adg508a _ => true
  | adg706 _ => true
  | adg506a _ => true
  | mpc506a _ => true
  | dg408 _ => true
  | max4051a _ => true
  | max4582 _ => true
  | _ => false

/-- Virtual call `enable()`: `ParallelMUX::enable` on the parallel classes,
`MUXManager::enable` on the others. -/
def enable : Device → Step Device Unit
  | hc405x s => let r := HC405X.enable s; ⟨(), hc405x r.dev, r.trace⟩
  | cd74hc4067 s => let r := CD74HC4067.enable s; ⟨(), cd74hc4067 r.dev, r.trace⟩
  | d => ⟨(), d.mapBase MUXManager.enable, []⟩

/-- Virtual call `disable()`: `ParallelMUX::disable` on the parallel classes,
`MUXManager::disable` on the others. -/
def disable : Device → Step Device Unit
  | hc405x s => let r := HC405X.disable s; ⟨(), hc405x r.dev, r.trace⟩
  | cd74hc4067 s => let r := CD74HC4067.disable s; ⟨(), cd74hc4067 r.dev, r.trace⟩
  | d => ⟨(), d.mapBase MUXManager.disable, []⟩

/-- Call `attachInterrupt(callback, pin, mode)`, which no class overrides. -/
def attachInterrupt (d : Device) (callback : Option Nat) (pin : Nat) (mode : InterruptMode) :
    Step Device Unit :=
  ⟨(), d.mapBase (fun m => (m.attachInterrupt callback pin mode).dev),
    (d.base.attachInterrupt callback pin mode).trace⟩

/-- Call `detachInterrupt()`, which no class overrides. -/
def detachInterrupt (d : Device) : Step Device Unit :=
  ⟨(), d.mapBase (fun m => m.detachInterrupt.dev), d.base.detachInterrupt.trace⟩

/-- Call `readChannel(channel)`: `AnalogMUX::readChannel` with the virtual `setChannel`
on the analog classes, `CD74HC4067::readChannel` on a `CD74HC4067`. -/
def readChannel (env : Env) (fuel : Nat) (hist : List Event) (d : Device) (channel : Nat) :
    Except Fault (Step Device Ret) :=
  match d with
  | cd74hc4067 s => liftRet cd74hc4067 Ret.sample (CD74HC4067.readChannel env hist s channel)
  | d =>
    if d.isAnalog then
      liftRet id Ret.sample
        (AnalogMUX.readChannel analogPart (setChannel env fuel hist) env hist d channel)
    else Except.ok ⟨Ret.absent, d, []⟩

/-- Call `readDifferential(channel)` on the classes that have it. -/
def readDifferential (env : Env) (hist : List Event) (d : Device) (channel : Nat) :
    Except Fault (Step Device Ret) :=
  match d with
  | adg508a s => liftRet adg508a Ret.difference (ADG508A.readDifferential env hist s channel)
  | adg706 s => liftRet adg706 Ret.difference (ADG706.readDifferential env hist s channel)
  | adg506a s => liftRet adg506a Ret.difference (ADG506A.readDifferential env hist s channel)
  | mpc506a s => liftRet mpc506a Ret.difference (ADG506A.readDifferential env hist s channel)
  | dg408 s => liftRet dg408 Ret.difference (DG408.readDifferential env hist s channel)
  | d => Except.ok ⟨Ret.absent, d, []⟩

/-- The scan state of a `TCA9548A`: `scanning`, `scanStartCh`, `scanEndCh`; `none` for
the classes that have no scan. -/
def scanFields : Device → Option (Bool × Nat × Nat)
  | tca9548a s => some (s.scanning, s.scanStartCh, s.scanEndCh)
  | _ => none

/-- The device is a `TCA9548A` whose channel counter holds the priming value 255, the
byte that `startScan(0, end)` stores for `0 - 1`. -/
def primed : Device → Bool
  | tca9548a s => s.currentChannel == 255 && s.scanStartCh == 0
  | _ => false

/-- The state a constructor leaves: the constants of the class, `currentChannel` 0, and
on a `TCA9548A` no scan and the range 0..7. -/
def constructed (d : Device) : Bool :=
  d.inv && d.base.currentChannel == 0 &&
  (d.scanFields == none || d.scanFields == some (false, 0, 7))

/-- What a call of `setChannel` may change, seen from outside: nothing of the constants,
of `enabled` or of the scan state, and `currentChannel` is either kept or valid. -/
def evolves (d d' : Device) : Prop :=
  d'.inv = d.inv ∧ d'.base.maxChannels = d.base.maxChannels ∧
  d'.base.enabled = d.base.enabled ∧ d'.scanFields = d.scanFields ∧
  (d'.base.currentChannel = d.base.currentChannel ∨
    d'.base.currentChannel < d.base.maxChannels)

/-- One call of a public member on a device. -/
def perform (env : Env) (fuel : Nat) (hist : List Event) (d : Device) :
    Op → Except Fault (Step Device Ret)
  | Op.begin => liftRet id Ret.status (d.begin env hist)
  | Op.setChannel channel => liftRet id Ret.status (d.setChannel env fuel hist channel)
  | Op.enable => Except.ok ⟨Ret.unit, d.enable.dev, d.enable.trace⟩
  | Op.disable => Except.ok ⟨Ret.unit, d.disable.dev, d.disable.trace⟩
  | Op.attachInterrupt callback pin mode =>
    Except.ok ⟨Ret.unit, (d.attachInterrupt callback pin mode).dev,
      (d.attachInterrupt callback pin mode).trace⟩
  | Op.detachInterrupt => Except.ok ⟨Ret.unit, d.detachInterrupt.dev, d.detachInterrupt.trace⟩
  | Op.startScan a b =>
    match d with
    | tca9548a s => Except.ok ⟨Ret.flag (s.startScan a b).ret, tca9548a (s.startScan a b).dev, []⟩
    | d => Except.ok ⟨Ret.flag false, d, []⟩
  | Op.stopScan =>
    match d with
    | tca9548a s => Except.ok ⟨Ret.unit, tca9548a s.stopScan, []⟩
    | d => Except.ok ⟨Ret.unit, d, []⟩
  | Op.update =>
    match d with
    | tca9548a s => liftRet tca9548a (fun _ => Ret.unit) (s.update env hist)
    | d => Except.ok ⟨Ret.absent, d, []⟩
  | Op.setScanInterval interval =>
    match d with
    | tca9548a s => Except.ok ⟨Ret.unit, tca9548a (s.setScanInterval interval), []⟩
    | d => Except.ok ⟨Ret.absent, d, []⟩
  | Op.setSettlingTime us =>
    match d with
    | hc4051 s => Except.ok ⟨Ret.unit, hc4051 (s.setSettlingTime us), []⟩
    | hc4067 s => Except.ok ⟨Ret.unit, hc4067 (s.setSettlingTime us), []⟩
    | hc4052 s => Except.ok ⟨Ret.unit,
        hc4052 { s with toAnalogMUX := s.toAnalogMUX.setSettlingTime us }, []⟩
    | adg508a s => Except.ok ⟨Ret.unit,
        adg508a { s with toAnalogMUX := s.toAnalogMUX.setSettlingTime us }, []⟩
    | adg706 s => Except.ok ⟨Ret.unit,
        adg706 { s with toAnalogMUX := s.toAnalogMUX.setSettlingTime us }, []⟩
    | adg506a s => Except.ok ⟨Ret.unit,
        adg506a { s with toAnalogMUX := s.toAnalogMUX.setSettlingTime us }, []⟩
    | mpc506a s => Except.ok ⟨Ret.unit,
        mpc506a { s with toAnalogMUX := s.toAnalogMUX.setSettlingTime us }, []⟩
    | dg408 s => Except.ok ⟨Ret.unit,
        dg408 { s with toAnalogMUX := s.toAnalogMUX.setSettlingTime us }, []⟩
    | max4051a s => Except.ok ⟨Ret.unit, max4051a (s.setSettlingTime us), []⟩
    | max4582 s => Except.ok ⟨Ret.unit,
        max4582 { s with toAnalogMUX := s.toAnalogMUX.setSettlingTime us }, []⟩
    | d => Except.ok ⟨Ret.absent, d, []⟩
  | Op.readChannel channel => d.readChannel env fuel hist channel
  | Op.readChannel2 channel =>
    match d with
    | hc4052 s => liftRet hc4052 Ret.sample (s.readChannel2 env hist channel)
    | d => Except.ok ⟨Ret.absent, d, []⟩
  | Op.readDifferential channel => d.readDifferential env hist channel
  | Op.enableAutoRead enable =>
    match d with
    | cd74hc4067 s => Except.ok ⟨Ret.unit, cd74hc4067 (s.enableAutoRead enable), []⟩
    | d => Except.ok ⟨Ret.absent, d, []⟩
  | Op.setSyncEnabled enable =>
    match d with
    | videoMUX s => Except.ok ⟨Ret.unit, videoMUX (s.setSyncEnabled enable), []⟩
    | d => Except.ok ⟨Ret.absent, d, []⟩
  | Op.configureFade steps delayUs enable =>
    match d with
    | audioMUX s => Except.ok ⟨Ret.unit, audioMUX (s.configureFade steps delayUs enable), []⟩
    | d => Except.ok ⟨Ret.absent, d, []⟩
  | Op.startBuffering =>
    match d with
    | dataMUX s => Except.ok ⟨Ret.unit, dataMUX s.startBuffering, []⟩
    | d => Except.ok ⟨Ret.absent, d, []⟩
  | Op.flushBuffer =>
    match d with
    | dataMUX s => liftRet dataMUX Ret.status s.flushBuffer
    | d => Except.ok ⟨Ret.absent, d, []⟩
  | Op.clearBuffer =>
    match d with
    | dataMUX s => Except.ok ⟨Ret.unit, dataMUX s.clearBuffer, []⟩
    | d => Except.ok ⟨Ret.absent, d, []⟩
  | Op.reset =>
    match d with
    | pca9547 s => Except.ok ⟨Ret.unit, d, resetPulse s.resetPin⟩
    | pca9646 s => Except.ok ⟨Ret.unit, d, resetPulse s.resetPin⟩
    | d => Except.ok ⟨Ret.absent, d, []⟩
  | Op.setVoltageLevel level =>
    match d with
    | pca9646 s => Except.ok ⟨Ret.unit, pca9646 (s.setVoltageLevel level), []⟩
    | d => Except.ok ⟨Ret.absent, d, []⟩

/-- A sequence of calls on one device, in order; the value returned is the log of the
calls with the value each returned. -/
def run (env : Env) (fuel : Nat) :
    List Op → List Event → Device → Except Fault (Step Device (List (Op × Ret)))
  | [], _, d => Except.ok ⟨[], d, []⟩
  | op :: rest, hist, d =>
    match d.perform env fuel hist op with
    | Except.error f => Except.error f
    | Except.ok r1 =>
      match run env fuel rest (hist ++ r1.trace) r1.dev with
      | Except.error f => Except.error f
      | Except.ok r2 => Except.ok ⟨(op, r1.ret) :: r2.ret, r2.dev, r1.trace ++ r2.trace⟩

end Device

/-! ## Pin levels as a function of the pin writes -/

/-- Output levels after a list of pin writes `(pin, level)`. -/
def writeAll (levels : Nat → Nat) : List (Nat × Nat) → Nat → Nat
  | [] => levels
  | w :: rest => writeAll (fun q => if q = w.1 then w.2 else levels q) rest

/-- The level last written to pin `q` by a list of pin writes, if any. -/
def lastWrite (q : Nat) : List (Nat × Nat) → Option Nat
  | [] => none
  | w :: rest =>
    match lastWrite q rest with
    | some v => some v
    | none => if q = w.1 then some w.2 else none

/-! ## A platform used in the examples -/

/-- A platform on which every read returns zero: samples are 0, pins read LOW,
bus transactions complete with code 0. -/
def quietEnv : Env :=
  { analogRead := fun _ _ => 0, digitalRead := fun _ _ => 0,
    endTransmission := fun _ => 0, millis := fun _ => 0 }

/-- An 8-channel `HC4051` on select pins 2, 3, 4 with signal pin 14 and enable pin 5,
in the state `begin()` leaves it in. -/
def startedHC4051 : AnalogMUX :=
  { HC4051.new [2, 3, 4] 14 5 true with enabled := true }

/-- A 16-channel `ADG706` on address pins 2, 3, 4, 5 with signal pin 14, write pin 6 and
enable pin 7, in the state `begin()` leaves it in. -/
def startedADG706 : ADG706 :=
  { ADG706.new [2, 3, 4, 5] 14 6 7 false 255 true with enabled := true }

/-- A differential `ADG508A` (ADG509A) on select pins 2, 3, 4 with signal pins 14 and 15
and enable pin 5, in the state `begin()` leaves it in. -/
def startedADG508A : ADG508A :=
  { ADG508A.new [2, 3, 4] 14 5 true 15 true with enabled := true }

/-- A `CD74HC4067` on select pins 2, 3, 4, 5 with enable pin 6 and signal pin 14 that is
not enabled: the state left by the constructor, and again by `begin()` followed by
`disable()`. -/
def disabledCD74HC4067 : CD74HC4067 :=
  CD74HC4067.new [2, 3, 4, 5] 6 14 true

/-- A platform whose analog pin 14 samples 700 and whose other analog pins sample 200. -/
def sampleEnv : Env :=
  { analogRead := fun _ pin => if pin = 14 then 700 else 200,
    digitalRead := fun _ _ => 0, endTransmission := fun _ => 0, millis := fun _ => 0 }

/-- A platform whose analog samples are all 70000, a value of `int` that does not fit the
`uint16_t` result of the read operations. -/
def wideSampleEnv : Env :=
  { analogRead := fun _ _ => 70000, digitalRead := fun _ _ => 0,
    endTransmission := fun _ => 0, millis := fun _ => 0 }

/-- A triple `HC4053` on select pins 2, 3, 4 with signal pins 14, 15, 16 and enable pin 5,
in the state `begin()` leaves it in. -/
def startedHC4053 : HC4053 :=
  { HC4053.new [2, 3, 4] 14 15 16 5 true with enabled := true }

/-- A `TCA9548A` at address 0x70 in the state a successful `begin()` leaves it in. -/
def startedTCA9548A : TCA9548A :=
  { TCA9548A.new 112 with enabled := true }

/-- A platform whose bus transactions fail: every completion code is 2. -/
def deadBusEnv : Env :=
  { analogRead := fun _ _ => 0, digitalRead := fun _ _ => 0,
    endTransmission := fun _ => 2, millis := fun _ => 0 }

/-- A platform whose clock advances by 100 ms with every event and whose bus transactions
succeed. -/
def tickingEnv : Env :=
  { analogRead := fun _ _ => 0, digitalRead := fun _ _ => 0,
    endTransmission := fun _ => 0, millis := fun h => 100 * (h.length + 1) }

/-- A platform whose first bus transaction fails (code 2) and whose later ones succeed. -/
def flakyBusEnv : Env :=
  { analogRead := fun _ _ => 0, digitalRead := fun _ _ => 0,
    endTransmission := fun h => if h.length < 3 then 2 else 0, millis := fun _ => 0 }

/-! ## Interrupt registrations kept by the platform -/

/-- Effect of one event on the set of pins that have an interrupt registered with the
platform: `::attachInterrupt(digitalPinToInterrupt(pin), ...)` registers the pin,
`::detachInterrupt(digitalPinToInterrupt(pin))` removes it. -/
def Event.register (reg : Nat → Bool) : Event → Nat → Bool
  | Event.attachInterrupt pin _ => fun q => q == pin || reg q
  | Event.detachInterrupt pin => fun q => q != pin && reg q
  | _ => reg

/-- The set of registered pins after a list of events. -/
def registeredFrom (reg : Nat → Bool) : List Event → Nat → Bool
  | [] => reg
  | e :: rest => registeredFrom (Event.register reg e) rest

/-- The set of registered pins after a list of events on a platform that starts with no
registration. -/
def registered (events : List Event) : Nat → Bool :=
  registeredFrom (fun _ => false) events

/-- The in-class version of `detachInterrupt()` in MUXlib.h, which keeps `interruptFlag`. -/
def MUXManager.detachInterruptInline (s : MUXManager) : Step MUXManager Unit :=
  if s.interruptPin ≠ 255 then
    ⟨(), { s with interruptHandler := none, interruptPin := 255 },
      [Event.detachInterrupt s.interruptPin]⟩
  else ⟨(), s, []⟩

/-- Destructor `MUXManager::~MUXManager()`: `if (interruptPin != 255) detachInterrupt();`.
The value is the list of platform calls it makes. -/
def MUXManager.destroy (s : MUXManager) : List Event :=
  if s.interruptPin ≠ 255 then s.detachInterrupt.trace else []

/-- Destruction of a device: the destructors of the derived classes release the arrays
they allocated and call nothing of the platform; `~MUXManager()` runs last. -/
def Device.destroy (d : Device) : List Event := d.base.destroy

/-! ## PrecisionMUX (SpecializedMUX.h) -/

/-- Fields of `class PrecisionMUX`; a table is `none` when its `malloc` returned null.
Offsets are `int16_t`, gains `uint16_t`. -/
structure PrecisionMUX extends FastMUX where
  calibrationOffsets : Option (List Int)
  calibrationGains : Option (List Nat)
  calibrated : Bool
  deriving DecidableEq, Repr

/-- Conversion of an integer to `int32_t` (two's complement wrap). -/
def toInt32 (v : Int) : Int := (v + 2 ^ 31) % 2 ^ 32 - 2 ^ 31

/-- The platform's `constrain(amt, low, high)`:
`((amt) < (low) ? (low) : ((amt) > (high) ? (high) : (amt)))`. -/
def constrain (amt low high : Int) : Int :=
  if amt < low then low else if amt > high then high else amt

namespace PrecisionMUX

/-- Constructor `PrecisionMUX(controlPins, pinCount)`. `offsetsAllocated` and
`gainsAllocated` tell whether the two `malloc` calls succeeded; the tables are filled
(offset 0, gain 1024) only when both did, otherwise a table that was allocated keeps the
contents `junkOffsets`, `junkGains` that the allocator handed out. -/
def new (controlPins : List Nat) (pinCount : Nat) (allocated : Bool)
    (offsetsAllocated gainsAllocated : Bool) (junkOffsets : List Int) (junkGains : List Nat) :
    PrecisionMUX :=
  let base := FastMUX.new controlPins pinCount ((1 <<< pinCount) % 256) allocated
  { base with
    calibrationOffsets :=
      if offsetsAllocated then
        some (if gainsAllocated then List.replicate base.maxChannels 0 else junkOffsets)
      else none,
    calibrationGains :=
      if gainsAllocated then
        some (if offsetsAllocated then List.replicate base.maxChannels 1024 else junkGains)
      else none,
    calibrated := false }

/-- Member `PrecisionMUX::begin()`. -/
def begin (s : PrecisionMUX) : Except Fault (Step PrecisionMUX MUXStatus) :=
  if s.calibrationOffsets = none ∨ s.calibrationGains = none then
    Except.ok ⟨MUXStatus.ERROR_INIT, s, []⟩
  else
    match FastMUX.begin s.toFastMUX with
    | Except.error f => Except.error f
    | Except.ok r => Except.ok ⟨r.ret, { s with toFastMUX := r.dev }, r.trace⟩

/-- Member `PrecisionMUX::setCalibration(channel, offset, gain)`; `offset` is an `int16_t`
and `gain` a `uint16_t` by their types. -/
def setCalibration (s : PrecisionMUX) (channel : Nat) (offset : Int) (gain : Nat) :
    Except Fault PrecisionMUX :=
  if s.isValidChannel channel = false then Except.ok s
  else
    match s.calibrationOffsets, s.calibrationGains with
    | some offsets, some gains =>
      if channel < offsets.length ∧ channel < gains.length then
        Except.ok { s with calibrationOffsets := some (offsets.set channel offset),
                           calibrationGains := some (gains.set channel gain),
                           calibrated := true }
      else Except.error Fault.outOfBounds
    | _, _ => Except.ok s

/-- Member `PrecisionMUX::applyCalibration(channel, value)`; `value` is an `int16_t` by
its type. The sum and the product are taken in `int32_t`; where the exact product does
not fit, the language leaves the result undefined and the supported compilers wrap it,
which is what `toInt32` records. `>>= 10` on a negative value is the arithmetic shift. -/
def applyCalibration (s : PrecisionMUX) (channel : Nat) (value : Int) : Except Fault Int :=
  if s.calibrated = false ∨ s.isValidChannel channel = false then Except.ok value
  else
    match s.calibrationOffsets, s.calibrationGains with
    | some offsets, some gains =>
      match offsets[channel]?, gains[channel]? with
      | some offset, some gain =>
        let sum := toInt32 (value + offset)
        let product := toInt32 (sum * (gain : Int))
        let shifted := product >>> (10 : Nat)
        Except.ok (toInt16 (constrain shifted (-32768) 32767))
      | _, _ => Except.error Fault.outOfBounds
    | _, _ => Except.error Fault.nullPointer

/-- The calibration tables agree with the rest of the state: both allocated with one entry
per channel, or at least one missing and the device not marked calibrated. Every
constructor call establishes this and no member function breaks it. -/
def tablesOk (s : PrecisionMUX) : Bool :=
  match s.calibrationOffsets, s.calibrationGains with
  | some offsets, some gains =>
    offsets.length == s.maxChannels && gains.length == s.maxChannels
  | _, _ => !s.calibrated

/-- A sequence of `setCalibration(channel, offset, gain)` calls, in order. -/
def setCalibrations (s : PrecisionMUX) :
    List (Nat × Int × Nat) → Except Fault PrecisionMUX
  | [] => Except.ok s
  | c :: rest =>
    match s.setCalibration c.1 c.2.1 c.2.2 with
    | Except.error f => Except.error f
    | Except.ok s1 => setCalibrations s1 rest

end PrecisionMUX

/-! ## States used in the examples of the batch mode -/

/-- A 4-channel `DataMUX` on control pins 2 and 3 in the state `begin()` leaves it in. -/
def startedDataMUX : DataMUX :=
  { DataMUX.new [2, 3] 2 true with enabled := true, pinMask := 12 }

/-! ## Utility functions (MUXLib.cpp) -/

namespace Utility

/-- Function `Utility::reverseBits(b)`; each assignment stores into the `uint8_t` `b`. -/
def reverseBits (b : Nat) : Nat :=
  let b := (((b &&& 0xF0) >>> 4) ||| ((b &&& 0x0F) <<< 4)) % 256
  let b := (((b &&& 0xCC) >>> 2) ||| ((b &&& 0x33) <<< 2)) % 256
  let b := (((b &&& 0xAA) >>> 1) ||| ((b &&& 0x55) <<< 1)) % 256
  b

/-- One pass of the inner loop of `calculateCRC`:
`if (crc & 0x0001) { crc >>= 1; crc ^= 0xA001; } else { crc >>= 1; }`. -/
def crcShift (crc : Nat) : Nat :=
  if crc &&& 0x0001 ≠ 0 then (crc >>> 1) ^^^ 0xA001 else crc >>> 1

/-- The inner loop `for (j = 0; j < 8; j++)` of `calculateCRC`, for `k` passes. -/
def crcShifts (crc : Nat) : Nat → Nat
  | 0 => crc
  | k + 1 => crcShifts (crcShift crc) k

/-- The outer loop of `calculateCRC` from index `i`, for `k` more bytes:
`crc ^= data[i];` followed by the inner loop. -/
def crcLoop (data : List Nat) (i : Nat) : Nat → Nat → Except Fault Nat
  | 0, crc => Except.ok crc
  | k + 1, crc =>
    match data[i]? with
    | none => Except.error Fault.outOfBounds
    | some byte => crcLoop data (i + 1) k (crcShifts (crc ^^^ byte) 8)

/-- Function `Utility::calculateCRC(data, length)`; `data` holds the bytes the pointer
refers to. All values stay within the 16 bits of `crc` when the data are bytes. -/
def calculateCRC (data : List Nat) (length : Nat) : Except Fault Nat :=
  crcLoop data 0 length 0xFFFF

/-- Function `Utility::isChannelInRange(channel, maxChannels)`. -/
def isChannelInRange (channel maxChannels : Nat) : Bool := decide (channel < maxChannels)

/-- Loop `while ((1 << pins) < channels) pins++;` of `calculateRequiredSelectPins`, at most
`fuel` tests; `pins` is a `uint8_t`. -/
def requiredPinsLoop (channels : Nat) : Nat → Nat → Except Fault Nat
  | 0, _ => Except.error Fault.outOfFuel
  | fuel + 1, pins =>
    if 1 <<< pins < channels then requiredPinsLoop channels fuel ((pins + 1) % 256)
    else Except.ok pins

/-- Function `Utility::calculateRequiredSelectPins(channels)`. -/
def calculateRequiredSelectPins (fuel : Nat) (channels : Nat) : Except Fault Nat :=
  requiredPinsLoop channels fuel 0

end Utility

/-! ## CRC-16/MODBUS as it is specified

Modelled from the words of the specification, to be compared with
`Utility.calculateCRC`: the register starts at 0xFFFF; the message is fed bit by bit,
every byte least-significant bit first; one bit shifts the register right by one and
XORs the reflected polynomial 0xA001 into it when the bit shifted out differs from the
message bit; there is no final XOR. -/

/-- One message bit fed into the CRC register. -/
def crc16ModbusBit (crc : Nat) (bit : Bool) : Nat :=
  if (crc.testBit 0 != bit) then (crc >>> 1) ^^^ 0xA001 else crc >>> 1

/-- The bits `j, j + 1, ..., j + k - 1` of a byte fed into the CRC register. -/
def crc16ModbusBits (byte : Nat) (j : Nat) : Nat → Nat → Nat
  | 0, crc => crc
  | k + 1, crc => crc16ModbusBits byte (j + 1) k (crc16ModbusBit crc (byte.testBit j))

/-- The CRC-16/MODBUS checksum of a byte sequence. -/
def crc16Modbus (data : List Nat) : Nat :=
  data.foldl (fun crc byte => crc16ModbusBits byte 0 8 crc) 0xFFFF

/-! ## The number of select lines of a device -/

/-- The number of select (address) lines of a GPIO-driven device: `numSelectPins` of the
analog and parallel classes, `numPins` of the fast classes; 0 for the bus devices. -/
def Device.numPins : Device → Nat
  | Device.hc4051 s => s.numSelectPins
  | Device.hc4067 s => s.numSelectPins
  | Device.hc4052 s => s.numSelectPins
  | Device.adg508a s => s.numSelectPins
  | Device.adg706 s => s.numSelectPins
  | Device.adg506a s => s.numSelectPins
  | Device.mpc506a s => s.numSelectPins
  | Device.dg408 s => s.numSelectPins
  | Device.max4051a s => s.numSelectPins
  | Device.max4582 s => s.numSelectPins
  | Device.hc405x s => s.numSelectPins
  | Device.cd74hc4067 s => s.numSelectPins
  | Device.videoMUX s => s.numPins
  | Device.audioMUX s => s.numPins
  | Device.dataMUX s => s.numPins
  | _ => 0

/-! ## Closed form of the select-line loop -/

/-- The events `digitalWrite(pins[j], (channel >> j) & 1)` for `j = i, ..., i + k - 1`. -/
def selectWrites (pins : List Nat) (channel : Nat) (i k : Nat) : List Event :=
  (List.range' i k).map (fun j => Event.digitalWrite (pins.getD j 0) ((channel >>> j) &&& 1))

theorem pinAt_some (l : List Nat) (i : Nat) (h : i < l.length) :
    pinAt (some l) i = Except.ok (l.getD i 0) := by
  simp [pinAt, List.getElem?_eq_getElem h, List.getD_eq_getElem?_getD]

theorem writeChannelBits_ok (l : List Nat) (c : Nat) (k : Nat) :
    ∀ i, i + k ≤ l.length → writeChannelBits (some l) c i k = Except.ok (selectWrites l c i k) := by
  induction k with
  | zero => intro i _; simp [writeChannelBits, selectWrites]
  | succ k ih =>
    intro i h
    have h1 : i < l.length := by omega
    have h2 : i + 1 + k ≤ l.length := by omega
    simp [writeChannelBits, pinAt_some l i h1, ih (i + 1) h2, selectWrites, List.range'_succ]

theorem liftStep_eq_ok {σ α : Type} (wrap : σ → Device) (x : Except Fault (Step σ α))
    (r : Step Device α) :
    liftStep wrap x = Except.ok r ↔
      ∃ r0, x = Except.ok r0 ∧ r = ⟨r0.ret, wrap r0.dev, r0.trace⟩ := by
  cases x with
  | error f => simp [liftStep]
  | ok r0 => simp [liftStep, eq_comm]

theorem writeChannelBits_of_hasPins (pins : Option (List Nat)) (c n : Nat)
    (h : hasPins pins n = true) :
    writeChannelBits pins c 0 n = Except.ok (selectWrites (pins.getD []) c 0 n) := by
  cases pins with
  | none => simp [hasPins] at h
  | some l =>
    simp only [hasPins, beq_iff_eq] at h
    simpa using writeChannelBits_ok l c n 0 (by omega)

theorem writeChannelBits_eq_ok (pins : Option (List Nat)) (c : Nat) (k : Nat) :
    ∀ i sel, writeChannelBits pins c i k = Except.ok sel →
      sel = selectWrites (pins.getD []) c i k := by
  induction k with
  | zero => intro i sel h; simp [writeChannelBits] at h; simp [selectWrites, h]
  | succ k ih =>
    intro i sel h
    simp only [writeChannelBits] at h
    split at h
    · cases h
    · next p hp =>
      split at h
      · cases h
      · next rest hrest =>
        cases h
        have hr := ih (i + 1) rest hrest
        cases pins with
        | none => simp [pinAt] at hp
        | some l =>
          simp only [pinAt] at hp
          split at hp
          · cases hp
          · next q hq =>
            cases hp
            simp [hr, selectWrites, List.range'_succ, List.getD_eq_getElem?_getD, hq]

/-! ## Pin levels -/

theorem replay_eq_writeAll (t : List Event) :
    ∀ levels, replay levels t = writeAll levels (pinWrites t) := by
  induction t with
  | nil => intro levels; rfl
  | cons e rest ih =>
    intro levels
    cases e <;> simp [replay, pinWrites, Event.apply, writeAll, ih]

theorem pinWrites_append (t1 t2 : List Event) :
    pinWrites (t1 ++ t2) = pinWrites t1 ++ pinWrites t2 := by
  induction t1 with
  | nil => rfl
  | cons e rest ih => cases e <;> simp [pinWrites, ih]

theorem busWrites_append (t1 t2 : List Event) :
    busWrites (t1 ++ t2) = busWrites t1 ++ busWrites t2 := by
  induction t1 with
  | nil => rfl
  | cons e rest ih => cases e <;> simp [busWrites, ih]

theorem writeAll_append (w1 w2 : List (Nat × Nat)) :
    ∀ levels, writeAll levels (w1 ++ w2) = writeAll (writeAll levels w1) w2 := by
  induction w1 with
  | nil => intro levels; rfl
  | cons w rest ih => intro levels; simp [writeAll, ih]

theorem writeAll_apply (w : List (Nat × Nat)) (q : Nat) :
    ∀ levels, writeAll levels w q = (lastWrite q w).getD (levels q) := by
  induction w with
  | nil => intro levels; rfl
  | cons x rest ih =>
    intro levels
    simp only [writeAll, lastWrite, ih]
    cases lastWrite q rest with
    | none => by_cases hq : q = x.1 <;> simp [hq]
    | some v => simp

theorem writeAll_twice (w : List (Nat × Nat)) (levels : Nat → Nat) :
    writeAll (writeAll levels w) w = writeAll levels w := by
  funext q
  rw [writeAll_apply w q (writeAll levels w), writeAll_apply w q levels]
  cases lastWrite q w <;> simp

theorem replay_append (t1 t2 : List Event) (levels : Nat → Nat) :
    replay levels (t1 ++ t2) = replay (replay levels t1) t2 := by
  simp [replay_eq_writeAll, pinWrites_append, writeAll_append]

theorem replay_twice_of_pinWrites (t1 t2 : List Event) (levels : Nat → Nat)
    (h : pinWrites t2 = pinWrites t1) :
    replay levels (t1 ++ t2) = replay levels t1 := by
  rw [replay_append, replay_eq_writeAll t2, h, replay_eq_writeAll t1, writeAll_twice]

theorem waitSync_pinWrites (env : Env) (pin : Nat) (fuel : Nat) :
    ∀ hist t, waitSync env pin fuel hist = Except.ok t → pinWrites t = [] := by
  induction fuel with
  | zero => intro hist t h; simp [waitSync] at h
  | succ n ih =>
    intro hist t h
    simp only [waitSync] at h
    split at h
    · split at h
      · cases h
      · next rest heq =>
        cases h
        simpa [pinWrites] using ih _ _ heq
    · cases h
      rfl

theorem syncWait_pinWrites (b : Bool) (env : Env) (pin fuel : Nat) (hist t : List Event)
    (h : (if b = true then waitSync env pin fuel hist else Except.ok []) = Except.ok t) :
    pinWrites t = [] := by
  split at h
  · exact waitSync_pinWrites env pin fuel hist t h
  · cases h
    rfl

/-! ## The constants fixed at construction -/

/-- Every constructor establishes the constants that `Device.inv` names. -/
theorem inv_of_new (sel : List Nat) (a b c e : Nat) (f g : Bool) :
    (Device.hc4051 (HC4051.new sel a e g)).inv = true ∧
    (Device.hc4067 (HC4067.new sel a e g)).inv = true ∧
    (Device.hc4052 (HC4052.new sel a b e g)).inv = true ∧
    (Device.adg508a (ADG508A.new sel a e f b g)).inv = true ∧
    (Device.adg706 (ADG706.new sel a c e f b g)).inv = true ∧
    (Device.adg506a (ADG506A.new sel a f e f b g)).inv = true ∧
    (Device.mpc506a (MPC506A.new sel a f e f b g)).inv = true ∧
    (Device.dg408 (DG408.new sel a b e f g)).inv = true ∧
    (Device.max4051a (MAX4051A.new sel a e g)).inv = true ∧
    (Device.max4582 (MAX4582.new sel a c e g)).inv = true ∧
    (Device.hc405x (HC405X.new sel a e)).inv = true ∧
    (Device.cd74hc4067 (CD74HC4067.new sel e a g)).inv = true ∧
    (Device.videoMUX (VideoMUX.new sel a b c g)).inv = true ∧
    (Device.audioMUX (AudioMUX.new sel a g)).inv = true ∧
    (Device.dataMUX (DataMUX.new sel a g)).inv = true ∧
    (Device.tca9548a (TCA9548A.new a)).inv = true ∧
    (Device.pca9547 (PCA9547.new a b)).inv = true ∧
    (Device.pca9646 (PCA9646.new a b)).inv = true := by
  cases f <;>
    simp [Device.inv, HC4051.new, HC4067.new, HC4052.new, ADG508A.new, ADG706.new,
      ADG506A.new, MPC506A.new, DG408.new, MAX4051A.new, MAX4582.new, HC405X.new,
      CD74HC4067.new, VideoMUX.new, AudioMUX.new, DataMUX.new, TCA9548A.new, PCA9547.new,
      PCA9646.new, AnalogMUX.new, ParallelMUX.new, FastMUX.new, MUXManager.new,
      AnalogMUX.setSettlingTime] <;>
    split_ifs <;> simp

theorem analogMUX_begin_frame (s : AnalogMUX) (r : Step AnalogMUX MUXStatus)
    (h : AnalogMUX.begin s = Except.ok r) :
    r.dev.numSelectPins = s.numSelectPins ∧ r.dev.maxChannels = s.maxChannels ∧
    r.dev.selectPins = s.selectPins := by
  simp only [AnalogMUX.begin] at h
  (repeat' split at h) <;> cases h <;> simp

theorem parallelMUX_begin_frame (s : ParallelMUX) (r : Step ParallelMUX MUXStatus)
    (h : ParallelMUX.begin s = Except.ok r) :
    r.dev.numSelectPins = s.numSelectPins ∧ r.dev.maxChannels = s.maxChannels ∧
    r.dev.selectPins = s.selectPins := by
  simp only [ParallelMUX.begin, ParallelMUX.enable] at h
  (repeat' split at h) <;> cases h <;> simp

theorem fastMUX_begin_frame (s : FastMUX) (r : Step FastMUX MUXStatus)
    (h : FastMUX.begin s = Except.ok r) :
    r.dev.numPins = s.numPins ∧ r.dev.maxChannels = s.maxChannels ∧
    r.dev.pins = s.pins := by
  simp only [FastMUX.begin] at h
  (repeat' split at h) <;> cases h <;> simp

/-- A `begin()` call does not change the constants that `Device.inv` names. -/
theorem begin_inv (env : Env) (hist : List Event) (d : Device) (r : Step Device MUXStatus)
    (h : d.begin env hist = Except.ok r) : r.dev.inv = d.inv := by
  cases d <;>
    simp only [Device.begin, liftStep_eq_ok] at h <;>
    obtain ⟨r0, h0, rfl⟩ := h <;>
    (try simp only [HC4052.begin, ADG508A.begin, ADG706.begin, ADG506A.begin,
      DG408.begin, MAX4582.begin, HC405X.begin, CD74HC4067.begin,
      VideoMUX.begin, AudioMUX.begin, DataMUX.begin,
      TCA9548A.begin, PCA9547.begin, PCA9646.begin] at h0) <;>
    (repeat' split at h0) <;>
    (try cases h0) <;>
    (first
      | (have hf := analogMUX_begin_frame _ _ (by assumption); simp_all [Device.inv])
      | (have hf := parallelMUX_begin_frame _ _ (by assumption); simp_all [Device.inv])
      | (have hf := fastMUX_begin_frame _ _ (by assumption); simp_all [Device.inv])
      | simp_all [Device.inv])

/-! ## C1 and C2: rejected requests -/

/-- C1: for every device family, in every state that respects the constants fixed by
the constructor, a channel `channel >= maxChannels` makes `setChannel` return
`ERROR_CHANNEL_INVALID` with no event at all (no pin write, no bus transaction) and with
the device state, `currentChannel` included, unchanged. -/
theorem setChannel_invalid_channel (env : Env) (fuel : Nat) (hist : List Event) (d : Device)
    (channel : Nat) (hinv : d.inv = true) (h : d.base.maxChannels ≤ channel) :
    d.setChannel env fuel hist channel =
      Except.ok ⟨MUXStatus.ERROR_CHANNEL_INVALID, d, []⟩ := by
  cases d <;>
    simp_all [Device.setChannel, Device.inv, Device.base, liftStep, MUXManager.isValidChannel,
      HC4051.setChannel, HC4067.setChannel, HC4052.setChannel, ADG508A.setChannel,
      ADG706.setChannel, ADG506A.setChannel, DG408.setChannel, MAX4051A.setChannel,
      MAX4582.setChannel, HC405X.setChannel, CD74HC4067.setChannel, VideoMUX.setChannel,
      AudioMUX.setChannel, DataMUX.setChannel, TCA9548A.setChannel, PCA9547.setChannel,
      PCA9646.setChannel]

/-- Instance of C1: a dual 4-channel HC4052 that was never enabled rejects channel 9. -/
theorem setChannel_invalid_channel_witness :
    (Device.hc4052 (HC4052.new [2, 3] 14 15 4 true)).setChannel quietEnv 0 [] 9 =
      Except.ok ⟨MUXStatus.ERROR_CHANNEL_INVALID,
        Device.hc4052 (HC4052.new [2, 3] 14 15 4 true), []⟩ :=
  setChannel_invalid_channel quietEnv 0 [] _ 9 (by decide) (by decide)

/-- C2: for every device family, in every state that respects the constants fixed by
the constructor, a valid channel requested while `enabled` is false makes `setChannel`
return `ERROR_NOT_ENABLED` with no event at all (no pin write, no bus transaction) and
with the device state, `currentChannel` included, unchanged. -/
theorem setChannel_not_enabled (env : Env) (fuel : Nat) (hist : List Event) (d : Device)
    (channel : Nat) (hinv : d.inv = true) (h : channel < d.base.maxChannels)
    (hen : d.base.enabled = false) :
    d.setChannel env fuel hist channel =
      Except.ok ⟨MUXStatus.ERROR_NOT_ENABLED, d, []⟩ := by
  cases d <;>
    simp_all [Device.setChannel, Device.inv, Device.base, liftStep, MUXManager.isValidChannel,
      HC4051.setChannel, HC4067.setChannel, HC4052.setChannel, ADG508A.setChannel,
      ADG706.setChannel, ADG506A.setChannel, DG408.setChannel, MAX4051A.setChannel,
      MAX4582.setChannel, HC405X.setChannel, CD74HC4067.setChannel, VideoMUX.setChannel,
      AudioMUX.setChannel, DataMUX.setChannel, TCA9548A.setChannel, PCA9547.setChannel,
      PCA9646.setChannel]
  all_goals rw [if_neg (Nat.not_le.mpr h)]

/-- Instance of C2: a TCA9548A on which `begin()` was never called refuses channel 3. -/
theorem setChannel_not_enabled_witness :
    (Device.tca9548a (TCA9548A.new 112)).setChannel quietEnv 0 [] 3 =
      Except.ok ⟨MUXStatus.ERROR_NOT_ENABLED, Device.tca9548a (TCA9548A.new 112), []⟩ :=
  setChannel_not_enabled quietEnv 0 [] _ 3 (by decide) (by decide) (by decide)

/-! ## C3: the channel reported after a successful switch -/

/-- C3 fails as stated: a `DataMUX` that has begun and is buffering answers `OK` to
`setChannel(3)` and `getChannel()` still returns 0. -/
theorem setChannel_ok_getChannel_fails_when_buffering :
    (do
      let r1 ← DataMUX.begin (DataMUX.new [2, 3] 2 true)
      let r2 ← Device.setChannel quietEnv 0 r1.trace
        (Device.dataMUX (DataMUX.startBuffering r1.dev)) 3
      pure (r1.ret, r2.ret, r2.dev.getChannel, decide (r2.dev.getChannel = 3))) =
    (Except.ok (MUXStatus.OK, MUXStatus.OK, 0, false) :
      Except Fault (MUXStatus × MUXStatus × Nat × Bool)) := by
  rfl

/-- C3, amended: whenever `setChannel(c)` returns `OK`, `getChannel()` called right
afterwards returns `c` on every device that is neither a buffering `DataMUX` nor a
`DG408` in DG409 mode; on a buffering `DataMUX` it returns what it returned before
the call. -/
theorem setChannel_ok_getChannel (env : Env) (fuel : Nat) (hist : List Event) (d : Device)
    (c : Nat) (r : Step Device MUXStatus)
    (h : d.setChannel env fuel hist c = Except.ok r) (hok : r.ret = MUXStatus.OK) :
    (d.isBuffering = false → d.isDG409Mode = false → r.dev.getChannel = c) ∧
    (d.isBuffering = true → r.dev.getChannel = d.getChannel) := by
  cases d <;>
    simp only [Device.setChannel, liftStep_eq_ok] at h <;>
    obtain ⟨r0, h0, rfl⟩ := h <;>
    simp only [HC4051.setChannel, HC4067.setChannel,
      HC4052.setChannel, ADG508A.setChannel, ADG706.setChannel, ADG506A.setChannel,
      DG408.setChannel, MAX4051A.setChannel, MAX4582.setChannel, HC405X.setChannel,
      CD74HC4067.setChannel, VideoMUX.setChannel, AudioMUX.setChannel, DataMUX.setChannel,
      TCA9548A.setChannel, PCA9547.setChannel, PCA9646.setChannel] at h0 <;>
    (repeat' split at h0) <;>
    cases h0 <;>
    simp_all [Device.getChannel, Device.base, MUXManager.getChannel, Device.isBuffering,
      Device.isDG409Mode]

/-- Two `setChannel(c)` calls in a row on a GPIO device: the second call repeats the pin
writes of the first and leaves the recorded channel as the first left it. -/
theorem setChannel_twice_writes (env : Env) (fuel : Nat) (hist : List Event) (d : Device)
    (c : Nat) (r1 r2 : Step Device MUXStatus) (hg : d.isGPIO = true)
    (h1 : d.setChannel env fuel hist c = Except.ok r1)
    (h2 : r1.dev.setChannel env fuel (hist ++ r1.trace) c = Except.ok r2) :
    pinWrites r2.trace = pinWrites r1.trace ∧ r2.dev.getChannel = r1.dev.getChannel := by
  cases d <;>
    simp only [Device.setChannel, liftStep_eq_ok] at h1 <;>
    obtain ⟨r10, h10, rfl⟩ := h1 <;>
    simp only [Device.setChannel, liftStep_eq_ok] at h2 <;>
    obtain ⟨r20, h20, rfl⟩ := h2 <;>
    simp only [HC4051.setChannel, HC4067.setChannel,
      HC4052.setChannel, ADG508A.setChannel, ADG706.setChannel, ADG506A.setChannel,
      DG408.setChannel, MAX4051A.setChannel, MAX4582.setChannel, HC405X.setChannel,
      CD74HC4067.setChannel, VideoMUX.setChannel, AudioMUX.setChannel, DataMUX.setChannel,
      TCA9548A.setChannel, PCA9547.setChannel, PCA9646.setChannel] at h10 <;>
    (repeat' split at h10) <;>
    cases h10 <;>
    simp_all [Device.getChannel, Device.base, MUXManager.getChannel, Device.isGPIO,
      HC4051.setChannel, HC4067.setChannel,
      HC4052.setChannel, ADG508A.setChannel, ADG706.setChannel, ADG506A.setChannel,
      DG408.setChannel, MAX4051A.setChannel, MAX4582.setChannel, HC405X.setChannel,
      CD74HC4067.setChannel, VideoMUX.setChannel, AudioMUX.setChannel, DataMUX.setChannel,
      MUXManager.isValidChannel, pinWrites_append]
  all_goals try rw [if_neg (by omega)] at h20
  all_goals try first | subst h20 | cases h20
  all_goals try simp [pinWrites_append, pinWrites]
  all_goals split at h20 <;> cases h20
  all_goals try simp_all [pinWrites_append, pinWrites]
  next hs1 _ _ _ hs2 =>
    rw [syncWait_pinWrites _ _ _ _ _ _ hs1, syncWait_pinWrites _ _ _ _ _ _ hs2]

/-- A `setChannel` call changes neither the constants of the device, nor its pin list,
nor its `enabled` flag. -/
theorem setChannel_frame (env : Env) (fuel : Nat) (hist : List Event) (d : Device)
    (c : Nat) (r : Step Device MUXStatus)
    (h : d.setChannel env fuel hist c = Except.ok r) :
    r.dev.inv = d.inv ∧ r.dev.pinsStored = d.pinsStored ∧
    r.dev.base.enabled = d.base.enabled ∧ r.dev.base.maxChannels = d.base.maxChannels ∧
    r.dev.waitsForSync = d.waitsForSync ∧ r.dev.isGPIO = d.isGPIO ∧
    r.dev.isBuffering = d.isBuffering := by
  cases d <;>
    simp only [Device.setChannel, liftStep_eq_ok] at h <;>
    obtain ⟨r0, h0, rfl⟩ := h <;>
    simp only [HC4051.setChannel, HC4067.setChannel,
      HC4052.setChannel, ADG508A.setChannel, ADG706.setChannel, ADG506A.setChannel,
      DG408.setChannel, MAX4051A.setChannel, MAX4582.setChannel, HC405X.setChannel,
      CD74HC4067.setChannel, VideoMUX.setChannel, AudioMUX.setChannel, DataMUX.setChannel,
      TCA9548A.setChannel, PCA9547.setChannel, PCA9646.setChannel] at h0 <;>
    (repeat' split at h0) <;>
    cases h0 <;>
    simp [Device.inv, Device.pinsStored, Device.base, Device.waitsForSync, Device.isGPIO,
      Device.isBuffering]

/-- On a device whose pins were stored and that does not poll a sync pin, `setChannel`
returns for every request. -/
theorem setChannel_returns (env : Env) (fuel : Nat) (hist : List Event) (d : Device)
    (c : Nat) (hinv : d.inv = true) (hst : d.pinsStored = true)
    (hs : d.waitsForSync = false) :
    ∃ r, d.setChannel env fuel hist c = Except.ok r := by
  cases d <;>
    simp only [Device.inv, Device.pinsStored, Device.waitsForSync, Bool.and_eq_true,
      beq_iff_eq] at hinv hst hs <;>
    simp only [Device.setChannel, liftStep_eq_ok, HC4051.setChannel, HC4067.setChannel,
      HC4052.setChannel, ADG508A.setChannel, ADG706.setChannel, ADG506A.setChannel,
      DG408.setChannel, MAX4051A.setChannel, MAX4582.setChannel, HC405X.setChannel,
      CD74HC4067.setChannel, VideoMUX.setChannel, AudioMUX.setChannel, DataMUX.setChannel,
      TCA9548A.setChannel, PCA9547.setChannel, PCA9646.setChannel] <;>
    (try rw [writeChannelBits_of_hasPins _ _ _ (by simp_all)]) <;>
    (repeat' split) <;>
    simp_all

/-- A request for a valid channel on an enabled GPIO device that is not buffering, when
it returns, returns `OK`. -/
theorem setChannel_status_ok (env : Env) (fuel : Nat) (hist : List Event) (d : Device)
    (c : Nat) (r : Step Device MUXStatus) (hg : d.isGPIO = true) (hinv : d.inv = true)
    (hen : d.base.enabled = true) (hc : c < d.base.maxChannels)
    (hb : d.isBuffering = false)
    (h : d.setChannel env fuel hist c = Except.ok r) : r.ret = MUXStatus.OK := by
  cases d <;>
    simp only [Device.setChannel, liftStep_eq_ok] at h <;>
    obtain ⟨r0, h0, rfl⟩ := h <;>
    simp only [Device.inv, Device.base, Device.isBuffering, Device.isGPIO,
      Bool.and_eq_true, beq_iff_eq] at hinv hen hc hb hg <;>
    simp only [HC4051.setChannel, HC4067.setChannel,
      HC4052.setChannel, ADG508A.setChannel, ADG706.setChannel, ADG506A.setChannel,
      DG408.setChannel, MAX4051A.setChannel, MAX4582.setChannel, HC405X.setChannel,
      CD74HC4067.setChannel, VideoMUX.setChannel, AudioMUX.setChannel, DataMUX.setChannel,
      TCA9548A.setChannel, PCA9547.setChannel, PCA9646.setChannel,
      MUXManager.isValidChannel] at h0 <;>
    (repeat' split at h0) <;>
    cases h0 <;>
    simp_all <;>
    omega

theorem startedHC4051_begin :
    (AnalogMUX.begin (HC4051.new [2, 3, 4] 14 5 true)).map (fun r => (r.ret, r.dev)) =
      Except.ok (MUXStatus.OK, startedHC4051) := by
  rfl

/-- Instance of C3 (amended): the example `HC4051` reports channel 5 after
`setChannel(5)` has returned `OK`. -/
theorem setChannel_ok_getChannel_witness :
    (Device.isBuffering (Device.hc4051 startedHC4051) = false →
      Device.isDG409Mode (Device.hc4051 startedHC4051) = false →
      Device.getChannel (Device.hc4051 { startedHC4051 with currentChannel := 5 }) = 5) ∧
    (Device.isBuffering (Device.hc4051 startedHC4051) = true →
      Device.getChannel (Device.hc4051 { startedHC4051 with currentChannel := 5 }) =
        Device.getChannel (Device.hc4051 startedHC4051)) :=
  setChannel_ok_getChannel quietEnv 0 [] (Device.hc4051 startedHC4051) 5
    ⟨MUXStatus.OK, Device.hc4051 { startedHC4051 with currentChannel := 5 },
      [Event.digitalWrite 5 HIGH, Event.delayMicros 1, Event.digitalWrite 2 1,
        Event.digitalWrite 3 0, Event.digitalWrite 4 1, Event.delayMicros 1,
        Event.digitalWrite 5 LOW]⟩
    (by rfl) rfl

/-! ## C4: switching twice to the same channel -/

/-- C4: on an enabled GPIO-driven device whose pins were stored, for every valid channel
`c`, `setChannel(c); setChannel(c)` leaves every pin (select, enable, write/load) at the
level a single `setChannel(c)` leaves it at, and the same `currentChannel`; both calls
return `OK` unless the device is a buffering `DataMUX`. Both calls return on every device
that does not poll a sync pin; on a `VideoMUX` that does, the rest holds whenever both
polls end. -/
theorem setChannel_twice_same_state (env : Env) (fuel : Nat) (hist : List Event)
    (d : Device) (c : Nat) (hg : d.isGPIO = true) (hinv : d.inv = true)
    (hst : d.pinsStored = true) (hen : d.base.enabled = true)
    (hc : c < d.base.maxChannels) :
    (d.waitsForSync = false →
      ∃ r1 r2, d.setChannel env fuel hist c = Except.ok r1 ∧
        r1.dev.setChannel env fuel (hist ++ r1.trace) c = Except.ok r2) ∧
    (∀ r1 r2, d.setChannel env fuel hist c = Except.ok r1 →
      r1.dev.setChannel env fuel (hist ++ r1.trace) c = Except.ok r2 →
      (d.isBuffering = false → r1.ret = MUXStatus.OK ∧ r2.ret = MUXStatus.OK) ∧
      (∀ levels, replay levels (r1.trace ++ r2.trace) = replay levels r1.trace) ∧
      r2.dev.getChannel = r1.dev.getChannel) := by
  constructor
  · intro hs
    obtain ⟨r1, h1⟩ := setChannel_returns env fuel hist d c hinv hst hs
    obtain ⟨hi, hp, _, _, hw, _, _⟩ := setChannel_frame env fuel hist d c r1 h1
    obtain ⟨r2, h2⟩ := setChannel_returns env fuel (hist ++ r1.trace) r1.dev c
      (hi.trans hinv) (hp.trans hst) (hw.trans hs)
    exact ⟨r1, r2, h1, h2⟩
  · intro r1 r2 h1 h2
    obtain ⟨hw, hch⟩ := setChannel_twice_writes env fuel hist d c r1 r2 hg h1 h2
    obtain ⟨hi, _, he, hm, _, hg1, hb1⟩ := setChannel_frame env fuel hist d c r1 h1
    refine ⟨fun hb => ⟨?_, ?_⟩,
      fun levels => replay_twice_of_pinWrites r1.trace r2.trace levels hw, hch⟩
    · exact setChannel_status_ok env fuel hist d c r1 hg hinv hen hc hb h1
    · exact setChannel_status_ok env fuel (hist ++ r1.trace) r1.dev c r2 (hg1.trans hg)
        (hi.trans hinv) (he.trans hen) (hm ▸ hc) (hb1.trans hb) h2

/-- Instance of C4: the example `HC4051`, switched twice to channel 5. -/
theorem setChannel_twice_same_state_witness :
    (Device.waitsForSync (Device.hc4051 startedHC4051) = false →
      ∃ r1 r2, Device.setChannel quietEnv 0 [] (Device.hc4051 startedHC4051) 5 =
          Except.ok r1 ∧
        r1.dev.setChannel quietEnv 0 ([] ++ r1.trace) 5 = Except.ok r2) ∧
    (∀ r1 r2, Device.setChannel quietEnv 0 [] (Device.hc4051 startedHC4051) 5 =
        Except.ok r1 →
      r1.dev.setChannel quietEnv 0 ([] ++ r1.trace) 5 = Except.ok r2 →
      (Device.isBuffering (Device.hc4051 startedHC4051) = false →
        r1.ret = MUXStatus.OK ∧ r2.ret = MUXStatus.OK) ∧
      (∀ levels, replay levels (r1.trace ++ r2.trace) = replay levels r1.trace) ∧
      r2.dev.getChannel = r1.dev.getChannel) :=
  setChannel_twice_same_state quietEnv 0 [] (Device.hc4051 startedHC4051) 5
    (by decide) (by decide) (by decide) (by decide) (by decide)

/-! ## C5: the 8-channel direct-write device, end to end -/

theorem configureSelect_returns (l : List Nat) (k : Nat) :
    ∀ i, i + k ≤ l.length → ∃ t, configureSelect (some l) i k = Except.ok t := by
  induction k with
  | zero => intro i _; exact ⟨[], rfl⟩
  | succ k ih =>
    intro i h
    obtain ⟨t, ht⟩ := ih (i + 1) (by omega)
    simp only [configureSelect, pinAt_some l i (by omega), ht]
    split <;> simp

/-- C5: an `HC405X` of type 1 constructed on three distinct select pins. `begin()`
returns `OK`; from the state it leaves (whatever channel `k` earlier switches recorded),
for every `c < 8`, `setChannel(c)` returns `OK`, leaves select line `i` at level
`(c >> i) & 1` for `i = 0, 1, 2` and `getChannel()` returns `c`; a following
`setChannel(d)` with `d >= 8` returns `ERROR_CHANNEL_INVALID` without any event, so that
the lines and `getChannel()` still show `c`. -/
theorem hc405x_end_to_end (selPins : List Nat) (enPin : Nat)
    (hlen : selPins.length = 3) (hnd : selPins.Nodup) :
    (∃ t0, HC405X.begin (HC405X.new selPins 1 enPin) =
        Except.ok ⟨MUXStatus.OK, HC405X.begun selPins enPin 0, t0⟩) ∧
    ∀ k c, c < 8 →
      HC405X.setChannel (HC405X.begun selPins enPin k) c =
          Except.ok ⟨MUXStatus.OK, HC405X.begun selPins enPin c,
            selectWrites selPins c 0 3⟩ ∧
      (∀ levels i, i < 3 →
        replay levels (selectWrites selPins c 0 3) (selPins.getD i 0) = (c >>> i) &&& 1) ∧
      (HC405X.begun selPins enPin c).getChannel = c ∧
      ∀ d, 8 ≤ d →
        HC405X.setChannel (HC405X.begun selPins enPin c) d =
          Except.ok ⟨MUXStatus.ERROR_CHANNEL_INVALID, HC405X.begun selPins enPin c, []⟩ := by
  obtain ⟨p0, p1, p2, rfl⟩ := List.length_eq_three.mp hlen
  simp only [List.nodup_cons, List.mem_cons, List.mem_singleton, not_or, List.not_mem_nil,
    not_false_eq_true, List.nodup_nil, and_true] at hnd
  obtain ⟨⟨h01, h02⟩, h12⟩ := hnd
  obtain ⟨t0, ht0⟩ := configureSelect_returns [p0, p1, p2] 3 0 (by simp)
  constructor
  · refine ⟨t0 ++ (if enPin ≠ 255 then
      [Event.pinMode enPin PinMode.OUTPUT, Event.digitalWrite enPin HIGH] else []) ++
      (if enPin ≠ 255 then [Event.digitalWrite enPin LOW] else []), ?_⟩
    simp [HC405X.begin, ParallelMUX.begin, HC405X.new, ParallelMUX.new, ParallelMUX.enable,
      HC405X.begun, MUXManager.new, ht0]
  · intro k c hc
    refine ⟨?_, ?_, rfl, ?_⟩
    · simp [HC405X.setChannel, HC405X.begun, HC405X.new, ParallelMUX.new, MUXManager.new,
        MUXManager.isValidChannel, hc, writeChannelBits_ok [p0, p1, p2] c 3 0 (by simp)]
    · intro levels i hi
      have e01 : p1 ≠ p0 := fun h => h01 h.symm
      have e02 : p2 ≠ p0 := fun h => h02 h.symm
      have e12 : p2 ≠ p1 := fun h => h12 h.symm
      interval_cases i <;>
        simp [selectWrites, List.range', replay, Event.apply, h01, h02, h12, e01, e02, e12]
    · intro d hd
      simp [HC405X.setChannel, HC405X.begun, HC405X.new, ParallelMUX.new, MUXManager.new,
        MUXManager.isValidChannel, hd]

/-- Instance of C5: on select pins 2, 3, 4, `setChannel(5)` drives the lines to 1, 0, 1
and `setChannel(9)` is rejected with `getChannel()` still 5. -/
theorem hc405x_end_to_end_witness :
    ([2, 3, 4].length = 3 ∧ [2, 3, 4].Nodup) ∧
    HC405X.setChannel (HC405X.begun [2, 3, 4] 255 0) 5 =
      Except.ok ⟨MUXStatus.OK, HC405X.begun [2, 3, 4] 255 5,
        [Event.digitalWrite 2 1, Event.digitalWrite 3 0, Event.digitalWrite 4 1]⟩ ∧
    (∀ levels : Nat → Nat, ∀ i, i < 3 →
      replay levels [Event.digitalWrite 2 1, Event.digitalWrite 3 0, Event.digitalWrite 4 1]
        ([2, 3, 4].getD i 0) = (5 >>> i) &&& 1) ∧
    (HC405X.begun [2, 3, 4] 255 5).getChannel = 5 ∧
    HC405X.setChannel (HC405X.begun [2, 3, 4] 255 5) 9 =
      Except.ok ⟨MUXStatus.ERROR_CHANNEL_INVALID, HC405X.begun [2, 3, 4] 255 5, []⟩ :=
  have h := (hc405x_end_to_end [2, 3, 4] 255 (by decide) (by decide)).2 0 5 (by decide)
  ⟨⟨by decide, by decide⟩, h.1, h.2.1, h.2.2.1, h.2.2.2 9 (by decide)⟩

/-! ## C6: the trace of a break-before-make switch -/

theorem hasPins_length (pins : Option (List Nat)) (n : Nat) (h : hasPins pins n = true) :
    (pins.getD []).length = n := by
  cases pins with
  | none => simp [hasPins] at h
  | some l => simpa [hasPins] using h

/-- The wiring of a device is not changed by `setChannel`. -/
theorem setChannel_wiring (env : Env) (fuel : Nat) (hist : List Event) (d : Device)
    (c : Nat) (r : Step Device MUXStatus)
    (h : d.setChannel env fuel hist c = Except.ok r) :
    r.dev.enablePin = d.enablePin ∧ r.dev.selectPins = d.selectPins ∧
    r.dev.strobePin = d.strobePin ∧ r.dev.isBreakBeforeMake = d.isBreakBeforeMake ∧
    r.dev.isLatched = d.isLatched := by
  cases d <;>
    simp only [Device.setChannel, liftStep_eq_ok] at h <;>
    obtain ⟨r0, h0, rfl⟩ := h <;>
    simp only [HC4051.setChannel, HC4067.setChannel,
      HC4052.setChannel, ADG508A.setChannel, ADG706.setChannel, ADG506A.setChannel,
      DG408.setChannel, MAX4051A.setChannel, MAX4582.setChannel, HC405X.setChannel,
      CD74HC4067.setChannel, VideoMUX.setChannel, AudioMUX.setChannel, DataMUX.setChannel,
      TCA9548A.setChannel, PCA9547.setChannel, PCA9646.setChannel] at h0 <;>
    (repeat' split at h0) <;>
    cases h0 <;>
    simp [Device.enablePin, Device.selectPins, Device.strobePin, Device.isBreakBeforeMake,
      Device.isLatched]

/-- The events of a successful switch of a break-before-make device with an enable line. -/
theorem bbm_success_trace (env : Env) (fuel : Nat) (hist : List Event) (d : Device)
    (c : Nat) (r : Step Device MUXStatus) (hb : d.isBreakBeforeMake = true)
    (hen : d.enablePin ≠ 255) (hinv : d.inv = true) (hst : d.pinsStored = true)
    (h : d.setChannel env fuel hist c = Except.ok r) (hok : r.ret = MUXStatus.OK) :
    r.trace = [Event.digitalWrite d.enablePin HIGH, Event.delayMicros 1] ++
      selectWrites d.selectPins c 0 d.selectPins.length ++
      [Event.delayMicros 1, Event.digitalWrite d.enablePin LOW] := by
  cases d <;>
    simp only [Device.isBreakBeforeMake, Bool.false_eq_true] at hb <;>
    simp only [Device.setChannel, liftStep_eq_ok] at h <;>
    obtain ⟨r0, h0, rfl⟩ := h <;>
    simp only [Device.inv, Device.pinsStored, Device.enablePin, Bool.and_eq_true,
      beq_iff_eq] at hinv hst hen <;>
    simp only [Device.selectPins, Device.enablePin, hasPins_length _ _ hst] <;>
    simp only [HC4051.setChannel, HC4067.setChannel,
      HC4052.setChannel, ADG508A.setChannel, ADG506A.setChannel, MAX4051A.setChannel] at h0 <;>
    (repeat' split at h0) <;>
    cases h0 <;>
    (try cases hok) <;>
    next _ hw =>
      rw [writeChannelBits_eq_ok _ _ _ _ _ hw] <;> simp [hinv.1]

theorem isBreakBeforeMake_kind (d : Device) (hb : d.isBreakBeforeMake = true) :
    d.isGPIO = true ∧ d.isBuffering = false ∧ d.waitsForSync = false := by
  cases d <;> simp_all [Device.isBreakBeforeMake, Device.isGPIO, Device.isBuffering,
    Device.waitsForSync]

/-- C6: on a break-before-make device (HC4051, HC4067, HC4052, ADG508A, ADG506A,
MAX4051A) constructed with an enable line, the events of every `setChannel(c)` that
returns `OK` are exactly: enable line HIGH, delay 1, select line `i` written to
`(c >> i) & 1` for `i = 0, 1, ...` in increasing order, delay 1, enable line LOW. Such a
call returns `OK` for every valid channel on an enabled device. Hence, for two successful
switches in a row, the events between the last select write of the first and the first
select write of the second are: delay 1, enable LOW, enable HIGH (disabled), delay 1. -/
theorem break_before_make_trace (env : Env) (fuel : Nat) (hist : List Event) (d : Device)
    (c : Nat) (hb : d.isBreakBeforeMake = true) (hen : d.enablePin ≠ 255)
    (hinv : d.inv = true) (hst : d.pinsStored = true) :
    (∀ r, d.setChannel env fuel hist c = Except.ok r → r.ret = MUXStatus.OK →
      r.trace = [Event.digitalWrite d.enablePin HIGH, Event.delayMicros 1] ++
        selectWrites d.selectPins c 0 d.selectPins.length ++
        [Event.delayMicros 1, Event.digitalWrite d.enablePin LOW]) ∧
    (d.base.enabled = true → c < d.base.maxChannels →
      ∃ r, d.setChannel env fuel hist c = Except.ok r ∧ r.ret = MUXStatus.OK) ∧
    (∀ r1 c2 r2, d.setChannel env fuel hist c = Except.ok r1 → r1.ret = MUXStatus.OK →
      r1.dev.setChannel env fuel (hist ++ r1.trace) c2 = Except.ok r2 →
      r2.ret = MUXStatus.OK →
      r1.trace ++ r2.trace =
        ([Event.digitalWrite d.enablePin HIGH, Event.delayMicros 1] ++
          selectWrites d.selectPins c 0 d.selectPins.length) ++
        [Event.delayMicros 1, Event.digitalWrite d.enablePin LOW,
          Event.digitalWrite d.enablePin HIGH, Event.delayMicros 1] ++
        (selectWrites d.selectPins c2 0 d.selectPins.length ++
          [Event.delayMicros 1, Event.digitalWrite d.enablePin LOW])) := by
  obtain ⟨hg, hnb, hns⟩ := isBreakBeforeMake_kind d hb
  refine ⟨fun r h hok => bbm_success_trace env fuel hist d c r hb hen hinv hst h hok, ?_, ?_⟩
  · intro he hc
    obtain ⟨r, h⟩ := setChannel_returns env fuel hist d c hinv hst hns
    exact ⟨r, h, setChannel_status_ok env fuel hist d c r hg hinv he hc hnb h⟩
  · intro r1 c2 r2 h1 hok1 h2 hok2
    obtain ⟨hi, hp, _, _, _, _, _⟩ := setChannel_frame env fuel hist d c r1 h1
    obtain ⟨he, hs, _, hb1, _⟩ := setChannel_wiring env fuel hist d c r1 h1
    have t1 := bbm_success_trace env fuel hist d c r1 hb hen hinv hst h1 hok1
    have t2 := bbm_success_trace env fuel (hist ++ r1.trace) r1.dev c2 r2 (hb1.trans hb)
      (he ▸ hen) (hi.trans hinv) (hp.trans hst) h2 hok2
    rw [he, hs] at t2
    rw [t1, t2]
    simp

/-- Instance of C6: the example `HC4051` (select pins 2, 3, 4, enable pin 5) switched
to channel 5. -/
theorem break_before_make_trace_witness :
    (Device.setChannel quietEnv 0 [] (Device.hc4051 startedHC4051) 5).map
        (fun r => (r.ret, r.trace)) =
      Except.ok (MUXStatus.OK,
        [Event.digitalWrite 5 HIGH, Event.delayMicros 1, Event.digitalWrite 2 1,
          Event.digitalWrite 3 0, Event.digitalWrite 4 1, Event.delayMicros 1,
          Event.digitalWrite 5 LOW]) ∧
    ∀ r, Device.setChannel quietEnv 0 [] (Device.hc4051 startedHC4051) 5 = Except.ok r →
      r.ret = MUXStatus.OK →
      r.trace = [Event.digitalWrite 5 HIGH, Event.delayMicros 1] ++
        selectWrites [2, 3, 4] 5 0 3 ++ [Event.delayMicros 1, Event.digitalWrite 5 LOW] :=
  ⟨by rfl, (break_before_make_trace quietEnv 0 [] (Device.hc4051 startedHC4051) 5
    (by decide) (by decide) (by decide) (by decide)).1⟩

/-! ## C7: which devices bracket the select writes with the enable line -/

/-- C7 fails as stated: an `HC405X` of type 1 with three select lines (pins 2, 3, 4) and
an enable line (pin 7) answers `OK` to `setChannel(5)` and writes the three select lines
only; the enable line is not written at all. -/
theorem direct_write_skips_enable_line :
    Device.enablePin (Device.hc405x (HC405X.begun [2, 3, 4] 7 0)) = 7 ∧
    (Device.setChannel quietEnv 0 [] (Device.hc405x (HC405X.begun [2, 3, 4] 7 0)) 5).map
        (fun r => (r.ret, r.trace)) =
      Except.ok (MUXStatus.OK,
        [Event.digitalWrite 2 1, Event.digitalWrite 3 0, Event.digitalWrite 4 1]) ∧
    Event.digitalWrite 7 HIGH ∉
      [Event.digitalWrite 2 1, Event.digitalWrite 3 0, Event.digitalWrite 4 1] := by
  refine ⟨rfl, rfl, by decide⟩

/-- The events of a successful switch of a device that has an enable line and is not of
a break-before-make class: the select writes come first, and the only pin writes after
them are the write/load pulse of a latched device. -/
theorem direct_success_trace (env : Env) (fuel : Nat) (hist : List Event) (d : Device)
    (c : Nat) (r : Step Device MUXStatus) (hb : d.isBreakBeforeMake = false)
    (hen : d.enablePin ≠ 255) (hinv : d.inv = true) (hst : d.pinsStored = true)
    (h : d.setChannel env fuel hist c = Except.ok r) (hok : r.ret = MUXStatus.OK) :
    ∃ rest, r.trace =
        selectWrites d.selectPins (d.addressCode c) 0 d.selectPins.length ++ rest ∧
      pinWrites rest = if d.isLatched = true then
        [(d.strobePin, LOW), (d.strobePin, HIGH)] else [] := by
  cases d <;>
    simp only [Device.isBreakBeforeMake, Bool.true_eq_false, Device.enablePin, ne_eq,
      not_true_eq_false] at hb hen <;>
    simp only [Device.setChannel, liftStep_eq_ok] at h <;>
    obtain ⟨r0, h0, rfl⟩ := h <;>
    simp only [Device.inv, Device.pinsStored, Bool.and_eq_true, beq_iff_eq] at hinv hst <;>
    simp only [Device.selectPins, Device.strobePin, Device.isLatched, Device.addressCode,
      Device.isDG409Mode, hasPins_length _ _ hst] <;>
    simp only [ADG706.setChannel, DG408.setChannel, MAX4582.setChannel, HC405X.setChannel,
      CD74HC4067.setChannel] at h0 <;>
    (repeat' split at h0) <;>
    cases h0 <;>
    (try cases hok) <;>
    simp_all [pinWrites, writeChannelBits_eq_ok _ _ _ _ _ (by assumption)]
  all_goals
    have hl := hasPins_length _ _ hst
    simp only [Option.getD_some] at hl
    rw [hl]
    first
      | exact ⟨_, rfl, by simp [pinWrites]⟩
      | exact ⟨[], by simp, rfl⟩

/-- C7, amended: on a GPIO-driven device constructed with an enable line, a `setChannel`
that returns `OK` brackets its select writes with the enable line (HIGH and a delay
before the first, a delay and LOW after the last) exactly when the device is of a
break-before-make class (HC4051, HC4067, HC4052, ADG508A, ADG506A, MPC506A, MAX4051A).
On the other classes with an enable line (DG408, HC405X, CD74HC4067, ADG706, MAX4582)
the select writes come first and the only pin writes after them are the write/load
pulse of the latched ADG706 and MAX4582. -/
theorem enable_bracket_by_class (env : Env) (fuel : Nat) (hist : List Event) (d : Device)
    (c : Nat) (r : Step Device MUXStatus) (hen : d.enablePin ≠ 255)
    (hinv : d.inv = true) (hst : d.pinsStored = true)
    (h : d.setChannel env fuel hist c = Except.ok r) (hok : r.ret = MUXStatus.OK) :
    (d.isBreakBeforeMake = true →
      r.trace = [Event.digitalWrite d.enablePin HIGH, Event.delayMicros 1] ++
        selectWrites d.selectPins c 0 d.selectPins.length ++
        [Event.delayMicros 1, Event.digitalWrite d.enablePin LOW]) ∧
    (d.isBreakBeforeMake = false →
      ∃ rest, r.trace =
          selectWrites d.selectPins (d.addressCode c) 0 d.selectPins.length ++ rest ∧
        pinWrites rest = if d.isLatched = true then
          [(d.strobePin, LOW), (d.strobePin, HIGH)] else []) :=
  ⟨fun hb => bbm_success_trace env fuel hist d c r hb hen hinv hst h hok,
    fun hb => direct_success_trace env fuel hist d c r hb hen hinv hst h hok⟩

/-- Instance of C7 (amended): the `HC405X` on select pins 2, 3, 4 with enable pin 7,
switched to channel 5, writes its select lines and nothing else. -/
theorem enable_bracket_by_class_witness :
    ∃ rest, [Event.digitalWrite 2 1, Event.digitalWrite 3 0, Event.digitalWrite 4 1] =
        selectWrites [2, 3, 4] 5 0 3 ++ rest ∧
      pinWrites rest = [] :=
  (enable_bracket_by_class quietEnv 0 [] (Device.hc405x (HC405X.begun [2, 3, 4] 7 0)) 5
    ⟨MUXStatus.OK, Device.hc405x (HC405X.begun [2, 3, 4] 7 5),
      [Event.digitalWrite 2 1, Event.digitalWrite 3 0, Event.digitalWrite 4 1]⟩
    (by decide) (by decide) (by decide) (by rfl) rfl).2 (by decide)

/-! ## C8: the write pulse of the latched devices -/

theorem replay_unwritten (q : Nat) (t : List Event) :
    ∀ levels, (∀ v, Event.digitalWrite q v ∉ t) → replay levels t q = levels q := by
  induction t with
  | nil => intro levels _; rfl
  | cons e rest ih =>
    intro levels h
    have hrest : ∀ v, Event.digitalWrite q v ∉ rest := fun v hv =>
      h v (List.mem_cons_of_mem _ hv)
    rw [replay, ih _ hrest]
    cases e with
    | digitalWrite pin level =>
      have hne : q ≠ pin := by
        intro hq
        exact h level (by rw [hq]; exact List.mem_cons_self _ _)
      simp [Event.apply, hne]
    | _ => rfl

theorem mem_selectWrites (pins : List Nat) (c i k q v : Nat) (hk : i + k ≤ pins.length)
    (h : Event.digitalWrite q v ∈ selectWrites pins c i k) : q ∈ pins := by
  simp only [selectWrites, List.mem_map, List.mem_range'_1] at h
  obtain ⟨j, ⟨_, hj⟩, hq⟩ := h
  have hj2 : j < pins.length := by omega
  simp only [Event.digitalWrite.injEq] at hq
  rw [← hq.1, List.getD_eq_getElem _ _ hj2]
  exact List.getElem_mem _

/-- The events of a successful switch of a latched device. -/
theorem latched_success_trace (env : Env) (fuel : Nat) (hist : List Event) (d : Device)
    (c : Nat) (r : Step Device MUXStatus) (hl : d.isLatched = true)
    (hinv : d.inv = true) (hst : d.pinsStored = true)
    (h : d.setChannel env fuel hist c = Except.ok r) (hok : r.ret = MUXStatus.OK) :
    r.trace = selectWrites d.selectPins c 0 d.selectPins.length ++
      [Event.digitalWrite d.strobePin LOW, Event.delayMicros 1,
        Event.digitalWrite d.strobePin HIGH] := by
  cases d <;>
    simp only [Device.isLatched, Bool.false_eq_true] at hl <;>
    simp only [Device.setChannel, liftStep_eq_ok] at h <;>
    obtain ⟨r0, h0, rfl⟩ := h <;>
    simp only [Device.inv, Device.pinsStored, Bool.and_eq_true, beq_iff_eq] at hinv hst <;>
    simp only [Device.selectPins, Device.strobePin, hasPins_length _ _ hst] <;>
    simp only [ADG706.setChannel, MAX4582.setChannel] at h0 <;>
    (repeat' split at h0) <;>
    cases h0 <;>
    (try cases hok) <;>
    next _ hw =>
      rw [writeChannelBits_eq_ok _ _ _ _ _ hw]
      simp [hinv.1]

/-- After a `begin()` of a latched device that returned `OK` the write/load line is HIGH. -/
theorem latched_begin_strobe (env : Env) (hist : List Event) (d : Device)
    (r : Step Device MUXStatus) (hl : d.isLatched = true)
    (h : d.begin env hist = Except.ok r) (hok : r.ret = MUXStatus.OK)
    (levels : Nat → Nat) : replay levels r.trace d.strobePin = HIGH := by
  cases d <;>
    simp only [Device.isLatched, Bool.false_eq_true] at hl <;>
    simp only [Device.begin, liftStep_eq_ok] at h <;>
    obtain ⟨r0, h0, rfl⟩ := h <;>
    simp only [ADG706.begin, MAX4582.begin] at h0 <;>
    (repeat' split at h0) <;>
    cases h0 <;>
    (try contradiction) <;>
    simp [Device.strobePin, replay_append, replay, Event.apply]

/-- The select-pin loop of `AnalogMUX::begin()` over stored pins ends. -/
theorem configureOutputs_returns (l : List Nat) (k : Nat) :
    ∀ i, i + k ≤ l.length → ∃ t, configureOutputs (some l) i k = Except.ok t := by
  induction k with
  | zero => intro i _; exact ⟨[], rfl⟩
  | succ k ih =>
    intro i h
    obtain ⟨t, ht⟩ := ih (i + 1) (by omega)
    refine ⟨Event.pinMode (l.getD i 0) PinMode.OUTPUT ::
      Event.digitalWrite (l.getD i 0) LOW :: t, ?_⟩
    simp only [configureOutputs, pinAt_some l i (by omega), ht]

/-- On stored select pins `AnalogMUX::begin()` returns `OK` and sets `enabled`. -/
theorem analogMUX_begin_ok (s : AnalogMUX) (hst : hasPins s.selectPins s.numSelectPins = true) :
    ∃ t, AnalogMUX.begin s = Except.ok ⟨MUXStatus.OK, { s with enabled := true }, t⟩ := by
  cases hp : s.selectPins with
  | none => simp [hasPins, hp] at hst
  | some l =>
    have hlen : l.length = s.numSelectPins := by simpa [hasPins, hp] using hst
    obtain ⟨t, ht⟩ := configureOutputs_returns l s.numSelectPins 0 (by omega)
    refine ⟨t ++ (if s.enablePin ≠ 255 then
        [Event.pinMode s.enablePin PinMode.OUTPUT, Event.digitalWrite s.enablePin HIGH]
      else []) ++
      (if s.signalPin ≠ 255 then [Event.pinMode s.signalPin PinMode.INPUT] else []), ?_⟩
    simp only [AnalogMUX.begin, hp, ht]
    simp

/-- On a latched device with stored address pins `begin()` returns `OK`; it enables the
device, keeps its wiring and its constants, and leaves the write/load line HIGH. -/
theorem latched_begin_ok (env : Env) (hist : List Event) (d : Device)
    (hl : d.isLatched = true) (hst : d.pinsStored = true) :
    ∃ r0, d.begin env hist = Except.ok r0 ∧ r0.ret = MUXStatus.OK ∧
      r0.dev.base.enabled = true ∧ r0.dev.isLatched = true ∧
      r0.dev.pinsStored = true ∧ r0.dev.inv = d.inv ∧
      r0.dev.strobePin = d.strobePin ∧ r0.dev.selectPins = d.selectPins ∧
      r0.dev.enablePin = d.enablePin ∧
      ∀ levels, replay levels r0.trace d.strobePin = HIGH := by
  cases d <;> simp only [Device.isLatched, Bool.false_eq_true] at hl
  · next s =>
    obtain ⟨t, ht⟩ := analogMUX_begin_ok s.toAnalogMUX hst
    refine ⟨_, by simp only [Device.begin, liftStep, ADG706.begin, ht]; simp; rfl, ?_⟩
    simp [Device.base, Device.isLatched, Device.pinsStored, Device.inv, Device.strobePin,
      Device.selectPins, Device.enablePin, replay_append, replay, Event.apply]
    refine ⟨hst, fun levels => ?_⟩
    split <;> simp [replay, Event.apply]
  · next s =>
    obtain ⟨t, ht⟩ := analogMUX_begin_ok s.toAnalogMUX hst
    refine ⟨_, by simp only [Device.begin, liftStep, MAX4582.begin, ht]; simp; rfl, ?_⟩
    simp [Device.base, Device.isLatched, Device.pinsStored, Device.inv, Device.strobePin,
      Device.selectPins, Device.enablePin, replay_append, replay, Event.apply]
    exact hst

/-- C8: on a latched device (ADG706, MAX4582) with its address pins stored. `begin()`
returns `OK`; it leaves the device enabled, latched, with the same wiring and constants,
and the write/load line HIGH. The events of every `setChannel(c)` that returns `OK` are
exactly the writes of address line `i` to `(c >> i) & 1` in increasing order, then
write/load LOW, delay 1, write/load HIGH; the write/load line (when it is not wired to an
address pin) stays HIGH after each of the address writes, it is HIGH again after the call,
and the enable line (when it is wired to no address pin and not to the write/load pin) is
not written. Such a call returns `OK` for every valid channel on an enabled device. -/
theorem latched_write_pulse (env : Env) (fuel : Nat) (hist : List Event) (d : Device)
    (c : Nat) (hl : d.isLatched = true) (hinv : d.inv = true) (hst : d.pinsStored = true) :
    (∃ r0, d.begin env hist = Except.ok r0 ∧ r0.ret = MUXStatus.OK ∧
      r0.dev.base.enabled = true ∧ r0.dev.isLatched = true ∧
      r0.dev.pinsStored = true ∧ r0.dev.inv = true ∧
      r0.dev.strobePin = d.strobePin ∧ r0.dev.selectPins = d.selectPins ∧
      r0.dev.enablePin = d.enablePin ∧
      ∀ levels, replay levels r0.trace d.strobePin = HIGH) ∧
    (∀ r0, d.begin env hist = Except.ok r0 → r0.ret = MUXStatus.OK →
      ∀ levels, replay levels r0.trace d.strobePin = HIGH) ∧
    (∀ r, d.setChannel env fuel hist c = Except.ok r → r.ret = MUXStatus.OK →
      r.trace = selectWrites d.selectPins c 0 d.selectPins.length ++
        [Event.digitalWrite d.strobePin LOW, Event.delayMicros 1,
          Event.digitalWrite d.strobePin HIGH] ∧
      (d.strobePin ∉ d.selectPins →
        ∀ levels, levels d.strobePin = HIGH → ∀ k, k ≤ d.selectPins.length →
          replay levels (selectWrites d.selectPins c 0 k) d.strobePin = HIGH) ∧
      (∀ levels, replay levels r.trace d.strobePin = HIGH) ∧
      (d.enablePin ∉ d.selectPins → d.enablePin ≠ d.strobePin →
        ∀ v, Event.digitalWrite d.enablePin v ∉ r.trace)) ∧
    (d.base.enabled = true → c < d.base.maxChannels →
      ∃ r, d.setChannel env fuel hist c = Except.ok r ∧ r.ret = MUXStatus.OK) := by
  refine ⟨?_, fun r0 h0 hok0 levels => latched_begin_strobe env hist d r0 hl h0 hok0 levels,
    ?_, ?_⟩
  · obtain ⟨r0, h0, b1, b2, b3, b4, b5, b6, b7, b8, b9⟩ := latched_begin_ok env hist d hl hst
    exact ⟨r0, h0, b1, b2, b3, b4, b5.trans hinv, b6, b7, b8, b9⟩
  · intro r h hok
    have ht := latched_success_trace env fuel hist d c r hl hinv hst h hok
    refine ⟨ht, ?_, ?_, ?_⟩
    · intro hs levels hlev k hk
      rw [replay_unwritten _ _ levels, hlev]
      intro v hv
      exact hs (mem_selectWrites _ c 0 k _ v (by omega) hv)
    · intro levels
      rw [ht, replay_append]
      simp [replay, Event.apply]
    · intro he1 he2 v hv
      rw [ht, List.mem_append] at hv
      rcases hv with hv | hv
      · exact he1 (mem_selectWrites _ c 0 _ _ v (by omega) hv)
      · simp at hv
        rcases hv with hv | hv <;> exact he2 hv.1
  · intro he hc
    have hk : d.isGPIO = true ∧ d.isBuffering = false ∧ d.waitsForSync = false := by
      cases d <;> simp_all [Device.isLatched, Device.isGPIO, Device.isBuffering,
        Device.waitsForSync]
    obtain ⟨r, h⟩ := setChannel_returns env fuel hist d c hinv hst hk.2.2
    exact ⟨r, h, setChannel_status_ok env fuel hist d c r hk.1 hinv he hc hk.2.1 h⟩

theorem startedADG706_begin :
    (ADG706.begin (ADG706.new [2, 3, 4, 5] 14 6 7 false 255 true)).map
        (fun r => (r.ret, r.dev)) =
      Except.ok (MUXStatus.OK, startedADG706) := by
  rfl

/-- Instance of C8: the example `ADG706` (address pins 2, 3, 4, 5, signal pin 14, write
pin 6, enable pin 7). `begin()` on the newly constructed device returns `OK`, leaves the
state `startedADG706` and ends with the write line HIGH; `setChannel(10)` on that state
writes the address 0, 1, 0, 1 and then pulses the write line. -/
theorem latched_write_pulse_witness :
    (Device.begin quietEnv []
        (Device.adg706 (ADG706.new [2, 3, 4, 5] 14 6 7 false 255 true))).map
        (fun r => (r.ret, r.dev, r.trace)) =
      Except.ok (MUXStatus.OK, Device.adg706 startedADG706,
        [Event.pinMode 2 PinMode.OUTPUT, Event.digitalWrite 2 LOW,
          Event.pinMode 3 PinMode.OUTPUT, Event.digitalWrite 3 LOW,
          Event.pinMode 4 PinMode.OUTPUT, Event.digitalWrite 4 LOW,
          Event.pinMode 5 PinMode.OUTPUT, Event.digitalWrite 5 LOW,
          Event.pinMode 7 PinMode.OUTPUT, Event.digitalWrite 7 HIGH,
          Event.pinMode 14 PinMode.INPUT,
          Event.pinMode 6 PinMode.OUTPUT, Event.digitalWrite 6 HIGH]) ∧
    (Device.setChannel quietEnv 0 [] (Device.adg706 startedADG706) 10).map
        (fun r => (r.ret, r.trace)) =
      Except.ok (MUXStatus.OK,
        [Event.digitalWrite 2 0, Event.digitalWrite 3 1, Event.digitalWrite 4 0,
          Event.digitalWrite 5 1, Event.digitalWrite 6 LOW, Event.delayMicros 1,
          Event.digitalWrite 6 HIGH]) ∧
    ∃ r0, Device.begin quietEnv []
        (Device.adg706 (ADG706.new [2, 3, 4, 5] 14 6 7 false 255 true)) = Except.ok r0 ∧
      r0.ret = MUXStatus.OK ∧ r0.dev.base.enabled = true ∧ r0.dev.isLatched = true ∧
      r0.dev.pinsStored = true ∧ r0.dev.inv = true ∧
      r0.dev.strobePin = 6 ∧ r0.dev.selectPins = [2, 3, 4, 5] ∧ r0.dev.enablePin = 7 ∧
      ∀ levels, replay levels r0.trace 6 = HIGH :=
  ⟨by rfl, by rfl,
    (latched_write_pulse quietEnv 0 []
      (Device.adg706 (ADG706.new [2, 3, 4, 5] 14 6 7 false 255 true)) 10
      (by decide) (by decide) (by decide)).1⟩

theorem startedADG508A_begin :
    (ADG508A.begin (ADG508A.new [2, 3, 4] 14 5 true 15 true)).map
        (fun r => (r.ret, r.dev)) =
      Except.ok (MUXStatus.OK, startedADG508A) := by
  rfl

/-! ## C9: `AnalogMUX::readChannel` -/

/-- C9 fails as stated: on a platform whose `analogRead` gives 70000, `readChannel(5)` on
the example `HC4051` switches, waits, takes the sample 70000 and returns 4464, which is
70000 modulo 65536 and not the sample. -/
theorem readChannel_truncates_sample :
    (AnalogMUX.readChannel id HC4051.setChannel wideSampleEnv [] startedHC4051 5).map
        (fun r => (r.ret, r.trace.getLast?, decide (r.ret = 70000))) =
      Except.ok (4464, some (Event.analogRead 14 70000), false) := by
  rfl

/-- C9, amended: `AnalogMUX::readChannel(channel)`, for any override of `setChannel`. If
the internal `setChannel(channel)` returns a status other than `OK`, `readChannel` returns
0 and causes no event beyond those of `setChannel` (no delay, no sample). If it returns
`OK`, the events are those of the switch, then one delay of `settlingTime` microseconds,
then one sample of the signal pin, and the value returned is that sample reduced modulo
65536 (the `uint16_t` result): the sample itself whenever it is below 65536. -/
theorem readChannel_spec {σ : Type} (base : σ → AnalogMUX)
    (setChannel : σ → Nat → Except Fault (Step σ MUXStatus))
    (env : Env) (hist : List Event) (s : σ) (channel : Nat)
    (r : Step σ MUXStatus) (h : setChannel s channel = Except.ok r) :
    (r.ret ≠ MUXStatus.OK →
      AnalogMUX.readChannel base setChannel env hist s channel =
        Except.ok ⟨0, r.dev, r.trace⟩) ∧
    (r.ret = MUXStatus.OK →
      AnalogMUX.readChannel base setChannel env hist s channel =
        Except.ok ⟨env.analogRead
            (hist ++ r.trace ++ [Event.delayMicros (base r.dev).settlingTime])
            (base r.dev).signalPin % 65536,
          r.dev,
          r.trace ++ [Event.delayMicros (base r.dev).settlingTime,
            Event.analogRead (base r.dev).signalPin
              (env.analogRead
                (hist ++ r.trace ++ [Event.delayMicros (base r.dev).settlingTime])
                (base r.dev).signalPin)]⟩ ∧
      (env.analogRead
          (hist ++ r.trace ++ [Event.delayMicros (base r.dev).settlingTime])
          (base r.dev).signalPin < 65536 →
        (AnalogMUX.readChannel base setChannel env hist s channel).map (fun q => q.ret) =
          Except.ok (env.analogRead
            (hist ++ r.trace ++ [Event.delayMicros (base r.dev).settlingTime])
            (base r.dev).signalPin))) := by
  constructor
  · intro hne
    simp [AnalogMUX.readChannel, h, hne]
  · intro hok
    constructor
    · simp [AnalogMUX.readChannel, h, hok]
    · intro hlt
      simp only [AnalogMUX.readChannel, h, hok, ne_eq, not_true_eq_false, if_false,
        Except.map, Nat.mod_eq_of_lt hlt]

/-- Instance of C9: the example `HC4051` reads channel 5 on a platform sampling 700 on
its signal pin 14. -/
theorem readChannel_spec_witness :
    AnalogMUX.readChannel id HC4051.setChannel sampleEnv [] startedHC4051 5 =
      Except.ok ⟨700, { startedHC4051 with currentChannel := 5 },
        [Event.digitalWrite 5 HIGH, Event.delayMicros 1, Event.digitalWrite 2 1,
          Event.digitalWrite 3 0, Event.digitalWrite 4 1, Event.delayMicros 1,
          Event.digitalWrite 5 LOW, Event.delayMicros 10, Event.analogRead 14 700]⟩ :=
  ((readChannel_spec id HC4051.setChannel sampleEnv [] startedHC4051 5
    ⟨MUXStatus.OK, { startedHC4051 with currentChannel := 5 },
      [Event.digitalWrite 5 HIGH, Event.delayMicros 1, Event.digitalWrite 2 1,
        Event.digitalWrite 3 0, Event.digitalWrite 4 1, Event.delayMicros 1,
        Event.digitalWrite 5 LOW]⟩ (by rfl)).2 rfl).1

/-! ## C10: read operations that discard the status of `setChannel` -/

/-- C10, the code at the failing inputs: `ADG508A::readDifferential(9)` on an enabled
differential device, where `setChannel(9)` fails with `ERROR_CHANNEL_INVALID`, still
waits, samples both pins and returns 700 - 200 = 500; `CD74HC4067::readChannel(3)` on a
disabled device, where `setChannel(3)` fails with `ERROR_NOT_ENABLED`, still waits,
samples and returns 700. -/
theorem read_after_failed_switch_samples :
    (ADG508A.setChannel startedADG508A 9).map (fun r => r.ret) =
      Except.ok MUXStatus.ERROR_CHANNEL_INVALID ∧
    (ADG508A.readDifferential sampleEnv [] startedADG508A 9).map
        (fun r => (r.ret, r.trace)) =
      Except.ok (500, [Event.delayMicros 10, Event.analogRead 14 700,
        Event.analogRead 15 200]) ∧
    (CD74HC4067.setChannel sampleEnv [] disabledCD74HC4067 3).map (fun r => r.ret) =
      Except.ok MUXStatus.ERROR_NOT_ENABLED ∧
    (CD74HC4067.readChannel sampleEnv [] disabledCD74HC4067 3).map
        (fun r => (r.ret, r.trace)) =
      Except.ok (700, [Event.delayMicros 50, Event.analogRead 14 700]) := by
  refine ⟨?_, ?_, ?_, ?_⟩ <;> rfl

/-! ## C11: the three independent switches of the HC4053 -/

/-- C11: `HC4053::setChannels(ch1, ch2, ch3)`. While `enabled` is false it returns
`ERROR_NOT_ENABLED` without any event. Otherwise, on the three stored select pins, it
returns `OK` after writing select lines 0, 1, 2 to `ch1`, `ch2`, `ch3` in this order,
preceded by enable HIGH, delay 1 and followed by delay 1, enable LOW exactly when
`enablePin != 255`. In both cases the device state, `currentChannel` included, is
unchanged. -/
theorem setChannels_spec (s : HC4053) (ch1 ch2 ch3 : Bool) :
    (s.enabled = false →
      HC4053.setChannels s ch1 ch2 ch3 =
        Except.ok ⟨MUXStatus.ERROR_NOT_ENABLED, s, []⟩) ∧
    (s.enabled = true → ∀ p0 p1 p2, s.selectPins = some [p0, p1, p2] →
      (s.enablePin ≠ 255 →
        HC4053.setChannels s ch1 ch2 ch3 =
          Except.ok ⟨MUXStatus.OK, s,
            [Event.digitalWrite s.enablePin HIGH, Event.delayMicros 1,
              Event.digitalWrite p0 ch1.toNat, Event.digitalWrite p1 ch2.toNat,
              Event.digitalWrite p2 ch3.toNat,
              Event.delayMicros 1, Event.digitalWrite s.enablePin LOW]⟩) ∧
      (s.enablePin = 255 →
        HC4053.setChannels s ch1 ch2 ch3 =
          Except.ok ⟨MUXStatus.OK, s,
            [Event.digitalWrite p0 ch1.toNat, Event.digitalWrite p1 ch2.toNat,
              Event.digitalWrite p2 ch3.toNat]⟩)) := by
  refine ⟨fun h => by simp [HC4053.setChannels, h], fun h p0 p1 p2 hp => ⟨?_, ?_⟩⟩
  · intro he
    simp [HC4053.setChannels, h, hp, pinAt, he]
  · intro he
    simp [HC4053.setChannels, h, hp, pinAt, he]

/-- Instance of C11: the example `HC4053` (select pins 2, 3, 4, enable pin 5) set to
the switch positions 1, 0, 1. -/
theorem setChannels_spec_witness :
    HC4053.setChannels startedHC4053 true false true =
      Except.ok ⟨MUXStatus.OK, startedHC4053,
        [Event.digitalWrite 5 HIGH, Event.delayMicros 1, Event.digitalWrite 2 1,
          Event.digitalWrite 3 0, Event.digitalWrite 4 1,
          Event.delayMicros 1, Event.digitalWrite 5 LOW]⟩ :=
  ((setChannels_spec startedHC4053 true false true).2 (by decide) 2 3 4 (by decide)).1
    (by decide)

/-! ## C12 and C13: the bus transaction of `setChannel` -/

/-- The result of `setChannel(c)` on an enabled bus-addressed device, for a valid `c`:
the payload is `1 << c` (or `c | 0x08` on a `PCA9547`), the status and the recorded
channel follow the completion code of the transaction. -/
theorem bus_setChannel (env : Env) (fuel : Nat) (hist : List Event) (d : Device) (c : Nat)
    (hbus : d.isGPIO = false) (hinv : d.inv = true) (hen : d.base.enabled = true)
    (hc : c < d.base.maxChannels) :
    ∃ r tx, d.setChannel env fuel hist c = Except.ok r ∧
      tx = [Event.beginTransmission d.base.deviceAddress,
        Event.wireWrite (if d.isPCA9547 = true then c ||| 8 else 1 <<< c)] ∧
      r.trace = tx ++ [Event.endTransmission (env.endTransmission (hist ++ tx))] ∧
      (env.endTransmission (hist ++ tx) ≠ 0 →
        r.ret = MUXStatus.ERROR_COMMUNICATION ∧ r.dev = d) ∧
      (env.endTransmission (hist ++ tx) = 0 →
        r.ret = MUXStatus.OK ∧ r.dev.getChannel = c) := by
  cases d <;> simp only [Device.isGPIO, Bool.true_eq_false] at hbus <;>
    simp only [Device.inv, Device.base, beq_iff_eq] at hinv hen hc <;>
    rw [hinv] at hc
  · rename_i s
    have h256 : (1 <<< c) % 256 = 1 <<< c := by interval_cases c <;> rfl
    by_cases hcode : env.endTransmission (hist ++
        [Event.beginTransmission s.deviceAddress, Event.wireWrite (1 <<< c)]) = 0 <;>
      simp [Device.setChannel, liftStep, TCA9548A.setChannel, MUXManager.isValidChannel,
        hinv, hc, hen, h256, hcode, Device.isPCA9547, Device.base, Device.getChannel,
        MUXManager.getChannel]
  · rename_i s
    by_cases hcode : env.endTransmission (hist ++
        [Event.beginTransmission s.deviceAddress, Event.wireWrite (c ||| 8)]) = 0 <;>
      simp [Device.setChannel, liftStep, PCA9547.setChannel, MUXManager.isValidChannel,
        hinv, hc, hen, hcode, Device.isPCA9547, Device.base, Device.getChannel,
        MUXManager.getChannel]
  · rename_i s
    have h256 : (1 <<< c) % 256 = 1 <<< c := by interval_cases c <;> rfl
    by_cases hcode : env.endTransmission (hist ++
        [Event.beginTransmission s.deviceAddress, Event.wireWrite (1 <<< c)]) = 0 <;>
      simp [Device.setChannel, liftStep, PCA9646.setChannel, MUXManager.isValidChannel,
        hinv, hc, hen, h256, hcode, Device.isPCA9547, Device.base, Device.getChannel,
        MUXManager.getChannel]

theorem bus_maxChannels_le (d : Device) (hbus : d.isGPIO = false) (hinv : d.inv = true) :
    d.base.maxChannels ≤ 8 := by
  cases d <;> simp_all [Device.isGPIO, Device.inv, Device.base]

theorem one_hot_byte (c : Nat) (hc : c < 8) :
    1 <<< c < 256 ∧ ∀ i, (1 <<< c).testBit i = decide (i = c) := by
  constructor
  · interval_cases c <;> decide
  · intro i
    rw [Nat.one_shiftLeft, Nat.testBit_two_pow]
    simp [eq_comm]

theorem enable_bit_byte (c : Nat) (hc : c < 8) :
    c ||| 8 < 256 ∧ (c ||| 8).testBit 3 = true ∧ (c ||| 8) &&& 7 = c := by
  interval_cases c <;> decide

theorem payload_injective (c c' : Nat) (hc : c < 8) (hc' : c' < 8) :
    (1 <<< c' = 1 <<< c → c' = c) ∧ (c' ||| 8 = c ||| 8 → c' = c) := by
  interval_cases c <;> interval_cases c' <;> decide

/-- C12: on an enabled bus-addressed device, for every valid channel `c`, `setChannel(c)`
sends exactly one payload byte. On a TCA9548A or PCA9646 it is `1 << c`: it fits in 8
bits and its only set bit is bit `c`. On a PCA9547 it is `c | 0x08`: it fits in 8 bits,
bit 3 is set and the low three bits are `c`. In both encodings a valid channel that
makes `setChannel` send the same byte is `c` itself. -/
theorem bus_payload_byte (env : Env) (fuel : Nat) (hist : List Event) (d : Device) (c : Nat)
    (hbus : d.isGPIO = false) (hinv : d.inv = true) (hen : d.base.enabled = true)
    (hc : c < d.base.maxChannels) :
    ∃ r byte, d.setChannel env fuel hist c = Except.ok r ∧
      busWrites r.trace = [byte] ∧ byte < 256 ∧
      (d.isPCA9547 = false →
        byte = 1 <<< c ∧ ∀ i, byte.testBit i = decide (i = c)) ∧
      (d.isPCA9547 = true →
        byte = c ||| 8 ∧ byte.testBit 3 = true ∧ byte &&& 7 = c) ∧
      (∀ c' r', c' < d.base.maxChannels →
        d.setChannel env fuel hist c' = Except.ok r' →
        busWrites r'.trace = [byte] → c' = c) := by
  have hmax := bus_maxChannels_le d hbus hinv
  have hc8 : c < 8 := by omega
  obtain ⟨r, tx, hr, htx, htrace, -, -⟩ := bus_setChannel env fuel hist d c hbus hinv hen hc
  have hbytes : busWrites r.trace = [if d.isPCA9547 = true then c ||| 8 else 1 <<< c] := by
    rw [htrace, htx]
    rfl
  refine ⟨r, _, hr, hbytes, ?_, ?_, ?_, ?_⟩
  · split
    · exact (enable_bit_byte c hc8).1
    · exact (one_hot_byte c hc8).1
  · intro hp
    simp only [hp, Bool.false_eq_true, if_false, true_and]
    exact (one_hot_byte c hc8).2
  · intro hp
    simp only [hp, if_true, true_and]
    exact (enable_bit_byte c hc8).2
  · intro c' r' hc' hr' hb'
    have hc8' : c' < 8 := by omega
    obtain ⟨r2, tx2, hr2, htx2, htrace2, -, -⟩ :=
      bus_setChannel env fuel hist d c' hbus hinv hen hc'
    rw [hr2] at hr'
    cases hr'
    rw [htrace2, htx2] at hb'
    simp only [List.cons_append, List.nil_append, busWrites, List.cons.injEq, and_true] at hb'
    cases hp : d.isPCA9547
    · rw [hp] at hb'
      exact (payload_injective c c' hc8 hc8').1 hb'
    · rw [hp] at hb'
      exact (payload_injective c c' hc8 hc8').2 hb'

/-- Instance of C12: the example `TCA9548A` sends the byte 8 for channel 3. -/
theorem bus_payload_byte_witness :
    ∃ r byte, Device.setChannel quietEnv 0 [] (Device.tca9548a startedTCA9548A) 3 =
        Except.ok r ∧
      busWrites r.trace = [byte] ∧ byte < 256 ∧
      (Device.isPCA9547 (Device.tca9548a startedTCA9548A) = false →
        byte = 1 <<< 3 ∧ ∀ i, byte.testBit i = decide (i = 3)) ∧
      (Device.isPCA9547 (Device.tca9548a startedTCA9548A) = true →
        byte = 3 ||| 8 ∧ byte.testBit 3 = true ∧ byte &&& 7 = 3) ∧
      (∀ c' r', c' < (Device.tca9548a startedTCA9548A).base.maxChannels →
        Device.setChannel quietEnv 0 [] (Device.tca9548a startedTCA9548A) c' =
          Except.ok r' →
        busWrites r'.trace = [byte] → c' = 3) :=
  bus_payload_byte quietEnv 0 [] (Device.tca9548a startedTCA9548A) 3
    (by decide) (by decide) (by decide) (by decide)

/-- C13: on a bus-addressed device (TCA9548A, PCA9547, PCA9646) `setChannel` never returns
`ERROR_INIT`. When the device is enabled and `c` is valid, `setChannel(c)` ends with the
completion code of its one transaction: it returns `ERROR_COMMUNICATION` if and only if
the code is not zero, and then the device state (`currentChannel` included) is
unchanged; when the code is zero it returns `OK` and `currentChannel` becomes `c`. -/
theorem bus_status (env : Env) (fuel : Nat) (hist : List Event) (d : Device) (c : Nat)
    (hbus : d.isGPIO = false) (hinv : d.inv = true) :
    (∀ c' r, d.setChannel env fuel hist c' = Except.ok r → r.ret ≠ MUXStatus.ERROR_INIT) ∧
    (d.base.enabled = true → c < d.base.maxChannels →
      ∃ r tx, d.setChannel env fuel hist c = Except.ok r ∧
        r.trace = tx ++ [Event.endTransmission (env.endTransmission (hist ++ tx))] ∧
        (r.ret = MUXStatus.ERROR_COMMUNICATION ↔ env.endTransmission (hist ++ tx) ≠ 0) ∧
        (env.endTransmission (hist ++ tx) ≠ 0 → r.dev = d) ∧
        (env.endTransmission (hist ++ tx) = 0 →
          r.ret = MUXStatus.OK ∧ r.dev.getChannel = c)) := by
  constructor
  · intro c' r h
    cases d <;> simp only [Device.isGPIO, Bool.true_eq_false] at hbus <;>
      simp only [Device.setChannel, liftStep_eq_ok] at h <;>
      obtain ⟨r0, h0, rfl⟩ := h <;>
      simp only [TCA9548A.setChannel, PCA9547.setChannel, PCA9646.setChannel] at h0 <;>
      (repeat' split at h0) <;>
      cases h0 <;>
      simp
  · intro hen hc
    obtain ⟨r, tx, hr, -, htrace, hbad, hgood⟩ :=
      bus_setChannel env fuel hist d c hbus hinv hen hc
    refine ⟨r, tx, hr, htrace, ⟨fun h hz => ?_, fun h => (hbad h).1⟩,
      fun h => (hbad h).2, hgood⟩
    rw [(hgood hz).1] at h
    cases h

/-- Instance of C13: on a platform whose transactions complete with code 0 the example
`TCA9548A` never answers `ERROR_INIT`, and answers `OK` to `setChannel(3)`. -/
theorem bus_status_witness :
    (∀ c' r, Device.setChannel quietEnv 0 [] (Device.tca9548a startedTCA9548A) c' =
      Except.ok r → r.ret ≠ MUXStatus.ERROR_INIT) ∧
    ∃ r tx, Device.setChannel quietEnv 0 [] (Device.tca9548a startedTCA9548A) 3 =
        Except.ok r ∧
      r.trace = tx ++ [Event.endTransmission (quietEnv.endTransmission ([] ++ tx))] ∧
      (r.ret = MUXStatus.ERROR_COMMUNICATION ↔ quietEnv.endTransmission ([] ++ tx) ≠ 0) ∧
      (quietEnv.endTransmission ([] ++ tx) ≠ 0 →
        r.dev = Device.tca9548a startedTCA9548A) ∧
      (quietEnv.endTransmission ([] ++ tx) = 0 →
        r.ret = MUXStatus.OK ∧ r.dev.getChannel = 3) :=
  have h := bus_status quietEnv 0 [] (Device.tca9548a startedTCA9548A) 3
    (by decide) (by decide)
  ⟨h.1, h.2 (by decide) (by decide)⟩

/-! ## C14: `begin()` that fails -/

/-- C14: `begin()` on a bus-addressed device ends with the completion code of its address
probe: when the code is not zero it returns `ERROR_INIT` and leaves the device state
unchanged (`enabled` stays false on a freshly constructed device, `currentChannel` is
kept); when the code is zero it returns `OK` with `enabled` true and `currentChannel`
kept. `begin()` on an `AnalogMUX` or `FastMUX` device whose pin list is null returns
`ERROR_INIT` without any event (no pin is configured or written) and leaves the state
unchanged, so the device is not enabled. -/
theorem begin_init_error (env : Env) (hist : List Event) (d : Device) :
    (d.isGPIO = false →
      ∃ r tx, d.begin env hist = Except.ok r ∧
        r.trace = tx ++ [Event.endTransmission (env.endTransmission (hist ++ tx))] ∧
        (env.endTransmission (hist ++ tx) ≠ 0 →
          r.ret = MUXStatus.ERROR_INIT ∧ r.dev = d) ∧
        (env.endTransmission (hist ++ tx) = 0 →
          r.ret = MUXStatus.OK ∧ r.dev.base.enabled = true ∧
          r.dev.getChannel = d.getChannel)) ∧
    (d.pinsMissing = true →
      d.begin env hist = Except.ok ⟨MUXStatus.ERROR_INIT, d, []⟩) ∧
    (∀ s : AnalogMUX, s.selectPins = none →
      AnalogMUX.begin s = Except.ok ⟨MUXStatus.ERROR_INIT, s, []⟩) ∧
    (∀ s : FastMUX, s.pins = none →
      FastMUX.begin s = Except.ok ⟨MUXStatus.ERROR_INIT, s, []⟩) := by
  refine ⟨?_, ?_, fun s h => by simp [AnalogMUX.begin, h],
    fun s h => by simp [FastMUX.begin, h]⟩
  · intro hbus
    cases d <;> simp only [Device.isGPIO, Bool.true_eq_false] at hbus
    · rename_i s
      refine ⟨_, [Event.wireBegin, Event.beginTransmission s.deviceAddress], rfl, ?_⟩
      by_cases hcode : env.endTransmission (hist ++
          [Event.wireBegin, Event.beginTransmission s.deviceAddress]) = 0 <;>
        simp [TCA9548A.begin, hcode, Device.base, Device.getChannel, MUXManager.getChannel]
    · rename_i s
      refine ⟨_, [Event.wireBegin] ++ (if s.resetPin ≠ 255 then
          [Event.pinMode s.resetPin PinMode.OUTPUT, Event.digitalWrite s.resetPin HIGH]
          else []) ++ [Event.beginTransmission s.deviceAddress], rfl, ?_⟩
      simp only [PCA9547.begin]
      generalize env.endTransmission (hist ++ ([Event.wireBegin] ++
          (if s.resetPin ≠ 255 then
            [Event.pinMode s.resetPin PinMode.OUTPUT, Event.digitalWrite s.resetPin HIGH]
            else []) ++ [Event.beginTransmission s.deviceAddress])) = code
      by_cases hcode : code = 0 <;>
        simp [hcode, Device.base, Device.getChannel, MUXManager.getChannel]
    · rename_i s
      refine ⟨_, [Event.wireBegin] ++ (if s.resetPin ≠ 255 then
          [Event.pinMode s.resetPin PinMode.OUTPUT, Event.digitalWrite s.resetPin HIGH]
          else []) ++ [Event.beginTransmission s.deviceAddress], rfl, ?_⟩
      simp only [PCA9646.begin]
      generalize env.endTransmission (hist ++ ([Event.wireBegin] ++
          (if s.resetPin ≠ 255 then
            [Event.pinMode s.resetPin PinMode.OUTPUT, Event.digitalWrite s.resetPin HIGH]
            else []) ++ [Event.beginTransmission s.deviceAddress])) = code
      by_cases hcode : code = 0 <;>
        simp [hcode, Device.base, Device.getChannel, MUXManager.getChannel]
  · intro hm
    cases d <;> simp only [Device.pinsMissing, Option.isNone_iff_eq_none,
        Bool.false_eq_true] at hm <;>
      simp [Device.begin, liftStep, AnalogMUX.begin, HC4052.begin, ADG508A.begin,
        ADG706.begin, ADG506A.begin, DG408.begin, MAX4582.begin, VideoMUX.begin,
        AudioMUX.begin, DataMUX.begin, FastMUX.begin, hm]

/-- Instance of C14: on a platform whose transactions fail, `begin()` of a fresh
`TCA9548A` returns `ERROR_INIT` and leaves it as constructed; `begin()` of an `HC4051`
whose pin list could not be stored returns `ERROR_INIT` without any event. -/
theorem begin_init_error_witness :
    (Device.begin deadBusEnv [] (Device.tca9548a (TCA9548A.new 112))).map
        (fun r => (r.ret, r.dev)) =
      Except.ok (MUXStatus.ERROR_INIT, Device.tca9548a (TCA9548A.new 112)) ∧
    Device.begin quietEnv [] (Device.hc4051 (HC4051.new [2, 3, 4] 14 5 false)) =
      Except.ok ⟨MUXStatus.ERROR_INIT, Device.hc4051 (HC4051.new [2, 3, 4] 14 5 false), []⟩ :=
  ⟨by rfl, (begin_init_error quietEnv [] _).2.1 (by decide)⟩

/-! ## C16: `TCA9548A::startScan` -/

/-- C16: `TCA9548A::startScan(a, b)` returns false and leaves the device unchanged (no
event either) whenever `a >= maxChannels` or `b >= maxChannels`; it returns true exactly
when both bounds are valid, and then a scan is active on the range `a..b`, whatever
range or scan the device held before. -/
theorem startScan_spec (s : TCA9548A) (a b : Nat) :
    (s.maxChannels ≤ a ∨ s.maxChannels ≤ b → s.startScan a b = ⟨false, s, []⟩) ∧
    ((s.startScan a b).ret = true ↔ a < s.maxChannels ∧ b < s.maxChannels) ∧
    (a < s.maxChannels → b < s.maxChannels →
      (s.startScan a b).dev.scanning = true ∧ (s.startScan a b).dev.scanStartCh = a ∧
      (s.startScan a b).dev.scanEndCh = b ∧ (s.startScan a b).dev.maxChannels = s.maxChannels ∧
      (s.startScan a b).dev.enabled = s.enabled) := by
  refine ⟨?_, ?_, ?_⟩
  · intro h
    have h2 : ¬ (a < s.maxChannels ∧ b < s.maxChannels) := by omega
    simp only [not_and_or, not_lt] at h2
    simp [TCA9548A.startScan, MUXManager.isValidChannel, h2]
  · by_cases h : a < s.maxChannels ∧ b < s.maxChannels
    · simp [TCA9548A.startScan, MUXManager.isValidChannel, h]
    · have h2 := h
      simp only [not_and_or, not_lt] at h2
      simp [TCA9548A.startScan, MUXManager.isValidChannel, h, h2]
  · intro ha hb
    simp [TCA9548A.startScan, MUXManager.isValidChannel, ha, hb]

/-- Instance of C16: on the example `TCA9548A`, `startScan(2, 9)` is rejected and a
`startScan(2, 5)` issued while the range 0..7 is being scanned records the range 2..5. -/
theorem startScan_spec_witness :
    startedTCA9548A.startScan 2 9 = ⟨false, startedTCA9548A, []⟩ ∧
    ((startedTCA9548A.startScan 0 7).dev.startScan 2 5).dev.scanStartCh = 2 ∧
    ((startedTCA9548A.startScan 0 7).dev.startScan 2 5).dev.scanEndCh = 5 :=
  ⟨(startScan_spec startedTCA9548A 2 9).1 (by decide),
    ((startScan_spec (startedTCA9548A.startScan 0 7).dev 2 5).2.2
      (by decide) (by decide)).2.1,
    ((startScan_spec (startedTCA9548A.startScan 0 7).dev 2 5).2.2
      (by decide) (by decide)).2.2.1⟩

/-! ## C17: the channel sequence of a scan -/

theorem succ_mod_cases (j len : Nat) (hlen : 0 < len) :
    (j + 1) % len = if j % len + 1 = len then 0 else j % len + 1 := by
  have hlt := Nat.mod_lt j hlen
  rw [Nat.add_mod]
  by_cases h1 : len = 1
  · subst h1
    simp [Nat.mod_one]
  · have h1' : 1 % len = 1 := Nat.mod_eq_of_lt (by omega)
    rw [h1']
    split
    · next h => rw [h, Nat.mod_self]
    · next h => exact Nat.mod_eq_of_lt (by omega)

/-- One `update()` during a scan of `a..b` on an enabled device whose transactions
succeed: a call that does not fire only reads the clock; a call that fires, after `k`
earlier ticks, sends the byte of channel `a + k mod (b - a + 1)` and records it. -/
theorem update_scanPhase (env : Env) (hbus : ∀ h, env.endTransmission h = 0)
    (a b k : Nat) (hab : a ≤ b) (hb : b < 8) (s : TCA9548A) (hs : TCA9548A.scanPhase a b k s)
    (hist : List Event) :
    ∃ r, TCA9548A.update env hist s = Except.ok r ∧
      (TCA9548A.fires env hist s = false → r.dev = s ∧ busWrites r.trace = []) ∧
      (TCA9548A.fires env hist s = true →
        busWrites r.trace = [1 <<< (a + k % (b - a + 1))] ∧ TCA9548A.scanPhase a b (k + 1) r.dev) := by
  obtain ⟨hscan, hstart, hend, hen, hmax, hcc⟩ := hs
  have hlen : 0 < b - a + 1 := by omega
  by_cases hdue : s.tickDue (env.millis hist) = true
  · -- the tick fires
    have hnext : (if (s.currentChannel + 1) % 256 > s.scanEndCh ∨
          (s.currentChannel + 1) % 256 < s.scanStartCh then s.scanStartCh
        else (s.currentChannel + 1) % 256) = a + k % (b - a + 1) := by
      rw [hstart, hend, hcc]
      by_cases hk : k = 0
      · subst hk
        simp only [if_true, Nat.zero_mod, Nat.add_zero]
        have : ((a + 255) % 256 + 1) % 256 = a := by omega
        rw [this, if_neg (by omega)]
      · have hk1 : k = (k - 1) + 1 := by omega
        have hm := succ_mod_cases (k - 1) (b - a + 1) hlen
        rw [← hk1] at hm
        have hlt := Nat.mod_lt (k - 1) hlen
        rw [if_neg hk, hm]
        have h256 : (a + (k - 1) % (b - a + 1) + 1) % 256 = a + (k - 1) % (b - a + 1) + 1 :=
          Nat.mod_eq_of_lt (by omega)
        rw [h256]
        split <;> split <;> omega
    have hval : a + k % (b - a + 1) < 8 := by
      have := Nat.mod_lt k hlen
      omega
    have h256 : (1 <<< (a + k % (b - a + 1))) % 256 = 1 <<< (a + k % (b - a + 1)) := by
      generalize a + k % (b - a + 1) = c at hval
      interval_cases c <;> rfl
    refine ⟨⟨(), { s with
        currentChannel := a + k % (b - a + 1),
        lastScanTime := env.millis (hist ++ [Event.millis (env.millis hist),
          Event.beginTransmission s.deviceAddress,
          Event.wireWrite (1 <<< (a + k % (b - a + 1))), Event.endTransmission 0]) % 2 ^ 32 },
      [Event.millis (env.millis hist), Event.beginTransmission s.deviceAddress,
        Event.wireWrite (1 <<< (a + k % (b - a + 1))), Event.endTransmission 0,
        Event.millis (env.millis (hist ++ [Event.millis (env.millis hist),
          Event.beginTransmission s.deviceAddress,
          Event.wireWrite (1 <<< (a + k % (b - a + 1))), Event.endTransmission 0]))]⟩,
      ?_, ?_, ?_⟩
    · simp only [TCA9548A.update, hscan, hdue, hnext, TCA9548A.setChannel,
        MUXManager.isValidChannel, hmax, hval, hen, hbus, h256]
      simp [hen, hmax, hscan]
    · intro hf
      simp [TCA9548A.fires, hscan, hdue] at hf
    · intro _
      simp [busWrites, TCA9548A.scanPhase, hscan, hstart, hend, hen, hmax]
  · -- the tick does not fire
    simp only [Bool.not_eq_true] at hdue
    refine ⟨⟨(), s, [Event.millis (env.millis hist)]⟩, ?_, ?_, ?_⟩
    · simp [TCA9548A.update, hscan, hdue]
    · intro _
      exact ⟨rfl, rfl⟩
    · intro hf
      simp [TCA9548A.fires, hscan, hdue] at hf

/-- Any number of `update()` calls during a scan of `a..b`, starting after `k` ticks:
the bytes sent are those of the channels `a + j mod (b - a + 1)` for `j = k, k + 1, ...`,
one for each tick that fired. -/
theorem updates_scanPhase (env : Env) (hbus : ∀ h, env.endTransmission h = 0)
    (a b : Nat) (hab : a ≤ b) (hb : b < 8) (n : Nat) :
    ∀ k s hist, TCA9548A.scanPhase a b k s →
      ∃ r, TCA9548A.updates env n hist s = Except.ok r ∧
        busWrites r.trace =
          (List.range' k r.ret).map (fun j => 1 <<< (a + j % (b - a + 1))) ∧
        TCA9548A.scanPhase a b (k + r.ret) r.dev := by
  induction n with
  | zero =>
    intro k s hist hs
    exact ⟨⟨0, s, []⟩, rfl, rfl, hs⟩
  | succ n ih =>
    intro k s hist hs
    obtain ⟨r1, h1, hidle, hfire⟩ := update_scanPhase env hbus a b k hab hb s hs hist
    cases hf : TCA9548A.fires env hist s
    · obtain ⟨hdev, hbw⟩ := hidle hf
      obtain ⟨r2, h2, hbw2, hp2⟩ := ih k r1.dev (hist ++ r1.trace) (hdev ▸ hs)
      refine ⟨⟨0 + r2.ret, r2.dev, r1.trace ++ r2.trace⟩, ?_, ?_, ?_⟩
      · simp [TCA9548A.updates, h1, h2, hf]
      · simp [busWrites_append, hbw, hbw2]
      · simpa using hp2
    · obtain ⟨hbw, hp⟩ := hfire hf
      obtain ⟨r2, h2, hbw2, hp2⟩ := ih (k + 1) r1.dev (hist ++ r1.trace) hp
      refine ⟨⟨1 + r2.ret, r2.dev, r1.trace ++ r2.trace⟩, ?_, ?_, ?_⟩
      · simp [TCA9548A.updates, h1, h2, hf]
      · simp only [busWrites_append, hbw, hbw2]
        rw [Nat.add_comm 1 r2.ret, List.range'_succ]
        simp
      · simpa [Nat.add_assoc] using hp2

/-- C17: on an enabled `TCA9548A` whose bus transactions succeed, for valid bounds
`a <= b`, after `startScan(a, b)` any number `n` of `update()` calls returns, and the
ticks that fired among them selected, in order, the channels `a + j mod (b - a + 1)`
for `j = 0, 1, ...` (the `k`-th tick selects `a + (k - 1) mod (b - a + 1)`): these are
the payload bytes `1 << channel` sent, and after the last tick `currentChannel` is the
channel it selected. The priming value `a - 1` wraps to 255 for `a = 0`. -/
theorem scan_sequence (env : Env) (hbus : ∀ h, env.endTransmission h = 0)
    (s : TCA9548A) (a b : Nat) (hmax : s.maxChannels = 8) (hen : s.enabled = true)
    (hab : a ≤ b) (hb : b < 8) (n : Nat) (hist : List Event) :
    ∃ r, TCA9548A.updates env n hist (s.startScan a b).dev = Except.ok r ∧
      busWrites r.trace = (List.range r.ret).map (fun j => 1 <<< (a + j % (b - a + 1))) ∧
      (0 < r.ret → r.dev.currentChannel = a + (r.ret - 1) % (b - a + 1)) := by
  have h0 : TCA9548A.scanPhase a b 0 (s.startScan a b).dev := by
    have ha : a < 8 := by omega
    simp [TCA9548A.scanPhase, TCA9548A.startScan, MUXManager.isValidChannel, hmax, ha, hb,
      hen]
  obtain ⟨r, hr, hbw, hp⟩ := updates_scanPhase env hbus a b hab hb n 0
    (s.startScan a b).dev hist h0
  refine ⟨r, hr, ?_, ?_⟩
  · rw [hbw, List.range_eq_range']
  · intro hpos
    have hcc := hp.2.2.2.2.2
    rw [Nat.zero_add, if_neg (by omega)] at hcc
    exact hcc

/-- Instance of C17: `startScan(2, 5)` on the example `TCA9548A`, then five `update()`
calls on a platform where every one of them fires: the channels selected are
2, 3, 4, 5, 2 (payload bytes 4, 8, 16, 32, 4). -/
theorem scan_sequence_witness :
    (TCA9548A.updates tickingEnv 5 [] (startedTCA9548A.startScan 2 5).dev).map
        (fun r => (r.ret, busWrites r.trace, r.dev.currentChannel)) =
      Except.ok (5, [1 <<< 2, 1 <<< 3, 1 <<< 4, 1 <<< 5, 1 <<< 2], 2) ∧
    ∃ r, TCA9548A.updates tickingEnv 5 [] (startedTCA9548A.startScan 2 5).dev =
        Except.ok r ∧
      busWrites r.trace = (List.range r.ret).map (fun j => 1 <<< (2 + j % (5 - 2 + 1))) ∧
      (0 < r.ret → r.dev.currentChannel = 2 + (r.ret - 1) % (5 - 2 + 1)) :=
  ⟨by rfl, scan_sequence tickingEnv (fun _ => rfl) startedTCA9548A 2 5 rfl rfl
    (by decide) (by decide) 5 []⟩

/-! ## The effect of the public operations -/

theorem dg409Code_lt (c : Nat) (hc : c < 8) : DG408.dg409Code c < 8 := by
  interval_cases c <;> decide

theorem evolves_refl (d : Device) : d.evolves d :=
  ⟨rfl, rfl, rfl, rfl, Or.inl rfl⟩

theorem evolves_trans (d1 d2 d3 : Device) (h12 : d1.evolves d2) (h23 : d2.evolves d3) :
    d1.evolves d3 := by
  obtain ⟨a1, b1, c1, e1, f1⟩ := h12
  obtain ⟨a2, b2, c2, e2, f2⟩ := h23
  refine ⟨a2.trans a1, b2.trans b1, c2.trans c1, e2.trans e1, ?_⟩
  rw [b1] at f2
  rcases f2 with f2 | f2
  · rw [f2]; exact f1
  · exact Or.inr f2

/-- A call of `setChannel` on a device that keeps the constants of its class. -/
theorem setChannel_evolves (env : Env) (fuel : Nat) (hist : List Event) (d : Device)
    (c : Nat) (r : Step Device MUXStatus) (hinv : d.inv = true)
    (h : d.setChannel env fuel hist c = Except.ok r) : d.evolves r.dev := by
  cases d <;>
    simp only [Device.setChannel, liftStep_eq_ok] at h <;>
    obtain ⟨r0, h0, rfl⟩ := h <;>
    simp only [Device.inv, Bool.and_eq_true, beq_iff_eq] at hinv <;>
    simp only [HC4051.setChannel, HC4067.setChannel,
      HC4052.setChannel, ADG508A.setChannel, ADG706.setChannel, ADG506A.setChannel,
      DG408.setChannel, MAX4051A.setChannel, MAX4582.setChannel, HC405X.setChannel,
      CD74HC4067.setChannel, VideoMUX.setChannel, AudioMUX.setChannel, DataMUX.setChannel,
      TCA9548A.setChannel, PCA9547.setChannel, PCA9646.setChannel,
      MUXManager.isValidChannel] at h0 <;>
    (repeat' split at h0) <;>
    cases h0 <;>
    (simp_all [Device.evolves, Device.inv, Device.base, Device.scanFields]
     first
       | done
       | omega
       | exact Or.inr (dg409Code_lt _ (by assumption)))

theorem liftRet_eq_ok {σ α : Type} (wrap : σ → Device) (val : α → Ret)
    (x : Except Fault (Step σ α)) (r : Step Device Ret) :
    liftRet wrap val x = Except.ok r ↔
      ∃ r0, x = Except.ok r0 ∧ r = ⟨val r0.ret, wrap r0.dev, r0.trace⟩ := by
  cases x with
  | error f => simp [liftRet]
  | ok r0 => simp [liftRet, eq_comm]

theorem readChannel_dev {σ : Type} (base : σ → AnalogMUX)
    (sc : σ → Nat → Except Fault (Step σ MUXStatus)) (env : Env) (hist : List Event)
    (s : σ) (c : Nat) (r : Step σ Nat)
    (h : AnalogMUX.readChannel base sc env hist s c = Except.ok r) :
    ∃ r0, sc s c = Except.ok r0 ∧ r.dev = r0.dev := by
  simp only [AnalogMUX.readChannel] at h
  split at h
  · cases h
  · next r0 h0 =>
    refine ⟨r0, h0, ?_⟩
    split at h <;> cases h <;> rfl

theorem sampleDifference_dev {σ : Type} (base : σ → AnalogMUX) (pinB : σ → Nat)
    (sc : σ → Nat → Except Fault (Step σ MUXStatus)) (env : Env) (hist : List Event)
    (s : σ) (c : Nat) (r : Step σ Int)
    (h : sampleDifference base pinB sc env hist s c = Except.ok r) :
    ∃ r0, sc s c = Except.ok r0 ∧ r.dev = r0.dev := by
  simp only [sampleDifference] at h
  split at h
  · cases h
  · next r0 h0 =>
    cases h
    exact ⟨r0, h0, rfl⟩

theorem hc4052_setChannel_evolves (s : HC4052) (c : Nat) (r0 : Step HC4052 MUXStatus)
    (hinv : (Device.hc4052 s).inv = true) (h : HC4052.setChannel s c = Except.ok r0) :
    (Device.hc4052 s).evolves (Device.hc4052 r0.dev) :=
  setChannel_evolves quietEnv 0 [] (Device.hc4052 s) c ⟨r0.ret, Device.hc4052 r0.dev, r0.trace⟩
    hinv (by simp [Device.setChannel, liftStep, h])

theorem adg508a_setChannel_evolves (s : ADG508A) (c : Nat) (r0 : Step ADG508A MUXStatus)
    (hinv : (Device.adg508a s).inv = true) (h : ADG508A.setChannel s c = Except.ok r0) :
    (Device.adg508a s).evolves (Device.adg508a r0.dev) :=
  setChannel_evolves quietEnv 0 [] (Device.adg508a s) c
    ⟨r0.ret, Device.adg508a r0.dev, r0.trace⟩ hinv (by simp [Device.setChannel, liftStep, h])

theorem adg706_setChannel_evolves (s : ADG706) (c : Nat) (r0 : Step ADG706 MUXStatus)
    (hinv : (Device.adg706 s).inv = true) (h : ADG706.setChannel s c = Except.ok r0) :
    (Device.adg706 s).evolves (Device.adg706 r0.dev) :=
  setChannel_evolves quietEnv 0 [] (Device.adg706 s) c
    ⟨r0.ret, Device.adg706 r0.dev, r0.trace⟩ hinv (by simp [Device.setChannel, liftStep, h])

theorem adg506a_setChannel_evolves (s : ADG506A) (c : Nat) (r0 : Step ADG506A MUXStatus)
    (hinv : (Device.adg506a s).inv = true) (h : ADG506A.setChannel s c = Except.ok r0) :
    (Device.adg506a s).evolves (Device.adg506a r0.dev) :=
  setChannel_evolves quietEnv 0 [] (Device.adg506a s) c
    ⟨r0.ret, Device.adg506a r0.dev, r0.trace⟩ hinv (by simp [Device.setChannel, liftStep, h])

theorem mpc506a_setChannel_evolves (s : ADG506A) (c : Nat) (r0 : Step ADG506A MUXStatus)
    (hinv : (Device.mpc506a s).inv = true) (h : ADG506A.setChannel s c = Except.ok r0) :
    (Device.mpc506a s).evolves (Device.mpc506a r0.dev) :=
  setChannel_evolves quietEnv 0 [] (Device.mpc506a s) c
    ⟨r0.ret, Device.mpc506a r0.dev, r0.trace⟩ hinv (by simp [Device.setChannel, liftStep, h])

theorem dg408_setChannel_evolves (s : DG408) (c : Nat) (r0 : Step DG408 MUXStatus)
    (hinv : (Device.dg408 s).inv = true) (h : DG408.setChannel s c = Except.ok r0) :
    (Device.dg408 s).evolves (Device.dg408 r0.dev) :=
  setChannel_evolves quietEnv 0 [] (Device.dg408 s) c
    ⟨r0.ret, Device.dg408 r0.dev, r0.trace⟩ hinv (by simp [Device.setChannel, liftStep, h])

theorem cd74hc4067_setChannel_evolves (env : Env) (hist : List Event) (s : CD74HC4067)
    (c : Nat) (r0 : Step CD74HC4067 MUXStatus)
    (hinv : (Device.cd74hc4067 s).inv = true)
    (h : CD74HC4067.setChannel env hist s c = Except.ok r0) :
    (Device.cd74hc4067 s).evolves (Device.cd74hc4067 r0.dev) :=
  setChannel_evolves env 0 hist (Device.cd74hc4067 s) c
    ⟨r0.ret, Device.cd74hc4067 r0.dev, r0.trace⟩ hinv
    (by simp [Device.setChannel, liftStep, h])

theorem dataMUX_setChannel_evolves (s : DataMUX) (c : Nat) (r0 : Step DataMUX MUXStatus)
    (hinv : (Device.dataMUX s).inv = true) (h : DataMUX.setChannel s c = Except.ok r0) :
    (Device.dataMUX s).evolves (Device.dataMUX r0.dev) :=
  setChannel_evolves quietEnv 0 [] (Device.dataMUX s) c
    ⟨r0.ret, Device.dataMUX r0.dev, r0.trace⟩ hinv (by simp [Device.setChannel, liftStep, h])

theorem tca9548a_setChannel_evolves (env : Env) (hist : List Event) (s : TCA9548A)
    (c : Nat) (r0 : Step TCA9548A MUXStatus)
    (hinv : (Device.tca9548a s).inv = true)
    (h : TCA9548A.setChannel env hist s c = Except.ok r0) :
    (Device.tca9548a s).evolves (Device.tca9548a r0.dev) :=
  setChannel_evolves env 0 hist (Device.tca9548a s) c
    ⟨r0.ret, Device.tca9548a r0.dev, r0.trace⟩ hinv
    (by simp [Device.setChannel, liftStep, h])

/-- The replay loop of `flushBuffer` is a sequence of `setChannel` calls. -/
theorem flushLoop_evolves (k : Nat) :
    ∀ (s : DataMUX) (i : Nat) (r : Step DataMUX MUXStatus),
      (Device.dataMUX s).inv = true → DataMUX.flushLoop s i k = Except.ok r →
      (Device.dataMUX s).evolves (Device.dataMUX r.dev) := by
  induction k with
  | zero =>
    intro s i r _ h
    simp only [DataMUX.flushLoop] at h
    cases h
    exact evolves_refl _
  | succ k ih =>
    intro s i r hinv h
    simp only [DataMUX.flushLoop] at h
    split at h
    · cases h
    · split at h
      · cases h
      · next r1 h1 =>
        have e1 := dataMUX_setChannel_evolves s _ r1 hinv h1
        split at h
        · cases h
          exact e1
        · split at h
          · cases h
          · next r2 h2 =>
            cases h
            exact evolves_trans _ _ _ e1 (ih r1.dev (i + 1) r2 (e1.1.trans hinv) h2)

theorem mapBase_evolves (f : MUXManager → MUXManager) (d : Device)
    (hm : ∀ m, (f m).maxChannels = m.maxChannels) (he : ∀ m, (f m).enabled = m.enabled)
    (hc : ∀ m, (f m).currentChannel = m.currentChannel) : d.evolves (d.mapBase f) := by
  cases d <;> simp [Device.evolves, Device.mapBase, Device.inv, Device.base,
    Device.scanFields, hm, he, hc]

theorem readChannel_evolves (env : Env) (fuel : Nat) (hist : List Event) (d : Device)
    (c : Nat) (r : Step Device Ret) (hinv : d.inv = true)
    (h : d.readChannel env fuel hist c = Except.ok r) : d.evolves r.dev := by
  have analog : ∀ d : Device, d.inv = true →
      liftRet id Ret.sample (AnalogMUX.readChannel Device.analogPart
        (Device.setChannel env fuel hist) env hist d c) = Except.ok r → d.evolves r.dev := by
    intro d hinv h
    rw [liftRet_eq_ok] at h
    obtain ⟨r0, h0, rfl⟩ := h
    obtain ⟨r1, h1, h2⟩ := readChannel_dev _ _ _ _ _ _ _ h0
    simp only [id, h2]
    exact setChannel_evolves env fuel hist d c r1 hinv h1
  cases d
  case cd74hc4067 s =>
    simp only [Device.readChannel, liftRet_eq_ok] at h
    obtain ⟨r0, h0, rfl⟩ := h
    simp only [CD74HC4067.readChannel] at h0
    split at h0
    · cases h0
      exact evolves_refl _
    · split at h0
      · cases h0
      · next r1 h1 =>
        cases h0
        exact cd74hc4067_setChannel_evolves env hist s c r1 hinv h1
  all_goals
    simp only [Device.readChannel, Device.isAnalog, if_true, Bool.false_eq_true, if_false] at h
    first
      | exact analog _ hinv h
      | (cases h; exact evolves_refl _)

theorem readChannel2_evolves (env : Env) (hist : List Event) (s : HC4052) (c : Nat)
    (r0 : Step HC4052 Nat) (hinv : (Device.hc4052 s).inv = true)
    (h : s.readChannel2 env hist c = Except.ok r0) :
    (Device.hc4052 s).evolves (Device.hc4052 r0.dev) := by
  simp only [HC4052.readChannel2] at h
  split at h
  · cases h
  · next r1 h1 =>
    have e := hc4052_setChannel_evolves s c r1 hinv h1
    split at h <;> cases h <;> exact e

theorem readDifferential_evolves (env : Env) (hist : List Event) (d : Device)
    (c : Nat) (r : Step Device Ret) (hinv : d.inv = true)
    (h : d.readDifferential env hist c = Except.ok r) : d.evolves r.dev := by
  cases d
  case adg508a s =>
    simp only [Device.readDifferential, liftRet_eq_ok] at h
    obtain ⟨r0, h0, rfl⟩ := h
    simp only [ADG508A.readDifferential] at h0
    split at h0
    · cases h0
      exact evolves_refl _
    · obtain ⟨r1, h1, h2⟩ := sampleDifference_dev _ _ _ _ _ _ _ _ h0
      simp only [h2]
      exact adg508a_setChannel_evolves s c r1 hinv h1
  case adg706 s =>
    simp only [Device.readDifferential, liftRet_eq_ok] at h
    obtain ⟨r0, h0, rfl⟩ := h
    simp only [ADG706.readDifferential] at h0
    split at h0
    · cases h0
      exact evolves_refl _
    · obtain ⟨r1, h1, h2⟩ := sampleDifference_dev _ _ _ _ _ _ _ _ h0
      simp only [h2]
      exact adg706_setChannel_evolves s c r1 hinv h1
  case adg506a s =>
    simp only [Device.readDifferential, liftRet_eq_ok] at h
    obtain ⟨r0, h0, rfl⟩ := h
    simp only [ADG506A.readDifferential] at h0
    split at h0
    · cases h0
      exact evolves_refl _
    · obtain ⟨r1, h1, h2⟩ := sampleDifference_dev _ _ _ _ _ _ _ _ h0
      simp only [h2]
      exact adg506a_setChannel_evolves s c r1 hinv h1
  case mpc506a s =>
    simp only [Device.readDifferential, liftRet_eq_ok] at h
    obtain ⟨r0, h0, rfl⟩ := h
    simp only [ADG506A.readDifferential] at h0
    split at h0
    · cases h0
      exact evolves_refl _
    · obtain ⟨r1, h1, h2⟩ := sampleDifference_dev _ _ _ _ _ _ _ _ h0
      simp only [h2]
      exact mpc506a_setChannel_evolves s c r1 hinv h1
  case dg408 s =>
    simp only [Device.readDifferential, liftRet_eq_ok] at h
    obtain ⟨r0, h0, rfl⟩ := h
    simp only [DG408.readDifferential] at h0
    obtain ⟨r1, h1, h2⟩ := sampleDifference_dev _ _ _ _ _ _ _ _ h0
    simp only [h2]
    exact dg408_setChannel_evolves s c r1 hinv h1
  all_goals
    simp only [Device.readDifferential] at h
    cases h
    exact evolves_refl _

theorem flushBuffer_evolves (s : DataMUX) (r0 : Step DataMUX MUXStatus)
    (hinv : (Device.dataMUX s).inv = true) (h : s.flushBuffer = Except.ok r0) :
    (Device.dataMUX s).evolves (Device.dataMUX r0.dev) := by
  simp only [DataMUX.flushBuffer] at h
  split at h
  · cases h
  · next r1 h1 =>
    have e := flushLoop_evolves _ _ _ _ (by simpa [Device.inv] using hinv) h1
    have e0 : (Device.dataMUX s).evolves (Device.dataMUX r1.dev) := by
      simpa [Device.evolves, Device.inv, Device.base, Device.scanFields] using e
    split at h
    · cases h
      exact e0
    · cases h
      simpa [Device.evolves, Device.inv, Device.base, Device.scanFields] using e0

/-- Every public operation other than `begin`, `enable`, `disable`, `startScan`,
`stopScan` and `update` changes a device only the way `setChannel` may. -/
theorem perform_evolves (env : Env) (fuel : Nat) (hist : List Event) (d : Device) (op : Op)
    (r : Step Device Ret) (hinv : d.inv = true)
    (h : d.perform env fuel hist op = Except.ok r)
    (h1 : op ≠ Op.begin) (h2 : op ≠ Op.enable) (h3 : op ≠ Op.disable)
    (h4 : ∀ a b, op ≠ Op.startScan a b) (h5 : op ≠ Op.stopScan) (h6 : op ≠ Op.update) :
    d.evolves r.dev := by
  cases op
  case begin => exact absurd rfl h1
  case enable => exact absurd rfl h2
  case disable => exact absurd rfl h3
  case startScan a b => exact absurd rfl (h4 a b)
  case stopScan => exact absurd rfl h5
  case update => exact absurd rfl h6
  case setChannel c =>
    simp only [Device.perform, liftRet_eq_ok] at h
    obtain ⟨r0, h0, rfl⟩ := h
    exact setChannel_evolves env fuel hist d c r0 hinv h0
  case attachInterrupt cb pin mode =>
    simp only [Device.perform] at h
    cases h
    simp only [Device.attachInterrupt]
    exact mapBase_evolves _ d (fun _ => rfl) (fun _ => rfl) (fun _ => rfl)
  case detachInterrupt =>
    simp only [Device.perform] at h
    cases h
    simp only [Device.detachInterrupt]
    refine mapBase_evolves _ d ?_ ?_ ?_ <;> intro m <;>
      simp only [MUXManager.detachInterrupt] <;> split <;> rfl
  case readChannel c =>
    exact readChannel_evolves env fuel hist d c r hinv h
  case readDifferential c =>
    exact readDifferential_evolves env hist d c r hinv h
  case readChannel2 c =>
    cases d
    case hc4052 s =>
      simp only [Device.perform, liftRet_eq_ok] at h
      obtain ⟨r0, h0, rfl⟩ := h
      exact readChannel2_evolves env hist s c r0 hinv h0
    all_goals
      simp only [Device.perform] at h
      cases h
      exact evolves_refl _
  case flushBuffer =>
    cases d
    case dataMUX s =>
      simp only [Device.perform, liftRet_eq_ok] at h
      obtain ⟨r0, h0, rfl⟩ := h
      exact flushBuffer_evolves s r0 hinv h0
    all_goals
      simp only [Device.perform] at h
      cases h
      exact evolves_refl _
  all_goals
    cases d <;> simp only [Device.perform] at h <;> cases h <;>
      simp only [Device.evolves, Device.inv, Device.base, Device.scanFields,
        AnalogMUX.setSettlingTime, TCA9548A.setScanInterval, CD74HC4067.enableAutoRead,
        VideoMUX.setSyncEnabled, AudioMUX.configureFade, DataMUX.startBuffering,
        DataMUX.clearBuffer, PCA9646.setVoltageLevel] <;>
      (try split) <;> simp

theorem analogMUX_begin_cases (s : AnalogMUX) (r : Step AnalogMUX MUXStatus)
    (h : AnalogMUX.begin s = Except.ok r) :
    (r.ret = MUXStatus.ERROR_INIT ∧ r.dev = s) ∨
    (r.ret = MUXStatus.OK ∧ r.dev = { s with enabled := true }) := by
  simp only [AnalogMUX.begin] at h
  (repeat' split at h) <;> cases h <;> simp

theorem parallelMUX_begin_cases (s : ParallelMUX) (r : Step ParallelMUX MUXStatus)
    (h : ParallelMUX.begin s = Except.ok r) :
    r.ret = MUXStatus.OK ∧ r.dev = { s with enabled := true } := by
  simp only [ParallelMUX.begin, ParallelMUX.enable] at h
  (repeat' split at h) <;> cases h <;> simp

theorem fastMUX_begin_cases (s : FastMUX) (r : Step FastMUX MUXStatus)
    (h : FastMUX.begin s = Except.ok r) :
    (r.ret = MUXStatus.ERROR_INIT ∧ r.dev = s) ∨
    (r.ret = MUXStatus.OK ∧ ∃ mask, r.dev = { s with pinMask := mask, enabled := true }) := by
  simp only [FastMUX.begin] at h
  (repeat' split at h) <;> cases h <;> simp

/-- What `begin()` may change: `enabled` (and the pin mask and sync flag of the fast
classes); a call that returns `ERROR_INIT` changes nothing. -/
theorem begin_effect (env : Env) (hist : List Event) (d : Device) (r : Step Device MUXStatus)
    (h : d.begin env hist = Except.ok r) :
    r.dev.base.maxChannels = d.base.maxChannels ∧ r.dev.scanFields = d.scanFields ∧
    r.dev.base.currentChannel = d.base.currentChannel ∧
    ((r.ret = MUXStatus.ERROR_INIT ∧ r.dev = d) ∨
      (r.ret = MUXStatus.OK ∧ r.dev.base.enabled = true)) := by
  cases d <;>
    simp only [Device.begin, liftStep_eq_ok] at h <;>
    obtain ⟨r0, h0, rfl⟩ := h <;>
    (try simp only [HC4052.begin, ADG508A.begin, ADG706.begin, ADG506A.begin,
      DG408.begin, MAX4582.begin, HC405X.begin, CD74HC4067.begin,
      VideoMUX.begin, AudioMUX.begin, DataMUX.begin,
      TCA9548A.begin, PCA9547.begin, PCA9646.begin] at h0) <;>
    (repeat' split at h0) <;>
    (try cases h0) <;>
    (first
      | (have hf := analogMUX_begin_cases _ _ (by assumption)
         rcases hf with ⟨hr, hd⟩ | ⟨hr, hd⟩ <;>
           simp_all [Device.base, Device.scanFields])
      | (have hf := parallelMUX_begin_cases _ _ (by assumption)
         obtain ⟨hr, hd⟩ := hf
         simp_all [Device.base, Device.scanFields])
      | (have hf := fastMUX_begin_cases _ _ (by assumption)
         rcases hf with ⟨hr, hd⟩ | ⟨hr, mask, hd⟩ <;>
           simp_all [Device.base, Device.scanFields])
      | simp_all [Device.base, Device.scanFields])

/-- A `setChannel` that returns `OK` found the device enabled and the channel below the
channel count. -/
theorem setChannel_ok_enabled (env : Env) (fuel : Nat) (hist : List Event) (d : Device)
    (c : Nat) (r : Step Device MUXStatus) (hinv : d.inv = true)
    (h : d.setChannel env fuel hist c = Except.ok r) (hr : r.ret = MUXStatus.OK) :
    d.base.enabled = true ∧ c < d.base.maxChannels := by
  cases d <;>
    simp only [Device.setChannel, liftStep_eq_ok] at h <;>
    obtain ⟨r0, h0, rfl⟩ := h <;>
    simp only [Device.inv, Bool.and_eq_true, beq_iff_eq] at hinv <;>
    simp only [HC4051.setChannel, HC4067.setChannel,
      HC4052.setChannel, ADG508A.setChannel, ADG706.setChannel, ADG506A.setChannel,
      DG408.setChannel, MAX4051A.setChannel, MAX4582.setChannel, HC405X.setChannel,
      CD74HC4067.setChannel, VideoMUX.setChannel, AudioMUX.setChannel, DataMUX.setChannel,
      TCA9548A.setChannel, PCA9547.setChannel, PCA9646.setChannel,
      MUXManager.isValidChannel] at h0 <;>
    (repeat' split at h0) <;>
    cases h0 <;>
    simp_all [Device.base]

theorem enable_effect (d : Device) :
    d.enable.dev.inv = d.inv ∧ d.enable.dev.base.maxChannels = d.base.maxChannels ∧
    d.enable.dev.scanFields = d.scanFields ∧
    d.enable.dev.base.currentChannel = d.base.currentChannel ∧
    d.enable.dev.base.enabled = true := by
  cases d <;> simp [Device.enable, Device.mapBase, Device.inv, Device.base,
    Device.scanFields, MUXManager.enable, HC405X.enable, CD74HC4067.enable,
    ParallelMUX.enable]

theorem disable_effect (d : Device) :
    d.disable.dev.inv = d.inv ∧ d.disable.dev.base.maxChannels = d.base.maxChannels ∧
    d.disable.dev.scanFields = d.scanFields ∧
    d.disable.dev.base.currentChannel = d.base.currentChannel ∧
    d.disable.dev.base.enabled = false := by
  cases d <;> simp [Device.disable, Device.mapBase, Device.inv, Device.base,
    Device.scanFields, MUXManager.disable, HC405X.disable, CD74HC4067.disable,
    ParallelMUX.disable]

theorem scanFields_eq_some (d : Device) (sc : Bool) (a b : Nat) :
    d.scanFields = some (sc, a, b) ↔
      ∃ s, d = Device.tca9548a s ∧ s.scanning = sc ∧ s.scanStartCh = a ∧ s.scanEndCh = b := by
  cases d <;> simp [Device.scanFields]

/-- What `startScan(a, b)` does: nothing unless both bounds are valid channels; then the
scan is on with the range `a..b` as given and `currentChannel` holds the byte `a - 1`. -/
theorem startScan_effect (env : Env) (fuel : Nat) (hist : List Event) (d : Device)
    (a b : Nat) (r : Step Device Ret)
    (h : d.perform env fuel hist (Op.startScan a b) = Except.ok r) :
    (r.ret = Ret.flag false ∧ r.dev = d) ∨
    (r.ret = Ret.flag true ∧ a < d.base.maxChannels ∧ b < d.base.maxChannels ∧
      r.dev.inv = d.inv ∧ r.dev.base.maxChannels = d.base.maxChannels ∧
      r.dev.base.enabled = d.base.enabled ∧ r.dev.scanFields = some (true, a, b) ∧
      r.dev.base.currentChannel = (a + 255) % 256) := by
  cases d <;> simp only [Device.perform] at h <;> cases h <;>
    (try simp only [TCA9548A.startScan, MUXManager.isValidChannel]) <;>
    (try split) <;>
    simp_all [Device.inv, Device.base, Device.scanFields]

theorem stopScan_effect (env : Env) (fuel : Nat) (hist : List Event) (d : Device)
    (r : Step Device Ret)
    (h : d.perform env fuel hist Op.stopScan = Except.ok r) :
    r.dev.inv = d.inv ∧ r.dev.base.maxChannels = d.base.maxChannels ∧
    r.dev.base.enabled = d.base.enabled ∧
    r.dev.base.currentChannel = d.base.currentChannel ∧
    r.dev.scanFields = d.scanFields.map (fun t => (false, t.2.1, t.2.2)) := by
  cases d <;> simp only [Device.perform] at h <;> cases h <;>
    simp [Device.inv, Device.base, Device.scanFields, TCA9548A.stopScan]

/-- What `update()` may change: `lastScanTime`, and `currentChannel`, which is kept, or a
valid channel, or a value in the scan range or its start. -/
theorem update_effect (env : Env) (fuel : Nat) (hist : List Event) (d : Device)
    (r : Step Device Ret) (hinv : d.inv = true)
    (h : d.perform env fuel hist Op.update = Except.ok r) :
    r.dev.inv = d.inv ∧ r.dev.base.maxChannels = d.base.maxChannels ∧
    r.dev.base.enabled = d.base.enabled ∧ r.dev.scanFields = d.scanFields ∧
    (r.dev.base.currentChannel = d.base.currentChannel ∨
      r.dev.base.currentChannel < d.base.maxChannels ∨
      ∃ a b, d.scanFields = some (true, a, b) ∧
        (r.dev.base.currentChannel = a ∨
          (a ≤ r.dev.base.currentChannel ∧ r.dev.base.currentChannel ≤ b))) := by
  cases d
  case tca9548a s =>
    simp only [Device.perform, liftRet_eq_ok] at h
    obtain ⟨r0, h0, rfl⟩ := h
    simp only [TCA9548A.update] at h0
    split at h0
    · cases h0
      simp
    · next hsc =>
      have hsc1 : s.scanning = true := by simpa using hsc
      split at h0
      · cases h0
        simp
      · split at h0
        · cases h0
        · next r1 h1 =>
          cases h0
          have e := tca9548a_setChannel_evolves env _ _ _ r1
            (by simpa [Device.inv] using hinv) h1
          simp only [Device.evolves, Device.inv, Device.base, Device.scanFields] at e ⊢
          obtain ⟨e1, e2, e3, e4, e5⟩ := e
          simp only [Option.some.injEq, Prod.mk.injEq] at e4
          obtain ⟨e4a, e4b, e4c⟩ := e4
          refine ⟨e1, e2, e3, by simp [e4a, e4b, e4c], ?_⟩
          rcases e5 with e5 | e5
          · right; right
            refine ⟨s.scanStartCh, s.scanEndCh, by simp [hsc1], ?_⟩
            simp only [e5]
            split
            · exact Or.inl rfl
            · exact Or.inr (by omega)
          · exact Or.inr (Or.inl e5)
  all_goals
    simp only [Device.perform] at h
    cases h
    simp

theorem run_cons (env : Env) (fuel : Nat) (op : Op) (rest : List Op) (hist : List Event)
    (d : Device) (r : Step Device (List (Op × Ret))) :
    Device.run env fuel (op :: rest) hist d = Except.ok r ↔
      ∃ r1 r2, d.perform env fuel hist op = Except.ok r1 ∧
        Device.run env fuel rest (hist ++ r1.trace) r1.dev = Except.ok r2 ∧
        r = ⟨(op, r1.ret) :: r2.ret, r2.dev, r1.trace ++ r2.trace⟩ := by
  simp only [Device.run]
  cases hp : d.perform env fuel hist op with
  | error f => simp
  | ok r1 =>
    cases hr : Device.run env fuel rest (hist ++ r1.trace) r1.dev with
    | error f => simp [hr]
    | ok r2 => simp [hr, eq_comm]

/-! ## C15: a failed `begin()` is not latched -/

/-- C15 (counterexample): on a `TCA9548A` whose first bus transaction fails and whose
later ones succeed, `begin()` returns `ERROR_INIT`, and `setChannel(3)` returns `OK` after
a call of `enable()`, and also after a repeated `begin()`. -/
theorem init_error_then_setChannel_ok :
    (Device.run flakyBusEnv 0 [Op.begin, Op.enable, Op.setChannel 3] []
        (Device.tca9548a (TCA9548A.new 112))).map (fun r => r.ret) =
      Except.ok [(Op.begin, Ret.status MUXStatus.ERROR_INIT), (Op.enable, Ret.unit),
        (Op.setChannel 3, Ret.status MUXStatus.OK)] ∧
    (Device.run flakyBusEnv 0 [Op.begin, Op.begin, Op.setChannel 3] []
        (Device.tca9548a (TCA9548A.new 112))).map (fun r => r.ret) =
      Except.ok [(Op.begin, Ret.status MUXStatus.ERROR_INIT),
        (Op.begin, Ret.status MUXStatus.OK), (Op.setChannel 3, Ret.status MUXStatus.OK)] := by
  constructor <;> rfl

/-- C15 (amended): once `begin()` has returned `ERROR_INIT` on a device that was not
enabled, the call has changed nothing, and for every later sequence of public operations
that contains neither `enable()` nor `begin()` the device stays disabled and no
`setChannel` of the sequence returns `OK`. -/
theorem init_error_until_enable (env : Env) (fuel : Nat) (ops : List Op) :
    ∀ (hist : List Event) (d : Device) (r0 : Step Device Ret)
      (r : Step Device (List (Op × Ret))),
      d.inv = true → d.base.enabled = false →
      d.perform env fuel hist Op.begin = Except.ok r0 →
      r0.ret = Ret.status MUXStatus.ERROR_INIT →
      Op.enable ∉ ops → Op.begin ∉ ops →
      Device.run env fuel ops (hist ++ r0.trace) r0.dev = Except.ok r →
      r0.dev = d ∧ r.dev.base.enabled = false ∧
      ∀ c, (Op.setChannel c, Ret.status MUXStatus.OK) ∉ r.ret := by
  have key : ∀ (ops : List Op) (hist : List Event) (d : Device)
      (r : Step Device (List (Op × Ret))),
      d.inv = true → d.base.enabled = false → Op.enable ∉ ops → Op.begin ∉ ops →
      Device.run env fuel ops hist d = Except.ok r →
      r.dev.base.enabled = false ∧ ∀ c, (Op.setChannel c, Ret.status MUXStatus.OK) ∉ r.ret := by
    intro ops
    induction ops with
    | nil =>
      intro hist d r _ hen _ _ h
      simp only [Device.run] at h
      cases h
      exact ⟨hen, by simp⟩
    | cons op rest ih =>
      intro hist d r hinv hen he hb h
      rw [run_cons] at h
      obtain ⟨r1, r2, h1, h2, rfl⟩ := h
      have he1 : op ≠ Op.enable := fun e => he (by simp [e])
      have hb1 : op ≠ Op.begin := fun e => hb (by simp [e])
      have he2 : Op.enable ∉ rest := fun e => he (List.mem_cons_of_mem _ e)
      have hb2 : Op.begin ∉ rest := fun e => hb (List.mem_cons_of_mem _ e)
      have step : r1.dev.inv = true ∧ r1.dev.base.enabled = false ∧
          ∀ c, op = Op.setChannel c → r1.ret ≠ Ret.status MUXStatus.OK := by
        by_cases h3 : op = Op.disable
        · subst h3
          simp only [Device.perform] at h1
          cases h1
          have e := disable_effect d
          exact ⟨e.1.trans hinv, e.2.2.2.2, by simp⟩
        by_cases h4 : ∃ a b, op = Op.startScan a b
        · obtain ⟨a, b, rfl⟩ := h4
          rcases startScan_effect env fuel hist d a b r1 h1 with ⟨_, e⟩ | e
          · exact ⟨by rw [e]; exact hinv, by rw [e]; exact hen, by simp⟩
          · exact ⟨e.2.2.2.1.trans hinv, e.2.2.2.2.2.1.trans hen, by simp⟩
        by_cases h5 : op = Op.stopScan
        · subst h5
          have e := stopScan_effect env fuel hist d r1 h1
          exact ⟨e.1.trans hinv, e.2.2.1.trans hen, by simp⟩
        by_cases h6 : op = Op.update
        · subst h6
          have e := update_effect env fuel hist d r1 hinv h1
          exact ⟨e.1.trans hinv, e.2.2.1.trans hen, by simp⟩
        have e := perform_evolves env fuel hist d op r1 hinv h1 hb1 he1 h3
          (fun a b e => h4 ⟨a, b, e⟩) h5 h6
        refine ⟨e.1.trans hinv, e.2.2.1.trans hen, ?_⟩
        intro c hc hret
        subst hc
        simp only [Device.perform, liftRet_eq_ok] at h1
        obtain ⟨r3, h3, rfl⟩ := h1
        simp only [Ret.status.injEq] at hret
        have := (setChannel_ok_enabled env fuel hist d c r3 hinv h3 hret).1
        simp [hen] at this
      obtain ⟨i1, i2⟩ := ih (hist ++ r1.trace) r1.dev r2 step.1 step.2.1 he2 hb2 h2
      refine ⟨i1, ?_⟩
      intro c hmem
      simp only [List.mem_cons, Prod.mk.injEq] at hmem
      rcases hmem with ⟨hc, hret⟩ | hmem
      · exact step.2.2 c hc.symm hret.symm
      · exact i2 c hmem
  intro hist d r0 r hinv hen hbeg hret he hb hrun
  simp only [Device.perform, liftRet_eq_ok] at hbeg
  obtain ⟨r3, h3, rfl⟩ := hbeg
  simp only [Ret.status.injEq] at hret
  have e := begin_effect env hist d r3 h3
  have hd : r3.dev = d := by
    rcases e.2.2.2 with ⟨_, hd⟩ | ⟨hok, _⟩
    · exact hd
    · rw [hret] at hok
      cases hok
  simp only [id] at hrun ⊢
  rw [hd] at hrun
  exact ⟨hd, key ops _ d r hinv hen he hb hrun⟩

/-- Instance of C15 (amended): a `TCA9548A` on a bus that never answers; after the failed
`begin()`, `setChannel(3)`, `disable()`, `setChannel(3)` leave it disabled and both
`setChannel` calls return `ERROR_NOT_ENABLED`. -/
theorem init_error_until_enable_witness :
    ∃ r0 r,
      (Device.tca9548a (TCA9548A.new 112)).perform deadBusEnv 0 [] Op.begin = Except.ok r0 ∧
      r0.ret = Ret.status MUXStatus.ERROR_INIT ∧
      Device.run deadBusEnv 0 [Op.setChannel 3, Op.disable, Op.setChannel 3]
        ([] ++ r0.trace) r0.dev = Except.ok r ∧
      r.ret = [(Op.setChannel 3, Ret.status MUXStatus.ERROR_NOT_ENABLED),
        (Op.disable, Ret.unit), (Op.setChannel 3, Ret.status MUXStatus.ERROR_NOT_ENABLED)] ∧
      r0.dev = Device.tca9548a (TCA9548A.new 112) ∧ r.dev.base.enabled = false ∧
      ∀ c, (Op.setChannel c, Ret.status MUXStatus.OK) ∉ r.ret :=
  ⟨⟨Ret.status MUXStatus.ERROR_INIT, Device.tca9548a (TCA9548A.new 112),
      [Event.wireBegin, Event.beginTransmission 112, Event.endTransmission 2]⟩,
    ⟨[(Op.setChannel 3, Ret.status MUXStatus.ERROR_NOT_ENABLED),
        (Op.disable, Ret.unit), (Op.setChannel 3, Ret.status MUXStatus.ERROR_NOT_ENABLED)],
      Device.tca9548a (TCA9548A.new 112), []⟩,
    rfl, rfl, rfl, rfl,
    init_error_until_enable deadBusEnv 0 [Op.setChannel 3, Op.disable, Op.setChannel 3] []
      (Device.tca9548a (TCA9548A.new 112)) _ _ rfl rfl rfl rfl (by decide) (by decide) rfl⟩

/-! ## The effect of one public operation on the scan state and the channel -/

theorem primed_of_range (d d' : Device)
    (hs : d'.scanFields.map Prod.snd = d.scanFields.map Prod.snd)
    (hc : d'.base.currentChannel = d.base.currentChannel) : d'.primed = d.primed := by
  cases d <;> cases d' <;> simp_all [Device.scanFields, Device.base, Device.primed]

/-- One public operation keeps the constants of the class and the channel count. Either
it is a `startScan(a, b)` that returned `true`, with both bounds valid channels, which
stores the range as given and the byte `a - 1` in `currentChannel`; or it keeps the scan
range, keeps `scanning` (`stopScan` clears it), and leaves in `currentChannel` the value
it had, a valid channel, or (a firing `update`) a value in the scan range or its start. -/
theorem perform_effect (env : Env) (fuel : Nat) (hist : List Event) (d : Device) (op : Op)
    (r : Step Device Ret) (hinv : d.inv = true)
    (h : d.perform env fuel hist op = Except.ok r) :
    r.dev.inv = true ∧ r.dev.base.maxChannels = d.base.maxChannels ∧
    ((∃ a b, op = Op.startScan a b ∧ r.ret = Ret.flag true ∧ a < d.base.maxChannels ∧
        b < d.base.maxChannels ∧ r.dev.scanFields = some (true, a, b) ∧
        r.dev.base.currentChannel = (a + 255) % 256) ∨
      (r.dev.scanFields.map Prod.snd = d.scanFields.map Prod.snd ∧
        (r.dev.scanFields.map Prod.fst = d.scanFields.map Prod.fst ∨
          r.dev.scanFields.map Prod.fst = d.scanFields.map (fun _ => false)) ∧
        (r.dev.base.currentChannel = d.base.currentChannel ∨
          r.dev.base.currentChannel < d.base.maxChannels ∨
          ∃ a b, d.scanFields = some (true, a, b) ∧
            (r.dev.base.currentChannel = a ∨
              (a ≤ r.dev.base.currentChannel ∧ r.dev.base.currentChannel ≤ b))))) := by
  by_cases h1 : op = Op.begin
  · subst h1
    simp only [Device.perform, liftRet_eq_ok] at h
    obtain ⟨r0, h0, rfl⟩ := h
    have e := begin_effect env hist d r0 h0
    have e0 := begin_inv env hist d r0 h0
    exact ⟨e0.trans hinv, e.1, Or.inr ⟨by simp [e.2.1], Or.inl (by simp [e.2.1]),
      Or.inl e.2.2.1⟩⟩
  by_cases h2 : op = Op.enable
  · subst h2
    simp only [Device.perform] at h
    cases h
    have e := enable_effect d
    exact ⟨e.1.trans hinv, e.2.1, Or.inr ⟨by simp [e.2.2.1], Or.inl (by simp [e.2.2.1]),
      Or.inl e.2.2.2.1⟩⟩
  by_cases h3 : op = Op.disable
  · subst h3
    simp only [Device.perform] at h
    cases h
    have e := disable_effect d
    exact ⟨e.1.trans hinv, e.2.1, Or.inr ⟨by simp [e.2.2.1], Or.inl (by simp [e.2.2.1]),
      Or.inl e.2.2.2.1⟩⟩
  by_cases h4 : ∃ a b, op = Op.startScan a b
  · obtain ⟨a, b, rfl⟩ := h4
    rcases startScan_effect env fuel hist d a b r h with ⟨_, e⟩ | e
    · rw [e]
      exact ⟨hinv, rfl, Or.inr ⟨rfl, Or.inl rfl, Or.inl rfl⟩⟩
    · obtain ⟨e1, e2, e3, e4, e5, _, e7, e8⟩ := e
      exact ⟨e4.trans hinv, e5, Or.inl ⟨a, b, rfl, e1, e2, e3, e7, e8⟩⟩
  by_cases h5 : op = Op.stopScan
  · subst h5
    have e := stopScan_effect env fuel hist d r h
    refine ⟨e.1.trans hinv, e.2.1, Or.inr ⟨?_, Or.inr ?_, Or.inl e.2.2.2.1⟩⟩
    · rw [e.2.2.2.2]
      cases d.scanFields <;> simp
    · rw [e.2.2.2.2]
      cases d.scanFields <;> simp
  by_cases h6 : op = Op.update
  · subst h6
    have e := update_effect env fuel hist d r hinv h
    exact ⟨e.1.trans hinv, e.2.1, Or.inr ⟨by simp [e.2.2.2.1], Or.inl (by simp [e.2.2.2.1]),
      e.2.2.2.2⟩⟩
  have e := perform_evolves env fuel hist d op r hinv h h1 h2 h3
    (fun a b e => h4 ⟨a, b, e⟩) h5 h6
  refine ⟨e.1.trans hinv, e.2.1, Or.inr ⟨by simp [e.2.2.2.1], Or.inl (by simp [e.2.2.2.1]), ?_⟩⟩
  rcases e.2.2.2.2 with e5 | e5
  · exact Or.inl e5
  · exact Or.inr (Or.inl e5)

theorem scan_maxChannels (d : Device) (t : Bool × Nat × Nat) (hinv : d.inv = true)
    (hs : d.scanFields = some t) : d.base.maxChannels = 8 := by
  cases d <;> simp_all [Device.scanFields, Device.inv, Device.base]

theorem scan_range_eq (d d' : Device) (sc : Bool) (a b : Nat)
    (hs : d'.scanFields.map Prod.snd = d.scanFields.map Prod.snd)
    (h : d'.scanFields = some (sc, a, b)) : ∃ sc0, d.scanFields = some (sc0, a, b) := by
  rw [h] at hs
  cases hd : d.scanFields with
  | none => simp [hd] at hs
  | some t =>
    obtain ⟨sc0, a0, b0⟩ := t
    simp only [hd, Option.map_some', Option.some.injEq, Prod.mk.injEq] at hs
    exact ⟨sc0, by simp [hs.1, hs.2]⟩

/-! ## C18: the scan range of a `TCA9548A` -/

/-- C18 (counterexample): `startScan(5, 2)` on a newly constructed `TCA9548A` returns
`true` and leaves a scan active with `scanStartCh` 5 above `scanEndCh` 2. -/
theorem startScan_reversed_bounds :
    (Device.run quietEnv 0 [Op.startScan 5 2] [] (Device.tca9548a (TCA9548A.new 112))).map
        (fun r => (r.ret, r.dev.scanFields)) =
      Except.ok ([(Op.startScan 5 2, Ret.flag true)], some (true, 5, 2)) := by
  rfl

/-- C18 (amended): in every state of a `TCA9548A` reachable from its constructor through
the public operations in which a scan is active, `scanStartCh <= maxChannels - 1` and
`scanEndCh <= maxChannels - 1`; and `scanStartCh <= scanEndCh` if every `startScan` call
made was given `startChannel <= endChannel`. -/
theorem scan_range_invariant (env : Env) (fuel : Nat) (ops : List Op) (hist : List Event)
    (address : Nat) (r : Step Device (List (Op × Ret)))
    (h : Device.run env fuel ops hist (Device.tca9548a (TCA9548A.new address)) =
      Except.ok r) :
    ∃ s, r.dev = Device.tca9548a s ∧
      (s.scanning = true →
        s.scanStartCh ≤ s.maxChannels - 1 ∧ s.scanEndCh ≤ s.maxChannels - 1 ∧
        ((∀ a b, Op.startScan a b ∈ ops → a ≤ b) → s.scanStartCh ≤ s.scanEndCh)) := by
  have key : ∀ (ord : Prop) (ops : List Op) (hist : List Event) (d : Device)
      (r : Step Device (List (Op × Ret))),
      d.inv = true →
      (∃ sc a b, d.scanFields = some (sc, a, b) ∧ a < 8 ∧ b < 8 ∧ (ord → a ≤ b)) →
      (ord → ∀ a b, Op.startScan a b ∈ ops → a ≤ b) →
      Device.run env fuel ops hist d = Except.ok r →
      r.dev.inv = true ∧
      ∃ sc a b, r.dev.scanFields = some (sc, a, b) ∧ a < 8 ∧ b < 8 ∧ (ord → a ≤ b) := by
    intro ord ops
    induction ops with
    | nil =>
      intro hist d r hinv hs _ h
      simp only [Device.run] at h
      cases h
      exact ⟨hinv, hs⟩
    | cons op rest ih =>
      intro hist d r hinv hs hord h
      rw [run_cons] at h
      obtain ⟨r1, r2, h1, h2, rfl⟩ := h
      obtain ⟨sc, a, b, hf, ha, hb, hab⟩ := hs
      have hmax := scan_maxChannels d _ hinv hf
      obtain ⟨e1, e2, e3⟩ := perform_effect env fuel hist d op r1 hinv h1
      refine ih (hist ++ r1.trace) r1.dev r2 e1 ?_
        (fun o x y hm => hord o x y (List.mem_cons_of_mem _ hm)) h2
      rcases e3 with ⟨x, y, hop, _, hx, hy, hf1, _⟩ | ⟨hr, _, _⟩
      · rw [hmax] at hx hy
        exact ⟨true, x, y, hf1, hx, hy, fun o => hord o x y (by simp [hop])⟩
      · cases hf1 : r1.dev.scanFields with
        | none => simp [hf1, hf] at hr
        | some t =>
          obtain ⟨sc1, a1, b1⟩ := t
          simp only [hf1, hf, Option.map_some', Option.some.injEq, Prod.mk.injEq] at hr
          exact ⟨sc1, a1, b1, rfl, by omega, by omega, fun o => by have := hab o; omega⟩
  obtain ⟨hinv, sc, a, b, hf, ha, hb, hab⟩ :=
    key (∀ a b, Op.startScan a b ∈ ops → a ≤ b) ops hist
      (Device.tca9548a (TCA9548A.new address)) r
      (by simp [Device.inv, TCA9548A.new, MUXManager.new])
      ⟨false, 0, 7, by simp [Device.scanFields, TCA9548A.new], by omega, by omega,
        fun _ => by omega⟩ (fun o => o) h
  obtain ⟨s, hd, h1, h2, h3⟩ := (scanFields_eq_some r.dev sc a b).mp hf
  have hmax := scan_maxChannels r.dev _ hinv hf
  refine ⟨s, hd, fun _ => ?_⟩
  rw [hd] at hmax
  simp only [Device.base] at hmax
  rw [hmax, h2, h3]
  exact ⟨by omega, by omega, hab⟩

/-- Instance of C18 (amended): `begin()`, `startScan(2, 5)`, `update()` on a platform
whose clock advances; the scan is active with the range 2..5 inside 0..7. -/
theorem scan_range_invariant_witness :
    ∃ r, Device.run tickingEnv 0 [Op.begin, Op.startScan 2 5, Op.update] []
        (Device.tca9548a (TCA9548A.new 112)) = Except.ok r ∧
      r.dev.scanFields = some (true, 2, 5) ∧
      ∃ s, r.dev = Device.tca9548a s ∧
        (s.scanning = true →
          s.scanStartCh ≤ s.maxChannels - 1 ∧ s.scanEndCh ≤ s.maxChannels - 1 ∧
          ((∀ a b, Op.startScan a b ∈ [Op.begin, Op.startScan 2 5, Op.update] → a ≤ b) →
            s.scanStartCh ≤ s.scanEndCh)) :=
  ⟨_, rfl, rfl, scan_range_invariant tickingEnv 0 [Op.begin, Op.startScan 2 5, Op.update] []
    112 _ rfl⟩

/-! ## C19: the recorded channel is a valid channel, except while a scan is primed -/

/-- Every constructor leaves its device in a state that `Device.constructed` accepts. -/
theorem constructed_of_new (sel : List Nat) (a b c e : Nat) (f g : Bool) :
    (Device.hc4051 (HC4051.new sel a e g)).constructed = true ∧
    (Device.hc4067 (HC4067.new sel a e g)).constructed = true ∧
    (Device.hc4052 (HC4052.new sel a b e g)).constructed = true ∧
    (Device.adg508a (ADG508A.new sel a e f b g)).constructed = true ∧
    (Device.adg706 (ADG706.new sel a c e f b g)).constructed = true ∧
    (Device.adg506a (ADG506A.new sel a f e f b g)).constructed = true ∧
    (Device.mpc506a (MPC506A.new sel a f e f b g)).constructed = true ∧
    (Device.dg408 (DG408.new sel a b e f g)).constructed = true ∧
    (Device.max4051a (MAX4051A.new sel a e g)).constructed = true ∧
    (Device.max4582 (MAX4582.new sel a c e g)).constructed = true ∧
    (Device.hc405x (HC405X.new sel a e)).constructed = true ∧
    (Device.cd74hc4067 (CD74HC4067.new sel e a g)).constructed = true ∧
    (Device.videoMUX (VideoMUX.new sel a b c g)).constructed = true ∧
    (Device.audioMUX (AudioMUX.new sel a g)).constructed = true ∧
    (Device.dataMUX (DataMUX.new sel a g)).constructed = true ∧
    (Device.tca9548a (TCA9548A.new a)).constructed = true ∧
    (Device.pca9547 (PCA9547.new a b)).constructed = true ∧
    (Device.pca9646 (PCA9646.new a b)).constructed = true := by
  cases f <;>
    simp [Device.constructed, Device.inv, Device.base, Device.scanFields, HC4051.new,
      HC4067.new, HC4052.new, ADG508A.new, ADG706.new,
      ADG506A.new, MPC506A.new, DG408.new, MAX4051A.new, MAX4582.new, HC405X.new,
      CD74HC4067.new, VideoMUX.new, AudioMUX.new, DataMUX.new, TCA9548A.new, PCA9547.new,
      PCA9646.new, AnalogMUX.new, ParallelMUX.new, FastMUX.new, MUXManager.new,
      AnalogMUX.setSettlingTime] <;>
    split_ifs <;> simp

/-- C19 (counterexample): on a `TCA9548A`, after `begin()` and a `setChannel(3)` that
returns `OK`, `startScan(0, 7)` leaves the device enabled with `currentChannel` 255, which
is not below `maxChannels` 8. -/
theorem startScan_primes_channel :
    (Device.run quietEnv 0 [Op.begin, Op.setChannel 3, Op.startScan 0 7] []
        (Device.tca9548a (TCA9548A.new 112))).map
        (fun r => (r.ret, r.dev.base.enabled, r.dev.base.currentChannel,
          r.dev.base.maxChannels)) =
      Except.ok ([(Op.begin, Ret.status MUXStatus.OK),
        (Op.setChannel 3, Ret.status MUXStatus.OK), (Op.startScan 0 7, Ret.flag true)],
        true, 255, 8) := by
  rfl

/-- C19 (amended): for every device family, in every state reachable from a newly
constructed device through the public operations in which `enabled` is true and at least
one `setChannel` has returned `OK`, `currentChannel < maxChannels`, or the device is a
`TCA9548A` whose `currentChannel` holds the byte 255 that `startScan(0, end)` stores,
with `scanStartCh` 0. -/
theorem channel_invariant (env : Env) (fuel : Nat) (ops : List Op) (hist : List Event)
    (d0 : Device) (r : Step Device (List (Op × Ret)))
    (h0 : d0.constructed = true)
    (h : Device.run env fuel ops hist d0 = Except.ok r)
    (_hen : r.dev.base.enabled = true)
    (hok : ∃ c, (Op.setChannel c, Ret.status MUXStatus.OK) ∈ r.ret) :
    r.dev.base.currentChannel < r.dev.base.maxChannels ∨ r.dev.primed = true := by
  have key : ∀ (m : Nat) (ops : List Op) (hist : List Event) (d : Device)
      (r : Step Device (List (Op × Ret))),
      d.inv = true → d.base.maxChannels = m →
      (∀ sc a b, d.scanFields = some (sc, a, b) → a < 8 ∧ b < 8) →
      (d.base.currentChannel = 0 ∨ d.base.currentChannel < m ∨ d.primed = true) →
      Device.run env fuel ops hist d = Except.ok r →
      r.dev.base.maxChannels = m ∧
      (r.dev.base.currentChannel = 0 ∨ r.dev.base.currentChannel < m ∨
        r.dev.primed = true) ∧
      ((∃ c, (Op.setChannel c, Ret.status MUXStatus.OK) ∈ r.ret) → 0 < m) := by
    intro m ops
    induction ops with
    | nil =>
      intro hist d r _ hm _ hc h
      simp only [Device.run] at h
      cases h
      exact ⟨hm, hc, by simp⟩
    | cons op rest ih =>
      intro hist d r hinv hm hb hc h
      rw [run_cons] at h
      obtain ⟨r1, r2, h1, h2, rfl⟩ := h
      obtain ⟨e1, e2, e3⟩ := perform_effect env fuel hist d op r1 hinv h1
      have hlog : ∀ c, op = Op.setChannel c → r1.ret = Ret.status MUXStatus.OK → 0 < m := by
        intro c hop hret
        subst hop
        simp only [Device.perform, liftRet_eq_ok] at h1
        obtain ⟨r3, h3, rfl⟩ := h1
        simp only [Ret.status.injEq] at hret
        have := (setChannel_ok_enabled env fuel hist d c r3 hinv h3 hret).2
        omega
      have step : (∀ sc a b, r1.dev.scanFields = some (sc, a, b) → a < 8 ∧ b < 8) ∧
          (r1.dev.base.currentChannel = 0 ∨ r1.dev.base.currentChannel < m ∨
            r1.dev.primed = true) := by
        rcases e3 with ⟨x, y, _, _, hx, hy, hf1, hcc⟩ | ⟨hr, _, hcc⟩
        · have hmax := scan_maxChannels r1.dev _ e1 hf1
          rw [e2] at hmax
          rw [hmax] at hx hy
          refine ⟨?_, ?_⟩
          · intro sc a b hf
            rw [hf1] at hf
            simp only [Option.some.injEq, Prod.mk.injEq] at hf
            omega
          · obtain ⟨s, hd, _, hs, _⟩ := (scanFields_eq_some r1.dev true x y).mp hf1
            by_cases hx0 : x = 0
            · right; right
              rw [hd] at hcc ⊢
              simp only [Device.base] at hcc
              simp [Device.primed, hcc, hs, hx0]
            · right; left
              rw [hcc, ← hm, hmax]
              omega
        · refine ⟨?_, ?_⟩
          · intro sc a b hf
            obtain ⟨sc0, hf0⟩ := scan_range_eq d r1.dev sc a b hr hf
            exact hb sc0 a b hf0
          · rcases hcc with hcc | hcc | ⟨a, b, hf, hcc⟩
            · rcases hc with hc | hc | hc
              · exact Or.inl (hcc.trans hc)
              · exact Or.inr (Or.inl (by rw [hcc]; exact hc))
              · exact Or.inr (Or.inr ((primed_of_range d r1.dev hr hcc).trans hc))
            · exact Or.inr (Or.inl (by rw [← hm]; exact hcc))
            · have hmax := scan_maxChannels d _ hinv hf
              have := hb true a b hf
              exact Or.inr (Or.inl (by omega))
      obtain ⟨i1, i2, i3⟩ := ih (hist ++ r1.trace) r1.dev r2 e1 (e2.trans hm) step.1 step.2 h2
      refine ⟨i1, i2, ?_⟩
      rintro ⟨c, hmem⟩
      simp only [List.mem_cons, Prod.mk.injEq] at hmem
      rcases hmem with ⟨hc1, hret⟩ | hmem
      · exact hlog c hc1.symm hret.symm
      · exact i3 ⟨c, hmem⟩
  simp only [Device.constructed, Bool.and_eq_true, Bool.or_eq_true, beq_iff_eq] at h0
  obtain ⟨⟨hinv, hcc⟩, hscan⟩ := h0
  obtain ⟨k1, k2, k3⟩ := key d0.base.maxChannels ops hist d0 r hinv rfl
    (by
      intro sc a b hf
      rcases hscan with hs | hs
      · rw [hs] at hf
        cases hf
      · rw [hs] at hf
        simp only [Option.some.injEq, Prod.mk.injEq] at hf
        omega)
    (Or.inl hcc) h
  have hpos := k3 hok
  rw [k1]
  rcases k2 with k2 | k2 | k2
  · exact Or.inl (by omega)
  · exact Or.inl k2
  · exact Or.inr k2

/-- Instance of C19 (amended): `begin()`, `setChannel(3)`, `startScan(0, 7)` and a firing
`update()` on a `TCA9548A`; the update replaces the byte 255 by channel 0. -/
theorem channel_invariant_witness :
    ∃ r, Device.run tickingEnv 0 [Op.begin, Op.setChannel 3, Op.startScan 0 7, Op.update] []
        (Device.tca9548a (TCA9548A.new 112)) = Except.ok r ∧
      r.dev.base.currentChannel = 0 ∧ r.dev.base.maxChannels = 8 ∧
      (r.dev.base.currentChannel < r.dev.base.maxChannels ∨ r.dev.primed = true) :=
  ⟨_, rfl, rfl, rfl,
    channel_invariant tickingEnv 0 [Op.begin, Op.setChannel 3, Op.startScan 0 7, Op.update] []
      (Device.tca9548a (TCA9548A.new 112)) _ rfl rfl rfl ⟨3, by decide⟩⟩

/-! ## C20: `stopScan` -/

theorem tca9548a_setChannel_scanning (env : Env) (hist : List Event) (s : TCA9548A)
    (c : Nat) (r : Step TCA9548A MUXStatus)
    (h : TCA9548A.setChannel env hist s c = Except.ok r) : r.dev.scanning = s.scanning := by
  simp only [TCA9548A.setChannel] at h
  (repeat' split at h) <;> cases h <;> rfl

/-- One public operation on a `TCA9548A` keeps `scanning` or clears it, unless it is a
`startScan` that returns `true`. -/
theorem tca9548a_perform_scanning (env : Env) (fuel : Nat) (hist : List Event)
    (s : TCA9548A) (op : Op) (r : Step Device Ret)
    (h : (Device.tca9548a s).perform env fuel hist op = Except.ok r) :
    ∃ s1, r.dev = Device.tca9548a s1 ∧
      (s1.scanning = s.scanning ∨ s1.scanning = false ∨
        ∃ a b, op = Op.startScan a b ∧ r.ret = Ret.flag true) := by
  cases op
  case begin =>
    simp only [Device.perform, Device.begin, liftRet_eq_ok, liftStep_eq_ok] at h
    obtain ⟨r0, ⟨r1, h1, rfl⟩, rfl⟩ := h
    simp only [Except.ok.injEq] at h1
    subst h1
    refine ⟨_, rfl, Or.inl ?_⟩
    simp only [TCA9548A.begin]
    split <;> rfl
  case setChannel c =>
    simp only [Device.perform, Device.setChannel, liftRet_eq_ok, liftStep_eq_ok] at h
    obtain ⟨r0, ⟨r1, h1, rfl⟩, rfl⟩ := h
    exact ⟨_, rfl, Or.inl (tca9548a_setChannel_scanning env hist s c r1 h1)⟩
  case update =>
    simp only [Device.perform, liftRet_eq_ok] at h
    obtain ⟨r0, h0, rfl⟩ := h
    refine ⟨_, rfl, Or.inl ?_⟩
    simp only [TCA9548A.update] at h0
    split at h0
    · cases h0
      rfl
    · split at h0
      · cases h0
        rfl
      · split at h0
        · cases h0
        · next r1 h1 =>
          cases h0
          exact (tca9548a_setChannel_scanning _ _ _ _ r1 h1).trans rfl
  case startScan a b =>
    simp only [Device.perform] at h
    cases h
    refine ⟨_, rfl, ?_⟩
    simp only [TCA9548A.startScan]
    split
    · exact Or.inl rfl
    · exact Or.inr (Or.inr ⟨a, b, rfl, rfl⟩)
  case stopScan =>
    simp only [Device.perform] at h
    cases h
    exact ⟨_, rfl, Or.inr (Or.inl rfl)⟩
  case detachInterrupt =>
    simp only [Device.perform] at h
    cases h
    refine ⟨_, rfl, Or.inl ?_⟩
    simp only [Device.detachInterrupt, Device.mapBase]
  all_goals
    simp only [Device.perform, Device.enable, Device.disable, Device.attachInterrupt,
      Device.readChannel, Device.readDifferential, Device.isAnalog, Device.mapBase,
      Bool.false_eq_true, if_false] at h
    cases h
    exact ⟨_, rfl, Or.inl rfl⟩

/-- C20: `stopScan()` clears `scanning` and leaves `currentChannel` and the stored scan
range as they were; from then on, through any sequence of public operations in which no
`startScan` returns `true`, the device has no scan active, and `update()` changes no
field and calls neither the clock nor the bus, whatever the platform would answer. -/
theorem stopScan_idle (env : Env) (fuel : Nat) (ops : List Op) (hist : List Event)
    (s : TCA9548A) (r : Step Device (List (Op × Ret)))
    (h : Device.run env fuel ops hist (Device.tca9548a s.stopScan) = Except.ok r)
    (hno : ∀ a b, (Op.startScan a b, Ret.flag true) ∉ r.ret) :
    s.stopScan.scanning = false ∧ s.stopScan.currentChannel = s.currentChannel ∧
    s.stopScan.scanStartCh = s.scanStartCh ∧ s.stopScan.scanEndCh = s.scanEndCh ∧
    ∃ s1, r.dev = Device.tca9548a s1 ∧ s1.scanning = false ∧
      ∀ env1 hist1, s1.update env1 hist1 = Except.ok ⟨(), s1, []⟩ := by
  have key : ∀ (ops : List Op) (hist : List Event) (s : TCA9548A)
      (r : Step Device (List (Op × Ret))),
      s.scanning = false →
      Device.run env fuel ops hist (Device.tca9548a s) = Except.ok r →
      (∀ a b, (Op.startScan a b, Ret.flag true) ∉ r.ret) →
      ∃ s1, r.dev = Device.tca9548a s1 ∧ s1.scanning = false := by
    intro ops
    induction ops with
    | nil =>
      intro hist s r hs h _
      simp only [Device.run] at h
      cases h
      exact ⟨s, rfl, hs⟩
    | cons op rest ih =>
      intro hist s r hs h hno
      rw [run_cons] at h
      obtain ⟨r1, r2, h1, h2, rfl⟩ := h
      obtain ⟨s1, hd, hsc⟩ := tca9548a_perform_scanning env fuel hist s op r1 h1
      have hs1 : s1.scanning = false := by
        rcases hsc with e | e | ⟨a, b, hop, hret⟩
        · exact e.trans hs
        · exact e
        · exact absurd (by simp [hop, hret]) (hno a b)
      rw [hd] at h2
      exact ih (hist ++ r1.trace) s1 r2 hs1 h2
        (fun a b hm => hno a b (List.mem_cons_of_mem _ hm))
  obtain ⟨s1, hd, hs1⟩ := key ops hist s.stopScan r rfl h hno
  refine ⟨rfl, rfl, rfl, rfl, s1, hd, hs1, ?_⟩
  intro env1 hist1
  simp [TCA9548A.update, hs1]

/-- Instance of C20: a `TCA9548A` scanning 2..5 is stopped; `startScan(9, 2)` is rejected
and the `update()` that follows does nothing, although the clock has advanced. -/
theorem stopScan_idle_witness :
    Device.run tickingEnv 0 [Op.startScan 9 2, Op.update] []
        (Device.tca9548a (startedTCA9548A.startScan 2 5).dev.stopScan) =
      Except.ok ⟨[(Op.startScan 9 2, Ret.flag false), (Op.update, Ret.unit)],
        Device.tca9548a (startedTCA9548A.startScan 2 5).dev.stopScan, []⟩ ∧
    (startedTCA9548A.startScan 2 5).dev.stopScan.scanning = false ∧
    (startedTCA9548A.startScan 2 5).dev.stopScan.currentChannel =
      (startedTCA9548A.startScan 2 5).dev.currentChannel ∧
    (startedTCA9548A.startScan 2 5).dev.stopScan.scanStartCh =
      (startedTCA9548A.startScan 2 5).dev.scanStartCh ∧
    (startedTCA9548A.startScan 2 5).dev.stopScan.scanEndCh =
      (startedTCA9548A.startScan 2 5).dev.scanEndCh ∧
    ∃ s1, Device.tca9548a (startedTCA9548A.startScan 2 5).dev.stopScan = Device.tca9548a s1 ∧
      s1.scanning = false ∧ ∀ env1 hist1, s1.update env1 hist1 = Except.ok ⟨(), s1, []⟩ :=
  ⟨rfl, stopScan_idle tickingEnv 0 [Op.startScan 9 2, Op.update] []
    (startedTCA9548A.startScan 2 5).dev
    ⟨[(Op.startScan 9 2, Ret.flag false), (Op.update, Ret.unit)],
      Device.tca9548a (startedTCA9548A.startScan 2 5).dev.stopScan, []⟩ rfl
    (fun a b hm => by simp at hm)⟩

/-! ## C21: `detachInterrupt` is idempotent -/

/-- C21: for every device, `detachInterrupt()` on a device without binding
(`interruptPin == 255`) changes no field and calls nothing of the platform, and a second
`detachInterrupt()` right after a first one changes nothing and calls nothing, so two calls
leave the state of one. The same holds for the in-class version of MUXlib.h. -/
theorem detachInterrupt_idempotent (d : Device) (m : MUXManager) :
    (d.base.interruptPin = 255 → d.detachInterrupt = ⟨(), d, []⟩) ∧
    d.detachInterrupt.dev.detachInterrupt = ⟨(), d.detachInterrupt.dev, []⟩ ∧
    (m.interruptPin = 255 → m.detachInterrupt = ⟨(), m, []⟩) ∧
    m.detachInterrupt.dev.detachInterrupt = ⟨(), m.detachInterrupt.dev, []⟩ ∧
    (m.interruptPin = 255 → m.detachInterruptInline = ⟨(), m, []⟩) ∧
    m.detachInterruptInline.dev.detachInterruptInline =
      ⟨(), m.detachInterruptInline.dev, []⟩ := by
  have h1 : ∀ m : MUXManager, m.interruptPin = 255 → m.detachInterrupt = ⟨(), m, []⟩ := by
    intro m h
    simp [MUXManager.detachInterrupt, h]
  have h2 : ∀ m : MUXManager, m.detachInterrupt.dev.interruptPin = 255 := by
    intro m
    simp only [MUXManager.detachInterrupt]
    split
    · rfl
    · next h => simpa using h
  have h3 : ∀ m : MUXManager, m.interruptPin = 255 →
      m.detachInterruptInline = ⟨(), m, []⟩ := by
    intro m h
    simp [MUXManager.detachInterruptInline, h]
  have h4 : ∀ m : MUXManager, m.detachInterruptInline.dev.interruptPin = 255 := by
    intro m
    simp only [MUXManager.detachInterruptInline]
    split
    · rfl
    · next h => simpa using h
  have h5 : ∀ d : Device, d.base.interruptPin = 255 → d.detachInterrupt = ⟨(), d, []⟩ := by
    intro d h
    cases d <;> simp only [Device.base] at h <;>
      simp [Device.detachInterrupt, Device.mapBase, Device.base, h1 _ h]
  have h6 : ∀ d : Device, d.detachInterrupt.dev.base.interruptPin = 255 := by
    intro d
    cases d <;> simp [Device.detachInterrupt, Device.mapBase, Device.base, h2]
  exact ⟨h5 d, h5 _ (h6 d), h1 m, h1 _ (h2 m), h3 m, h3 _ (h4 m)⟩

/-- Instance of C21: a newly constructed `TCA9548A` has no binding; `detachInterrupt()`
returns it unchanged with no platform call, once and twice. -/
theorem detachInterrupt_idempotent_witness :
    (Device.tca9548a (TCA9548A.new 112)).detachInterrupt =
      ⟨(), Device.tca9548a (TCA9548A.new 112), []⟩ ∧
    (Device.tca9548a (TCA9548A.new 112)).detachInterrupt.dev.detachInterrupt =
      ⟨(), Device.tca9548a (TCA9548A.new 112), []⟩ :=
  ⟨(detachInterrupt_idempotent (Device.tca9548a (TCA9548A.new 112))
      (MUXManager.new 0 8)).1 rfl, by rfl⟩

/-! ## C22 and C23: the registrations left with the platform -/

theorem registeredFrom_append (reg : Nat → Bool) (t1 t2 : List Event) :
    registeredFrom reg (t1 ++ t2) = registeredFrom (registeredFrom reg t1) t2 := by
  induction t1 generalizing reg with
  | nil => rfl
  | cons e rest ih => simp [registeredFrom, ih]

/-- What `attachInterrupt(callback, pin, mode)` does for a pin other than 255: it records
the pin and registers it, and calls no `::detachInterrupt`: every pin that was registered
stays registered. -/
theorem attachInterrupt_registers (d : Device) (callback : Option Nat) (pin : Nat)
    (mode : InterruptMode) (hist : List Event) (hp : pin ≠ 255) :
    (d.attachInterrupt callback pin mode).dev.base.interruptPin = pin ∧
    registered (hist ++ (d.attachInterrupt callback pin mode).trace) pin = true ∧
    ∀ q, registered hist q = true →
      registered (hist ++ (d.attachInterrupt callback pin mode).trace) q = true := by
  have ht : (d.attachInterrupt callback pin mode).trace =
      [Event.pinMode pin PinMode.INPUT_PULLUP,
        Event.attachInterrupt pin (MUXManager.arduinoMode mode)] := by
    simp [Device.attachInterrupt, MUXManager.attachInterrupt, hp]
  refine ⟨?_, ?_, ?_⟩
  · cases d <;> simp [Device.attachInterrupt, Device.mapBase, Device.base,
      MUXManager.attachInterrupt]
  · simp [registered, registeredFrom_append, ht, registeredFrom, Event.register]
  · intro q hq
    simp only [registered] at hq
    simp [registered, registeredFrom_append, ht, registeredFrom, Event.register, hq]

/-- The destructor revokes the registration of the pin the device records, and only that
one. -/
theorem destroy_revokes_recorded (d : Device) (hist : List Event) (q : Nat) :
    registered (hist ++ d.destroy) q =
      (registered hist q && decide (q ≠ d.base.interruptPin ∨ d.base.interruptPin = 255)) := by
  by_cases h : d.base.interruptPin = 255
  · simp [Device.destroy, MUXManager.destroy, h]
  · by_cases hq : q = d.base.interruptPin <;>
      simp [Device.destroy, MUXManager.destroy, MUXManager.detachInterrupt, h, registered,
        registeredFrom_append, registeredFrom, Event.register, hq]

/-- C22, the code at the failing input: on a newly constructed `TCA9548A`,
`attachInterrupt(cb1, 2)` followed by `attachInterrupt(cb2, 3)` makes these platform
calls and no other; the device records pin 3, and pins 2 and 3 are both registered. -/
theorem attachInterrupt_keeps_prior_registration :
    (Device.run quietEnv 0
        [Op.attachInterrupt (some 1) 2 InterruptMode.CHANGE,
          Op.attachInterrupt (some 2) 3 InterruptMode.CHANGE] []
        (Device.tca9548a (TCA9548A.new 112))).map
      (fun r => (r.trace, r.dev.base.interruptPin, registered r.trace 2,
        registered r.trace 3)) =
    Except.ok ([Event.pinMode 2 PinMode.INPUT_PULLUP,
        Event.attachInterrupt 2 TriggerMode.CHANGE,
        Event.pinMode 3 PinMode.INPUT_PULLUP,
        Event.attachInterrupt 3 TriggerMode.CHANGE], 3, true, true) := by
  rfl

/-- C23, the code at the failing input: after `attachInterrupt(cb1, 2)` and
`attachInterrupt(cb2, 3)` on a newly constructed `TCA9548A`, the destructor calls
`::detachInterrupt` for pin 3 only, and pin 2 is still registered after it. -/
theorem destructor_leaves_prior_registration :
    (Device.run quietEnv 0
        [Op.attachInterrupt (some 1) 2 InterruptMode.CHANGE,
          Op.attachInterrupt (some 2) 3 InterruptMode.CHANGE] []
        (Device.tca9548a (TCA9548A.new 112))).map
      (fun r => (r.dev.destroy, registered (r.trace ++ r.dev.destroy) 2,
        registered (r.trace ++ r.dev.destroy) 3)) =
    Except.ok ([Event.detachInterrupt 3], true, false) := by
  rfl

/-! ## The calibration arithmetic of `PrecisionMUX` -/

theorem toInt32_of_fits (v : Int) (h1 : -2 ^ 31 ≤ v) (h2 : v < 2 ^ 31) : toInt32 v = v := by
  simp only [toInt32]
  norm_num at h1 h2 ⊢
  omega

theorem toInt16_of_fits (v : Int) (h1 : -32768 ≤ v) (h2 : v ≤ 32767) : toInt16 v = v := by
  simp only [toInt16]
  omega

theorem constrain_range (v : Int) :
    -32768 ≤ constrain v (-32768) 32767 ∧ constrain v (-32768) 32767 ≤ 32767 := by
  simp only [constrain]
  split
  · omega
  · split <;> omega

theorem shiftRight_ten (v : Int) : v >>> (10 : Nat) = v / 1024 := by
  rw [Int.shiftRight_eq_div_pow]
  norm_num

theorem floor_div_1024 (n : Int) : ⌊(n : ℚ) / 1024⌋ = n / 1024 := by
  have := Rat.floor_intCast_div_natCast n 1024
  simpa using this

/-- The value of `applyCalibration` on a calibrated device, for a valid channel with the
stored entry `(offset, gain)`, when the exact product `(value + offset) * gain` fits in
`int32_t`: the floor of the exact quotient by 1024, clamped to the 16-bit signed range. -/
theorem applyCalibration_exact (s : PrecisionMUX) (c : Nat) (v offset : Int) (gain : Nat)
    (offsets : List Int) (gains : List Nat)
    (hcal : s.calibrated = true) (hc : c < s.maxChannels)
    (ho : s.calibrationOffsets = some offsets) (hg : s.calibrationGains = some gains)
    (hoc : offsets[c]? = some offset) (hgc : gains[c]? = some gain)
    (hv : -32768 ≤ v ∧ v ≤ 32767) (hoff : -32768 ≤ offset ∧ offset ≤ 32767)
    (hfit : -2 ^ 31 ≤ (v + offset) * gain ∧ (v + offset) * gain < 2 ^ 31) :
    s.applyCalibration c v =
      Except.ok (constrain ⌊(((v + offset) * gain : Int) : ℚ) / 1024⌋ (-32768) 32767) := by
  have hsum : toInt32 (v + offset) = v + offset :=
    toInt32_of_fits _ (by norm_num; omega) (by norm_num; omega)
  have hprod : toInt32 ((v + offset) * gain) = (v + offset) * gain :=
    toInt32_of_fits _ hfit.1 hfit.2
  have hr := constrain_range (((v + offset) * gain) / 1024)
  simp only [PrecisionMUX.applyCalibration, hcal, MUXManager.isValidChannel, hc, ho, hg,
    hoc, hgc, hsum, hprod, shiftRight_ten, floor_div_1024]
  simp [toInt16_of_fits _ hr.1 hr.2]

theorem setCalibration_invalid (s : PrecisionMUX) (c : Nat) (offset : Int) (gain : Nat)
    (hc : s.maxChannels ≤ c) : s.setCalibration c offset gain = Except.ok s := by
  have : ¬ c < s.maxChannels := by omega
  simp [PrecisionMUX.setCalibration, MUXManager.isValidChannel, this]

/-- On a device whose tables agree with its state, `setCalibration` returns; for a valid
channel and allocated tables it stores the entry at the channel and nowhere else and
marks the device calibrated, otherwise it changes nothing. -/
theorem setCalibration_returns (s : PrecisionMUX) (c : Nat) (offset : Int) (gain : Nat)
    (hok : s.tablesOk = true) :
    ∃ s1, s.setCalibration c offset gain = Except.ok s1 ∧ s1.tablesOk = true ∧
      s1.maxChannels = s.maxChannels ∧
      (s1 = s ∨
        (c < s.maxChannels ∧ s1.calibrated = true ∧
          ∃ offsets gains, s.calibrationOffsets = some offsets ∧
            s.calibrationGains = some gains ∧
            s1.calibrationOffsets = some (offsets.set c offset) ∧
            s1.calibrationGains = some (gains.set c gain))) := by
  by_cases hc : c < s.maxChannels
  · cases ho : s.calibrationOffsets with
    | none =>
      exact ⟨s, by simp [PrecisionMUX.setCalibration, ho], hok, rfl, Or.inl rfl⟩
    | some offsets =>
      cases hg : s.calibrationGains with
      | none =>
        exact ⟨s, by simp [PrecisionMUX.setCalibration, ho, hg], hok, rfl, Or.inl rfl⟩
      | some gains =>
        simp only [PrecisionMUX.tablesOk, ho, hg, Bool.and_eq_true, beq_iff_eq] at hok
        have h1 : c < offsets.length := by omega
        have h2 : c < gains.length := by omega
        refine ⟨{ s with calibrationOffsets := some (offsets.set c offset),
                         calibrationGains := some (gains.set c gain),
                         calibrated := true }, ?_, ?_, rfl, Or.inr ⟨hc, rfl, offsets, gains,
                           rfl, rfl, rfl, rfl⟩⟩
        · simp [PrecisionMUX.setCalibration, MUXManager.isValidChannel, hc, ho, hg, h1, h2]
        · simp [PrecisionMUX.tablesOk, hok]
  · exact ⟨s, setCalibration_invalid s c offset gain (by omega), hok, rfl, Or.inl rfl⟩

theorem tablesOk_new (controlPins : List Nat) (pinCount : Nat) (a oa ga : Bool)
    (jo : List Int) (jg : List Nat) :
    (PrecisionMUX.new controlPins pinCount a oa ga jo jg).tablesOk = true := by
  cases oa <;> cases ga <;> simp [PrecisionMUX.new, PrecisionMUX.tablesOk, FastMUX.new,
    MUXManager.new]

theorem applyCalibration_passes (s : PrecisionMUX) (c : Nat) (v : Int)
    (h : s.calibrated = false ∨ s.maxChannels ≤ c) : s.applyCalibration c v = Except.ok v := by
  rcases h with h | h
  · simp [PrecisionMUX.applyCalibration, h]
  · have : ¬ c < s.maxChannels := by omega
    simp [PrecisionMUX.applyCalibration, MUXManager.isValidChannel, this]

/-- On a channel whose stored entry is the default (offset 0, gain 1024), or on a device
that is not calibrated, `applyCalibration` returns every 16-bit signed value unchanged. -/
theorem applyCalibration_unity (s : PrecisionMUX) (d : Nat) (v : Int)
    (hok : s.tablesOk = true)
    (hdef : ∀ offsets gains, s.calibrationOffsets = some offsets →
      s.calibrationGains = some gains → d < s.maxChannels →
      offsets[d]? = some 0 ∧ gains[d]? = some 1024)
    (hv : -32768 ≤ v ∧ v ≤ 32767) : s.applyCalibration d v = Except.ok v := by
  by_cases hp : s.calibrated = false ∨ s.maxChannels ≤ d
  · exact applyCalibration_passes s d v hp
  · simp only [not_or, Bool.not_eq_false, not_le] at hp
    obtain ⟨hcal, hd⟩ := hp
    cases ho : s.calibrationOffsets with
    | none => simp [PrecisionMUX.tablesOk, ho, hcal] at hok
    | some offsets =>
      cases hg : s.calibrationGains with
      | none => simp [PrecisionMUX.tablesOk, ho, hg, hcal] at hok
      | some gains =>
        obtain ⟨h1, h2⟩ := hdef offsets gains ho hg hd
        have hfit : -2 ^ 31 ≤ (v + 0) * ((1024 : Nat) : Int) ∧
            (v + 0) * ((1024 : Nat) : Int) < 2 ^ 31 := by
          norm_num
          omega
        rw [applyCalibration_exact s d v 0 1024 offsets gains hcal hd ho hg h1 h2 hv
          (by omega) hfit]
        have hq : ⌊((((v + 0) * ((1024 : Nat) : Int) : Int)) : ℚ) / 1024⌋ = v := by
          rw [floor_div_1024]
          simp
        rw [hq]
        simp only [constrain]
        rw [if_neg (by omega), if_neg (by omega)]

theorem setCalibrations_default (d : Nat) (cs : List (Nat × Int × Nat)) :
    ∀ s : PrecisionMUX, s.tablesOk = true → (∀ x ∈ cs, x.1 ≠ d) →
      (∀ offsets gains, s.calibrationOffsets = some offsets →
        s.calibrationGains = some gains → d < s.maxChannels →
        offsets[d]? = some 0 ∧ gains[d]? = some 1024) →
      ∃ s1, s.setCalibrations cs = Except.ok s1 ∧ s1.tablesOk = true ∧
        ∀ offsets gains, s1.calibrationOffsets = some offsets →
          s1.calibrationGains = some gains → d < s1.maxChannels →
          offsets[d]? = some 0 ∧ gains[d]? = some 1024 := by
  induction cs with
  | nil =>
    intro s hok _ hdef
    exact ⟨s, rfl, hok, hdef⟩
  | cons x rest ih =>
    intro s hok hne hdef
    obtain ⟨s1, h1, hok1, hmax, hcase⟩ := setCalibration_returns s x.1 x.2.1 x.2.2 hok
    have hx : x.1 ≠ d := hne x (by simp)
    have hdef1 : ∀ offsets gains, s1.calibrationOffsets = some offsets →
        s1.calibrationGains = some gains → d < s1.maxChannels →
        offsets[d]? = some 0 ∧ gains[d]? = some 1024 := by
      rcases hcase with hs | ⟨_, _, offsets, gains, ho, hg, ho1, hg1⟩
      · rw [hs]
        exact hdef
      · intro o1 g1 e1 e2 hd
        rw [ho1] at e1
        rw [hg1] at e2
        cases e1
        cases e2
        rw [hmax] at hd
        obtain ⟨a, b⟩ := hdef offsets gains ho hg hd
        simp [List.getElem?_set_ne hx, a, b]
    obtain ⟨s2, h2, hok2, hdef2⟩ := ih s1 hok1
      (fun y hy => hne y (List.mem_cons_of_mem _ hy)) hdef1
    exact ⟨s2, by simp [PrecisionMUX.setCalibrations, h1, h2], hok2, hdef2⟩

theorem new_default (controlPins : List Nat) (pinCount : Nat) (a oa ga : Bool)
    (jo : List Int) (jg : List Nat) (d : Nat) (offsets : List Int) (gains : List Nat)
    (ho : (PrecisionMUX.new controlPins pinCount a oa ga jo jg).calibrationOffsets =
      some offsets)
    (hg : (PrecisionMUX.new controlPins pinCount a oa ga jo jg).calibrationGains =
      some gains)
    (hd : d < (PrecisionMUX.new controlPins pinCount a oa ga jo jg).maxChannels) :
    offsets[d]? = some 0 ∧ gains[d]? = some 1024 := by
  cases oa <;> cases ga <;>
    simp [PrecisionMUX.new, FastMUX.new, MUXManager.new] at ho hg hd
  subst ho
  subst hg
  simp [List.getElem?_replicate, hd]

/-! ## C24: the 32-bit product of `applyCalibration` -/

/-- C24, the code at the failing input: on a 4-channel `PrecisionMUX` after
`setCalibration(0, 20000, 60000)`, `applyCalibration(0, 20000)` returns -32768. The exact
product `(20000 + 20000) * 60000` does not fit in `int32_t`, and the floor of the exact
quotient by 1024, clamped, is 32767. -/
theorem applyCalibration_overflow :
    ((PrecisionMUX.new [2, 3] 2 true true true [] []).setCalibration 0 20000 60000).bind
        (fun s => s.applyCalibration 0 20000) = Except.ok (-32768) ∧
    (2 : Int) ^ 31 ≤ (20000 + 20000) * 60000 ∧
    constrain ⌊((((20000 + 20000) * 60000 : Int)) : ℚ) / 1024⌋ (-32768) 32767 = 32767 := by
  refine ⟨by rfl, by decide, ?_⟩
  rw [floor_div_1024]
  decide

/-! ## C25: the unity calibration -/

/-- C25: on a `PrecisionMUX` whose tables agree with its state (as every constructor call
leaves them), for every valid channel `c` and every 16-bit signed value `v`,
`setCalibration(c, 0, 1024)` returns and `applyCalibration(c, v)` then returns `v`. -/
theorem calibration_round_trip (s : PrecisionMUX) (c : Nat) (v : Int)
    (hok : s.tablesOk = true) (hc : c < s.maxChannels)
    (hv : -32768 ≤ v ∧ v ≤ 32767) :
    ∃ s1, s.setCalibration c 0 1024 = Except.ok s1 ∧
      s1.applyCalibration c v = Except.ok v := by
  obtain ⟨s1, h1, hok1, hmax, hcase⟩ := setCalibration_returns s c 0 1024 hok
  refine ⟨s1, h1, ?_⟩
  rcases hcase with hs | ⟨_, _, offsets, gains, ho, hg, ho1, hg1⟩
  · subst hs
    cases ho : s1.calibrationOffsets with
    | none =>
      have hcal : s1.calibrated = false := by
        simpa [PrecisionMUX.tablesOk, ho] using hok
      exact applyCalibration_passes s1 c v (Or.inl hcal)
    | some offsets =>
      cases hg : s1.calibrationGains with
      | none =>
        have hcal : s1.calibrated = false := by
          simpa [PrecisionMUX.tablesOk, ho, hg] using hok
        exact applyCalibration_passes s1 c v (Or.inl hcal)
      | some gains =>
        simp only [PrecisionMUX.tablesOk, ho, hg, Bool.and_eq_true, beq_iff_eq] at hok
        have h2 := h1
        simp [PrecisionMUX.setCalibration, MUXManager.isValidChannel, hc, ho, hg, hok] at h2
        have h3 := congrArg PrecisionMUX.calibrated h2
        have h4 := congrArg PrecisionMUX.calibrationOffsets h2
        have h5 := congrArg PrecisionMUX.calibrationGains h2
        simp only [ho, hg, Option.some.injEq] at h3 h4 h5
        refine applyCalibration_unity s1 c v (by simp [PrecisionMUX.tablesOk, ho, hg, hok])
          ?_ hv
        intro o g e1 e2 _
        rw [ho] at e1
        rw [hg] at e2
        cases e1
        cases e2
        rw [← h4, ← h5]
        simp [List.getElem?_set_self, hok, hc]
  · refine applyCalibration_unity s1 c v hok1 ?_ hv
    intro o g e1 e2 _
    rw [ho1] at e1
    rw [hg1] at e2
    cases e1
    cases e2
    simp only [PrecisionMUX.tablesOk, ho, hg, Bool.and_eq_true, beq_iff_eq] at hok
    simp [List.getElem?_set_self, hok, hc]

/-- Instance of C25: a newly constructed 4-channel `PrecisionMUX`, channel 1, value
-12345. -/
theorem calibration_round_trip_witness :
    ∃ s1, (PrecisionMUX.new [2, 3] 2 true true true [] []).setCalibration 1 0 1024 =
        Except.ok s1 ∧
      s1.applyCalibration 1 (-12345) = Except.ok (-12345) :=
  calibration_round_trip (PrecisionMUX.new [2, 3] 2 true true true [] []) 1 (-12345)
    (by decide) (by decide) (by decide)

/-! ## C26: channels that were not calibrated -/

/-- C26: `applyCalibration(c, v)` returns `v` whenever the device is not marked calibrated
(no `setCalibration` has stored anything) or `c >= maxChannels`; `setCalibration` with an
invalid channel returns the state unchanged; and on a newly constructed device, after any
sequence of `setCalibration` calls none of which names channel `d`, `applyCalibration(d, v)`
returns every 16-bit signed `v` unchanged. -/
theorem calibration_defaults (s : PrecisionMUX) (c d : Nat) (v offset : Int) (gain : Nat)
    (controlPins : List Nat) (pinCount : Nat) (a oa ga : Bool) (jo : List Int)
    (jg : List Nat) (cs : List (Nat × Int × Nat)) :
    (s.calibrated = false ∨ s.maxChannels ≤ c → s.applyCalibration c v = Except.ok v) ∧
    (s.maxChannels ≤ c → s.setCalibration c offset gain = Except.ok s) ∧
    (PrecisionMUX.new controlPins pinCount a oa ga jo jg).calibrated = false ∧
    ((∀ x ∈ cs, x.1 ≠ d) → -32768 ≤ v ∧ v ≤ 32767 →
      ∃ s1, (PrecisionMUX.new controlPins pinCount a oa ga jo jg).setCalibrations cs =
          Except.ok s1 ∧
        s1.applyCalibration d v = Except.ok v) := by
  refine ⟨applyCalibration_passes s c v, setCalibration_invalid s c offset gain, rfl, ?_⟩
  intro hne hv
  obtain ⟨s1, h1, hok1, hdef1⟩ := setCalibrations_default d cs _
    (tablesOk_new controlPins pinCount a oa ga jo jg) hne
    (fun o g ho hg hd => new_default controlPins pinCount a oa ga jo jg d o g ho hg hd)
  exact ⟨s1, h1, applyCalibration_unity s1 d v hok1 hdef1 hv⟩

/-- Instance of C26: on a newly constructed 4-channel `PrecisionMUX`,
`setCalibration(9, 5, 7)` is ignored, and after `setCalibration(2, 100, 2048)` channel 1
still returns -300 for -300 while channel 2 returns (-300 + 100) * 2 = -400. -/
theorem calibration_defaults_witness :
    (PrecisionMUX.new [2, 3] 2 true true true [] []).setCalibration 9 5 7 =
      Except.ok (PrecisionMUX.new [2, 3] 2 true true true [] []) ∧
    ((PrecisionMUX.new [2, 3] 2 true true true [] []).setCalibrations
        [(2, 100, 2048)]).bind (fun s => s.applyCalibration 2 (-300)) = Except.ok (-400) ∧
    ∃ s1, (PrecisionMUX.new [2, 3] 2 true true true [] []).setCalibrations
        [(2, 100, 2048)] = Except.ok s1 ∧
      s1.applyCalibration 1 (-300) = Except.ok (-300) :=
  ⟨(calibration_defaults (PrecisionMUX.new [2, 3] 2 true true true [] []) 9 1 (-300) 5 7
      [2, 3] 2 true true true [] [] [(2, 100, 2048)]).2.1 (by decide),
    by rfl,
    (calibration_defaults (PrecisionMUX.new [2, 3] 2 true true true [] []) 9 1 (-300) 5 7
      [2, 3] 2 true true true [] [] [(2, 100, 2048)]).2.2.2 (by decide) (by decide)⟩

/-! ## The batch mode of `DataMUX` -/

theorem dataMUX_setChannel_direct (s : DataMUX) (c : Nat) (hb : s.buffering = false)
    (hen : s.enabled = true) (hc : c < s.maxChannels)
    (hp : hasPins s.pins s.numPins = true) :
    DataMUX.setChannel s c = Except.ok ⟨MUXStatus.OK, { s with currentChannel := c },
      selectWrites (s.pins.getD []) c 0 s.numPins⟩ := by
  simp [DataMUX.setChannel, MUXManager.isValidChannel, hc, hen, hb,
    writeChannelBits_of_hasPins s.pins c s.numPins hp]

theorem dataMUX_setChannel_buffered (s : DataMUX) (c : Nat) (hb : s.buffering = true)
    (hen : s.enabled = true) (hc : c < s.maxChannels) (hk : s.bufferIndex < 32) :
    DataMUX.setChannel s c = Except.ok ⟨MUXStatus.OK,
      { s with buffer := s.buffer.set s.bufferIndex c, bufferIndex := s.bufferIndex + 1 },
      []⟩ := by
  simp [DataMUX.setChannel, MUXManager.isValidChannel, hc, hen, hb, BUFFER_SIZE, hk]

theorem dataMUX_setChannel_overflow (s : DataMUX) (c : Nat) (hb : s.buffering = true)
    (hen : s.enabled = true) (hc : c < s.maxChannels) (hk : 32 ≤ s.bufferIndex) :
    DataMUX.setChannel s c = Except.ok ⟨MUXStatus.ERROR_OVERFLOW, s, []⟩ := by
  have : ¬ s.bufferIndex < 32 := by omega
  simp [DataMUX.setChannel, MUXManager.isValidChannel, hc, hen, hb, BUFFER_SIZE, this]

/-- Outside buffering mode, `setChannel` leaves the batch buffer alone, and a call that
does not return `OK` changes nothing and calls nothing of the platform. -/
theorem dataMUX_setChannel_unbuffered (s : DataMUX) (c : Nat) (r : Step DataMUX MUXStatus)
    (hb : s.buffering = false) (h : DataMUX.setChannel s c = Except.ok r) :
    r.dev.buffer = s.buffer ∧ r.dev.buffering = false ∧
    r.dev.bufferIndex = s.bufferIndex ∧
    (r.ret ≠ MUXStatus.OK → r.dev = s ∧ r.trace = []) := by
  simp only [DataMUX.setChannel, hb, Bool.false_eq_true, if_false] at h
  (repeat' split at h) <;> cases h <;> simp [hb]

theorem dataMUX_perform_setChannel (env : Env) (fuel : Nat) (hist : List Event)
    (s : DataMUX) (c : Nat) (r : Step DataMUX MUXStatus)
    (h : DataMUX.setChannel s c = Except.ok r) :
    (Device.dataMUX s).perform env fuel hist (Op.setChannel c) =
      Except.ok ⟨Ret.status r.ret, Device.dataMUX r.dev, r.trace⟩ := by
  simp [Device.perform, Device.setChannel, liftRet, liftStep, h]

theorem run_append (env : Env) (fuel : Nat) (ops1 ops2 : List Op) :
    ∀ (hist : List Event) (d : Device) (r1 r2 : Step Device (List (Op × Ret))),
      Device.run env fuel ops1 hist d = Except.ok r1 →
      Device.run env fuel ops2 (hist ++ r1.trace) r1.dev = Except.ok r2 →
      Device.run env fuel (ops1 ++ ops2) hist d =
        Except.ok ⟨r1.ret ++ r2.ret, r2.dev, r1.trace ++ r2.trace⟩ := by
  induction ops1 with
  | nil =>
    intro hist d r1 r2 h1 h2
    simp only [Device.run] at h1
    cases h1
    simpa using h2
  | cons op rest ih =>
    intro hist d r1 r2 h1 h2
    rw [run_cons] at h1
    obtain ⟨a, b, ha, hb, rfl⟩ := h1
    have := ih (hist ++ a.trace) a.dev b r2 hb (by simpa [List.append_assoc] using h2)
    rw [List.cons_append, run_cons]
    exact ⟨a, _, ha, this, by simp [List.append_assoc]⟩

/-- In buffering mode with room for all of them, `setChannel` calls with valid channels
return `OK`, call nothing of the platform, and store the channels in call order from
`bufferIndex` on; nothing else of the state changes. -/
theorem run_buffered (env : Env) (fuel : Nat) (L : List Nat) :
    ∀ (hist : List Event) (s : DataMUX),
      s.buffering = true → s.enabled = true → (∀ x ∈ L, x < s.maxChannels) →
      s.bufferIndex + L.length ≤ 32 →
      ∃ buf, Device.run env fuel (L.map Op.setChannel) hist (Device.dataMUX s) =
          Except.ok ⟨L.map (fun x => (Op.setChannel x, Ret.status MUXStatus.OK)),
            Device.dataMUX { s with buffer := buf, bufferIndex := s.bufferIndex + L.length },
            []⟩ ∧
        buf.length = s.buffer.length ∧
        (∀ j, j < s.bufferIndex → buf[j]? = s.buffer[j]?) ∧
        (∀ j, j < L.length → s.bufferIndex + j < s.buffer.length →
          buf[s.bufferIndex + j]? = L[j]?) := by
  induction L with
  | nil =>
    intro hist s _ _ _ _
    exact ⟨s.buffer, by simp [Device.run], rfl, fun _ _ => rfl, by simp⟩
  | cons x rest ih =>
    intro hist s hb hen hL hk
    simp only [List.length_cons] at hk
    have hx : x < s.maxChannels := hL x (by simp)
    have h1 := dataMUX_setChannel_buffered s x hb hen hx (by omega)
    obtain ⟨buf, hrun, hlen, hlow, hnew⟩ := ih (hist ++ [])
      { s with buffer := s.buffer.set s.bufferIndex x, bufferIndex := s.bufferIndex + 1 }
      hb hen (fun y hy => hL y (List.mem_cons_of_mem _ hy)) (by simp only []; omega)
    refine ⟨buf, ?_, by simpa using hlen, ?_, ?_⟩
    · rw [List.map_cons, run_cons]
      refine ⟨_, _, dataMUX_perform_setChannel env fuel hist s x _ h1, hrun, ?_⟩
      simp [Nat.add_assoc, Nat.add_comm 1]
    · intro j hj
      rw [hlow j (by simp only []; omega)]
      simp only []
      rw [List.getElem?_set_ne (by omega)]
    · intro j hj hjl
      cases j with
      | zero =>
        rw [Nat.add_zero, hlow s.bufferIndex (by simp only []; omega)]
        simp only []
        rw [List.getElem?_set_self (by simpa using hjl)]
        simp
      | succ j =>
        simp only [List.length_cons] at hj
        have := hnew j (by omega) (by simp only [List.length_set]; omega)
        simp only [] at this
        rw [show s.bufferIndex + (j + 1) = s.bufferIndex + 1 + j by omega, this]
        simp

/-- When the buffer is full, `setChannel` calls with valid channels return
`ERROR_OVERFLOW`, change nothing and call nothing of the platform. -/
theorem run_overflow (env : Env) (fuel : Nat) (L : List Nat) :
    ∀ (hist : List Event) (s : DataMUX),
      s.buffering = true → s.enabled = true → (∀ x ∈ L, x < s.maxChannels) →
      32 ≤ s.bufferIndex →
      Device.run env fuel (L.map Op.setChannel) hist (Device.dataMUX s) =
        Except.ok ⟨L.map (fun x => (Op.setChannel x, Ret.status MUXStatus.ERROR_OVERFLOW)),
          Device.dataMUX s, []⟩ := by
  induction L with
  | nil =>
    intro hist s _ _ _ _
    simp [Device.run]
  | cons x rest ih =>
    intro hist s hb hen hL hk
    have h1 := dataMUX_setChannel_overflow s x hb hen (hL x (by simp)) hk
    rw [List.map_cons, run_cons]
    exact ⟨_, _, dataMUX_perform_setChannel env fuel hist s x _ h1,
      ih (hist ++ []) s hb hen (fun y hy => hL y (List.mem_cons_of_mem _ hy)) hk, by simp⟩

theorem getLast?_getD_cons (x : Nat) (rest : List Nat) (c : Nat) :
    (x :: rest).getLast?.getD c = rest.getLast?.getD x := by
  cases rest with
  | nil => simp
  | cons y more =>
    rw [List.getLast?_cons_cons]
    cases h : (y :: more).getLast? with
    | none => simp at h
    | some z => rfl

/-- Outside buffering mode on an enabled device with its pins stored, `setChannel` calls
with valid channels return `OK` and perform the select writes of each channel in turn. -/
theorem run_direct (env : Env) (fuel : Nat) (L : List Nat) :
    ∀ (hist : List Event) (s : DataMUX),
      s.buffering = false → s.enabled = true → hasPins s.pins s.numPins = true →
      (∀ x ∈ L, x < s.maxChannels) →
      Device.run env fuel (L.map Op.setChannel) hist (Device.dataMUX s) =
        Except.ok ⟨L.map (fun x => (Op.setChannel x, Ret.status MUXStatus.OK)),
          Device.dataMUX { s with currentChannel := L.getLast?.getD s.currentChannel },
          L.flatMap (fun x => selectWrites (s.pins.getD []) x 0 s.numPins)⟩ := by
  induction L with
  | nil =>
    intro hist s _ _ _ _
    simp [Device.run]
  | cons x rest ih =>
    intro hist s hb hen hp hL
    have h1 := dataMUX_setChannel_direct s x hb hen (hL x (by simp)) hp
    have h2 := ih (hist ++ selectWrites (s.pins.getD []) x 0 s.numPins)
      { s with currentChannel := x } hb hen hp
      (fun y hy => hL y (List.mem_cons_of_mem _ hy))
    rw [List.map_cons, run_cons]
    refine ⟨_, _, dataMUX_perform_setChannel env fuel hist s x _ h1, h2, ?_⟩
    simp [getLast?_getD_cons]

/-- The replay loop of `flushBuffer` over entries that hold the valid channels `L`, on an
enabled device outside buffering mode with its pins stored: it runs to its end, performing
for each entry the select writes of `setChannel` and then the 1 microsecond delay. -/
theorem flushLoop_replay (L : List Nat) :
    ∀ (s : DataMUX) (i : Nat),
      s.buffering = false → s.enabled = true → hasPins s.pins s.numPins = true →
      (∀ x ∈ L, x < s.maxChannels) →
      (∀ j, j < L.length → s.buffer[i + j]? = L[j]?) →
      DataMUX.flushLoop s i L.length =
        Except.ok ⟨MUXStatus.OK,
          { s with currentChannel := L.getLast?.getD s.currentChannel },
          L.flatMap (fun x =>
            selectWrites (s.pins.getD []) x 0 s.numPins ++ [Event.delayMicros 1])⟩ := by
  induction L with
  | nil =>
    intro s i _ _ _ _ _
    simp [DataMUX.flushLoop]
  | cons x rest ih =>
    intro s i hb hen hp hL hbuf
    have h0 : s.buffer[i]? = some x := by
      simpa using hbuf 0 (by simp)
    have h1 := dataMUX_setChannel_direct s x hb hen (hL x (by simp)) hp
    have h2 := ih { s with currentChannel := x } (i + 1) hb hen hp
      (fun y hy => hL y (List.mem_cons_of_mem _ hy))
      (fun j hj => by
        have := hbuf (j + 1) (by simp only [List.length_cons]; omega)
        simpa [Nat.add_assoc, Nat.add_comm 1] using this)
    simp only [List.length_cons, DataMUX.flushLoop, h0, h1, ne_eq, not_true_eq_false,
      if_false, h2]
    simp [getLast?_getD_cons]

theorem pinWrites_flatMap_delay (L : List Nat) (f : Nat → List Event) :
    pinWrites (L.flatMap (fun x => f x ++ [Event.delayMicros 1])) =
      pinWrites (L.flatMap f) := by
  induction L with
  | nil => rfl
  | cons x rest ih =>
    simp only [List.flatMap_cons, pinWrites_append, ih]
    simp [pinWrites]

/-- The first entry that `flushBuffer` fails to replay ends the loop: the status is that
of the failing `setChannel`, and the state and the events are those left by the replay of
the entries before it. -/
theorem flushLoop_stops (k : Nat) :
    ∀ (s : DataMUX) (i : Nat) (r : Step DataMUX MUXStatus),
      s.buffering = false → DataMUX.flushLoop s i k = Except.ok r →
      r.ret ≠ MUXStatus.OK →
      ∃ j r1 channel, j < k ∧ DataMUX.flushLoop s i j = Except.ok r1 ∧
        r1.ret = MUXStatus.OK ∧ s.buffer[i + j]? = some channel ∧
        DataMUX.setChannel r1.dev channel = Except.ok ⟨r.ret, r1.dev, []⟩ ∧
        r.dev = r1.dev ∧ r.trace = r1.trace := by
  induction k with
  | zero =>
    intro s i r _ h hne
    simp only [DataMUX.flushLoop] at h
    cases h
    exact absurd rfl hne
  | succ k ih =>
    intro s i r hb h hne
    simp only [DataMUX.flushLoop] at h
    split at h
    · cases h
    · next channel hch =>
      split at h
      · cases h
      · next r1 h1 =>
        obtain ⟨f1, f2, f3, f4⟩ := dataMUX_setChannel_unbuffered s channel r1 hb h1
        split at h
        · next hfail =>
          cases h
          obtain ⟨hd, ht⟩ := f4 hfail
          refine ⟨0, ⟨MUXStatus.OK, s, []⟩, channel, by omega, by simp [DataMUX.flushLoop],
            rfl, by simpa using hch, ?_, hd, ht⟩
          simp only []
          rw [h1]
          cases r1
          simp_all
        · next hok =>
          split at h
          · cases h
          · next r2 h2 =>
            cases h
            have hok1 : r1.ret = MUXStatus.OK := by simpa using hok
            obtain ⟨j, r3, ch3, hj, hl, hr3, hb3, hs3, hd3, ht3⟩ :=
              ih r1.dev (i + 1) r2 f2 h2 hne
            refine ⟨j + 1, ⟨r3.ret, r3.dev, r1.trace ++ [Event.delayMicros 1] ++ r3.trace⟩,
              ch3, by omega, ?_, hr3, ?_, hs3, hd3, by simp [ht3]⟩
            · simp [DataMUX.flushLoop, hch, h1, hok1, hl]
            · have e : i + (j + 1) = i + 1 + j := by omega
              rw [e, ← f1]
              exact hb3

/-- The result of `flushBuffer` on an enabled device with its pins stored whose buffer
holds the valid channels `L`: `OK`, after the select writes of every entry in order, each
followed by the 1 microsecond delay; the buffer is emptied and buffering is off. -/
theorem flushBuffer_replay (s : DataMUX) (L : List Nat)
    (hen : s.enabled = true) (hp : hasPins s.pins s.numPins = true)
    (hL : ∀ x ∈ L, x < s.maxChannels) (hk : s.bufferIndex = L.length)
    (hbuf : ∀ j, j < L.length → s.buffer[j]? = L[j]?) :
    s.flushBuffer = Except.ok ⟨MUXStatus.OK,
      { s with buffering := false, bufferIndex := 0,
               currentChannel := L.getLast?.getD s.currentChannel },
      L.flatMap (fun x =>
        selectWrites (s.pins.getD []) x 0 s.numPins ++ [Event.delayMicros 1])⟩ := by
  have h := flushLoop_replay L { s with buffering := false } 0 rfl hen hp hL
    (fun j hj => by simpa using hbuf j hj)
  rw [← hk] at h
  unfold DataMUX.flushBuffer
  simp only [h]
  simp

theorem dataMUX_perform_flushBuffer (env : Env) (fuel : Nat) (hist : List Event)
    (s : DataMUX) (r : Step DataMUX MUXStatus) (h : s.flushBuffer = Except.ok r) :
    (Device.dataMUX s).perform env fuel hist Op.flushBuffer =
      Except.ok ⟨Ret.status r.ret, Device.dataMUX r.dev, r.trace⟩ := by
  simp [Device.perform, liftRet, h]

/-! ## C27: a flushed batch repeats the direct calls -/

/-- C27: on an enabled `DataMUX` with its pins stored, for every list `L` of at most 32
valid channels: `startBuffering()` and `setChannel(x)` for each `x` of `L` return (`OK`
for every `setChannel`) without any platform call; `flushBuffer()` then returns `OK`, and
its pin writes are, in order, those of the calls `setChannel(x)` for each `x` of `L` made
outside buffering mode, which also all return `OK`; both leave the same pin levels and the
same `currentChannel`, the last element of `L`. -/
theorem batch_replay (env : Env) (fuel : Nat) (hist : List Event) (s : DataMUX)
    (L : List Nat) (hen : s.enabled = true) (hp : hasPins s.pins s.numPins = true)
    (hbuf : s.buffer.length = BUFFER_SIZE) (hL : ∀ x ∈ L, x < s.maxChannels)
    (hlen : L.length ≤ 32) :
    ∃ rb rf rd,
      Device.run env fuel (Op.startBuffering :: L.map Op.setChannel) hist
        (Device.dataMUX s) = Except.ok rb ∧
      rb.ret = (Op.startBuffering, Ret.unit) ::
        L.map (fun x => (Op.setChannel x, Ret.status MUXStatus.OK)) ∧
      rb.trace = [] ∧
      rb.dev.perform env fuel hist Op.flushBuffer = Except.ok rf ∧
      rf.ret = Ret.status MUXStatus.OK ∧
      Device.run env fuel (L.map Op.setChannel) hist
        (Device.dataMUX { s with buffering := false }) = Except.ok rd ∧
      rd.ret = L.map (fun x => (Op.setChannel x, Ret.status MUXStatus.OK)) ∧
      pinWrites rf.trace = pinWrites rd.trace ∧
      (∀ levels, replay levels rf.trace = replay levels rd.trace) ∧
      rf.dev.base.currentChannel = rd.dev.base.currentChannel ∧
      (∀ x, L.getLast? = some x → rf.dev.base.currentChannel = x) := by
  obtain ⟨buf, hrun, hblen, -, hnew⟩ := run_buffered env fuel L (hist ++ []) s.startBuffering
    rfl hen hL (by simp only [DataMUX.startBuffering]; omega)
  simp only [DataMUX.startBuffering, Nat.zero_add] at hrun hblen hnew
  have hflush := flushBuffer_replay
    { s with buffering := true, buffer := buf, bufferIndex := L.length } L hen hp hL rfl
    (fun j hj => hnew j hj (by rw [hbuf]; simp only [BUFFER_SIZE]; omega))
  have hdirect := run_direct env fuel L hist { s with buffering := false } rfl hen hp hL
  have hpw : pinWrites (L.flatMap (fun x =>
      selectWrites (s.pins.getD []) x 0 s.numPins ++ [Event.delayMicros 1])) =
      pinWrites (L.flatMap (fun x => selectWrites (s.pins.getD []) x 0 s.numPins)) :=
    pinWrites_flatMap_delay L _
  have hbrun : Device.run env fuel (Op.startBuffering :: L.map Op.setChannel) hist
      (Device.dataMUX s) = Except.ok ⟨(Op.startBuffering, Ret.unit) ::
        L.map (fun x => (Op.setChannel x, Ret.status MUXStatus.OK)),
        Device.dataMUX { s with buffering := true, buffer := buf, bufferIndex := L.length },
        []⟩ := by
    rw [run_cons]
    exact ⟨⟨Ret.unit, Device.dataMUX s.startBuffering, []⟩, _,
      by simp [Device.perform], by simpa [DataMUX.startBuffering] using hrun, by simp⟩
  have hfl := dataMUX_perform_flushBuffer env fuel hist _ _ hflush
  refine ⟨_, _, _, hbrun, rfl, rfl, hfl, rfl, hdirect, rfl, ?_, ?_, ?_, ?_⟩
  · exact hpw
  · intro levels
    simp only [replay_eq_writeAll, hpw]
  · simp [Device.base]
  · intro x hx
    simp [Device.base, hx]

/-- Instance of C27: the example `DataMUX` (pins 2 and 3) with `L = [1, 3, 2]`. The flush
writes (2,1) (3,0), (2,1) (3,1), (2,0) (3,1), as the direct calls do, and ends on
channel 2. -/
theorem batch_replay_witness :
    (Device.run quietEnv 0
        [Op.startBuffering, Op.setChannel 1, Op.setChannel 3, Op.setChannel 2,
          Op.flushBuffer] [] (Device.dataMUX startedDataMUX)).map
      (fun r => (r.ret, pinWrites r.trace, r.dev.base.currentChannel)) =
    Except.ok ([(Op.startBuffering, Ret.unit), (Op.setChannel 1, Ret.status MUXStatus.OK),
        (Op.setChannel 3, Ret.status MUXStatus.OK),
        (Op.setChannel 2, Ret.status MUXStatus.OK),
        (Op.flushBuffer, Ret.status MUXStatus.OK)],
      [(2, 1), (3, 0), (2, 1), (3, 1), (2, 0), (3, 1)], 2) ∧
    ∃ rb rf rd,
      Device.run quietEnv 0 (Op.startBuffering :: [1, 3, 2].map Op.setChannel) []
        (Device.dataMUX startedDataMUX) = Except.ok rb ∧
      rb.ret = (Op.startBuffering, Ret.unit) ::
        [1, 3, 2].map (fun x => (Op.setChannel x, Ret.status MUXStatus.OK)) ∧
      rb.trace = [] ∧
      rb.dev.perform quietEnv 0 [] Op.flushBuffer = Except.ok rf ∧
      rf.ret = Ret.status MUXStatus.OK ∧
      Device.run quietEnv 0 ([1, 3, 2].map Op.setChannel) []
        (Device.dataMUX { startedDataMUX with buffering := false }) = Except.ok rd ∧
      rd.ret = [1, 3, 2].map (fun x => (Op.setChannel x, Ret.status MUXStatus.OK)) ∧
      pinWrites rf.trace = pinWrites rd.trace ∧
      (∀ levels, replay levels rf.trace = replay levels rd.trace) ∧
      rf.dev.base.currentChannel = rd.dev.base.currentChannel ∧
      (∀ x, [1, 3, 2].getLast? = some x → rf.dev.base.currentChannel = x) :=
  ⟨by rfl, batch_replay quietEnv 0 [] startedDataMUX [1, 3, 2] rfl (by decide) (by decide)
    (by decide) (by decide)⟩

/-! ## C28: the capacity of the batch buffer -/

/-- C28: on an enabled `DataMUX`, after `startBuffering()`, `setChannel` calls with the
valid channels `L` return `OK` for the first 32 and `ERROR_OVERFLOW` for every further one,
without any platform call; the buffer then holds the first 32 channels in call order and
nothing else of the state has changed (`currentChannel` included); `flushBuffer()` in
that state, with the pins stored, returns `OK` and leaves the buffer empty and buffering
off. In a full buffer a `setChannel(c)` with a valid `c` returns `ERROR_OVERFLOW` and
leaves the whole state unchanged; after `clearBuffer()` or `startBuffering()` it returns
`OK` again and stores `c` at index 0. -/
theorem batch_capacity (env : Env) (fuel : Nat) (hist : List Event) (s : DataMUX)
    (L : List Nat) (c : Nat) (hen : s.enabled = true)
    (hbuf : s.buffer.length = BUFFER_SIZE) (hL : ∀ x ∈ L, x < s.maxChannels)
    (hc : c < s.maxChannels) :
    (∃ buf, Device.run env fuel (Op.startBuffering :: L.map Op.setChannel) hist
        (Device.dataMUX s) =
        Except.ok ⟨(Op.startBuffering, Ret.unit) ::
            ((L.take 32).map (fun x => (Op.setChannel x, Ret.status MUXStatus.OK)) ++
              (L.drop 32).map
                (fun x => (Op.setChannel x, Ret.status MUXStatus.ERROR_OVERFLOW))),
          Device.dataMUX { s with buffering := true, buffer := buf,
                                  bufferIndex := (L.take 32).length }, []⟩ ∧
      buf.length = BUFFER_SIZE ∧ (∀ j, j < (L.take 32).length → buf[j]? = L[j]?) ∧
      (hasPins s.pins s.numPins = true →
        ∃ rf, DataMUX.flushBuffer { s with buffering := true, buffer := buf,
                                            bufferIndex := (L.take 32).length } =
            Except.ok rf ∧
          rf.ret = MUXStatus.OK ∧ rf.dev.bufferIndex = 0 ∧ rf.dev.buffering = false)) ∧
    (∀ t : DataMUX, t.buffering = true → t.enabled = true → c < t.maxChannels →
      32 ≤ t.bufferIndex →
      DataMUX.setChannel t c = Except.ok ⟨MUXStatus.ERROR_OVERFLOW, t, []⟩) ∧
    (s.buffering = true →
      DataMUX.setChannel s.clearBuffer c = Except.ok ⟨MUXStatus.OK,
        { s.clearBuffer with buffer := s.clearBuffer.buffer.set 0 c, bufferIndex := 1 },
        []⟩) ∧
    DataMUX.setChannel s.startBuffering c = Except.ok ⟨MUXStatus.OK,
      { s.startBuffering with buffer := s.buffer.set 0 c, bufferIndex := 1 }, []⟩ := by
  refine ⟨?_, fun t hb he hct hk => dataMUX_setChannel_overflow t c hb he hct hk, ?_, ?_⟩
  · have hlt : (L.take 32).length ≤ 32 := by simp
    obtain ⟨buf, hrun, hblen, -, hnew⟩ := run_buffered env fuel (L.take 32) (hist ++ [])
      s.startBuffering rfl hen (fun x hx => hL x (List.mem_of_mem_take hx))
      (by simp only [DataMUX.startBuffering]; omega)
    simp only [DataMUX.startBuffering, Nat.zero_add] at hrun hblen hnew
    have hover : Device.run env fuel ((L.drop 32).map Op.setChannel) (hist ++ [] ++ [])
        (Device.dataMUX { s with buffering := true, buffer := buf,
                                 bufferIndex := (L.take 32).length }) =
        Except.ok ⟨(L.drop 32).map
            (fun x => (Op.setChannel x, Ret.status MUXStatus.ERROR_OVERFLOW)),
          Device.dataMUX { s with buffering := true, buffer := buf,
                                  bufferIndex := (L.take 32).length }, []⟩ := by
      by_cases hlen : L.length ≤ 32
      · rw [List.drop_of_length_le hlen]
        simp [Device.run]
      · exact run_overflow env fuel (L.drop 32) _ _ rfl hen
          (fun x hx => hL x (List.mem_of_mem_drop hx))
          (by simp only [List.length_take]; omega)
    have hboth := run_append env fuel ((L.take 32).map Op.setChannel)
      ((L.drop 32).map Op.setChannel) (hist ++ []) _ _ _ hrun hover
    rw [← List.map_append, List.take_append_drop] at hboth
    have hstored : ∀ j, j < (L.take 32).length → buf[j]? = (L.take 32)[j]? :=
      fun j hj => hnew j hj (by rw [hbuf]; simp only [BUFFER_SIZE]; omega)
    refine ⟨buf, ?_, by rw [hblen, hbuf], ?_, ?_⟩
    · rw [run_cons]
      exact ⟨⟨Ret.unit, Device.dataMUX s.startBuffering, []⟩, _,
        by simp [Device.perform], by simpa [DataMUX.startBuffering] using hboth, by simp⟩
    · intro j hj
      rw [hstored j hj]
      simp only [List.length_take] at hj
      rw [List.getElem?_take_of_lt (by omega)]
    · intro hp
      exact ⟨_, flushBuffer_replay
        { s with buffering := true, buffer := buf, bufferIndex := (L.take 32).length }
        (L.take 32) hen hp (fun x hx => hL x (List.mem_of_mem_take hx)) rfl hstored,
        rfl, rfl, rfl⟩
  · intro hb
    exact dataMUX_setChannel_buffered s.clearBuffer c hb hen hc
      (by simp [DataMUX.clearBuffer])
  · exact dataMUX_setChannel_buffered s.startBuffering c rfl hen hc
      (by simp [DataMUX.startBuffering])

/-- Instance of C28: the example `DataMUX` with 34 calls `setChannel(1)` after
`startBuffering()`: the last two return `ERROR_OVERFLOW`, the buffer length stays 32. -/
theorem batch_capacity_witness :
    ∃ buf, Device.run quietEnv 0 (Op.startBuffering :: (List.replicate 34 1).map Op.setChannel)
        [] (Device.dataMUX startedDataMUX) =
        Except.ok ⟨(Op.startBuffering, Ret.unit) ::
            (((List.replicate 34 1).take 32).map
                (fun x => (Op.setChannel x, Ret.status MUXStatus.OK)) ++
              ((List.replicate 34 1).drop 32).map
                (fun x => (Op.setChannel x, Ret.status MUXStatus.ERROR_OVERFLOW))),
          Device.dataMUX { startedDataMUX with
            buffering := true, buffer := buf,
            bufferIndex := ((List.replicate 34 1).take 32).length }, []⟩ ∧
      buf.length = BUFFER_SIZE ∧
      (∀ j, j < ((List.replicate 34 1).take 32).length →
        buf[j]? = (List.replicate 34 1)[j]?) ∧
      (hasPins startedDataMUX.pins startedDataMUX.numPins = true →
        ∃ rf, DataMUX.flushBuffer { startedDataMUX with
              buffering := true, buffer := buf,
              bufferIndex := ((List.replicate 34 1).take 32).length } =
            Except.ok rf ∧
          rf.ret = MUXStatus.OK ∧ rf.dev.bufferIndex = 0 ∧ rf.dev.buffering = false) :=
  (batch_capacity quietEnv 0 [] startedDataMUX (List.replicate 34 1) 1 rfl (by decide)
    (by decide) (by decide)).1

/-! ## C29: a replay that fails -/

/-- The replay loop of `flushBuffer` ends at the first entry whose `setChannel` does not
return `OK`: when the entries before entry `j` were replayed with `OK` and the replay of
entry `j` returns another status, the loop over any longer run of entries returns that
status, with the state and the events left by the entries before `j`. -/
theorem flushLoop_fails_at (j : Nat) :
    ∀ (s : DataMUX) (i k : Nat) (r1 : Step DataMUX MUXStatus) (channel : Nat)
      (r2 : Step DataMUX MUXStatus),
      s.buffering = false → j < k →
      DataMUX.flushLoop s i j = Except.ok r1 → r1.ret = MUXStatus.OK →
      s.buffer[i + j]? = some channel →
      DataMUX.setChannel r1.dev channel = Except.ok r2 → r2.ret ≠ MUXStatus.OK →
      DataMUX.flushLoop s i k = Except.ok ⟨r2.ret, r1.dev, r1.trace⟩ ∧
        r2.dev = r1.dev ∧ r2.trace = [] := by
  induction j with
  | zero =>
    intro s i k r1 channel r2 hb hk h1 _ hch h2 hne
    obtain ⟨k, rfl⟩ : ∃ m, k = m + 1 := ⟨k - 1, by omega⟩
    simp only [DataMUX.flushLoop] at h1
    cases h1
    obtain ⟨-, -, -, f4⟩ := dataMUX_setChannel_unbuffered s channel r2 hb h2
    obtain ⟨hd, ht⟩ := f4 hne
    refine ⟨?_, hd, ht⟩
    simp only [Nat.add_zero] at hch
    simp only [DataMUX.flushLoop, hch, h2, hne, ne_eq, not_false_eq_true, if_true, hd, ht]
  | succ j ih =>
    intro s i k r1 channel r2 hb hk h1 hok hch h2 hne
    obtain ⟨k, rfl⟩ : ∃ m, k = m + 1 := ⟨k - 1, by omega⟩
    simp only [DataMUX.flushLoop] at h1
    split at h1
    · cases h1
    · next c0 hc0 =>
      split at h1
      · cases h1
      · next ra ha =>
        obtain ⟨f1, f2, -, -⟩ := dataMUX_setChannel_unbuffered s c0 ra hb ha
        split at h1
        · next hfail =>
          cases h1
          exact absurd hok hfail
        · next hra =>
          split at h1
          · cases h1
          · next rb hrb =>
            cases h1
            have e : i + (j + 1) = i + 1 + j := by omega
            obtain ⟨g1, g2, g3⟩ := ih ra.dev (i + 1) k rb channel r2 f2 (by omega) hrb hok
              (by rw [f1, ← e]; exact hch) h2 hne
            refine ⟨?_, g2, g3⟩
            simp only [DataMUX.flushLoop, hc0, ha, hra, if_false, g1]

/-- C29: `flushBuffer()` stops at the first entry whose replay does not return `OK`. If
the entries before entry `j` were replayed with `OK` and `setChannel` of entry `j` returns
another status, `flushBuffer()` returns that status; its state and its events are those
left by the entries before `j`, so nothing is written for entry `j` (whose call changed
nothing and called nothing of the platform) or for a later entry. With the channels of `L`
in the first entries followed by an entry that is not a valid channel, on an enabled device
with its pins stored, this is `ERROR_CHANNEL_INVALID` after exactly the select writes of
`L`. Conversely a status other than `OK` returned by `flushBuffer()` is that of such a
first failing entry. In particular, on a disabled device whose buffer is not empty and
starts with a valid channel, `flushBuffer()` returns `ERROR_NOT_ENABLED` with no platform
call and changes only `buffering`. -/
theorem flush_stops_at_failure (s : DataMUX) :
    (∀ j r1 channel r2, j < s.bufferIndex →
      DataMUX.flushLoop { s with buffering := false } 0 j = Except.ok r1 →
      r1.ret = MUXStatus.OK → s.buffer[j]? = some channel →
      DataMUX.setChannel r1.dev channel = Except.ok r2 → r2.ret ≠ MUXStatus.OK →
      s.flushBuffer = Except.ok ⟨r2.ret, r1.dev, r1.trace⟩ ∧
        r2.dev = r1.dev ∧ r2.trace = []) ∧
    (∀ (L : List Nat) (channel : Nat), s.enabled = true → hasPins s.pins s.numPins = true →
      L.length < s.bufferIndex → (∀ x ∈ L, x < s.maxChannels) →
      (∀ j, j < L.length → s.buffer[j]? = L[j]?) →
      s.buffer[L.length]? = some channel → s.maxChannels ≤ channel →
      s.flushBuffer = Except.ok ⟨MUXStatus.ERROR_CHANNEL_INVALID,
        { s with buffering := false,
                 currentChannel := L.getLast?.getD s.currentChannel },
        L.flatMap (fun x =>
          selectWrites (s.pins.getD []) x 0 s.numPins ++ [Event.delayMicros 1])⟩) ∧
    (∀ r, s.flushBuffer = Except.ok r → r.ret ≠ MUXStatus.OK →
      ∃ j r1 channel, j < s.bufferIndex ∧
        DataMUX.flushLoop { s with buffering := false } 0 j = Except.ok r1 ∧
        r1.ret = MUXStatus.OK ∧ s.buffer[j]? = some channel ∧
        DataMUX.setChannel r1.dev channel = Except.ok ⟨r.ret, r1.dev, []⟩ ∧
        r.dev = r1.dev ∧ r.trace = r1.trace) ∧
    (s.enabled = false → 0 < s.bufferIndex →
      ∀ channel, s.buffer[0]? = some channel → channel < s.maxChannels →
      s.flushBuffer =
        Except.ok ⟨MUXStatus.ERROR_NOT_ENABLED, { s with buffering := false }, []⟩) := by
  have hfwd : ∀ j r1 channel r2, j < s.bufferIndex →
      DataMUX.flushLoop { s with buffering := false } 0 j = Except.ok r1 →
      r1.ret = MUXStatus.OK → s.buffer[j]? = some channel →
      DataMUX.setChannel r1.dev channel = Except.ok r2 → r2.ret ≠ MUXStatus.OK →
      s.flushBuffer = Except.ok ⟨r2.ret, r1.dev, r1.trace⟩ ∧
        r2.dev = r1.dev ∧ r2.trace = [] := by
    intro j r1 channel r2 hj h1 hok hch h2 hne
    obtain ⟨g1, g2, g3⟩ := flushLoop_fails_at j { s with buffering := false } 0
      s.bufferIndex r1 channel r2 rfl hj h1 hok (by simpa using hch) h2 hne
    refine ⟨?_, g2, g3⟩
    unfold DataMUX.flushBuffer
    simp only [g1]
    simp [hne]
  refine ⟨hfwd, ?_, ?_, ?_⟩
  · intro L channel hen hp hlen hL hbuf hch hinv
    have h1 := flushLoop_replay L { s with buffering := false } 0 rfl hen hp hL
      (fun j hj => by simpa using hbuf j hj)
    have h2 : DataMUX.setChannel
        { s with buffering := false,
                 currentChannel := L.getLast?.getD s.currentChannel } channel =
        Except.ok ⟨MUXStatus.ERROR_CHANNEL_INVALID,
          { s with buffering := false,
                   currentChannel := L.getLast?.getD s.currentChannel }, []⟩ := by
      have : ¬ channel < s.maxChannels := by omega
      simp [DataMUX.setChannel, MUXManager.isValidChannel, this]
    exact (hfwd L.length _ channel _ hlen h1 rfl hch h2 (by simp)).1
  · intro r h hne
    simp only [DataMUX.flushBuffer] at h
    split at h
    · cases h
    · next r0 h0 =>
      split at h
      · cases h
        obtain ⟨j, r1, ch, hj, hl, hr1, hb, hs, hd, ht⟩ :=
          flushLoop_stops _ { s with buffering := false } 0 r rfl h0 hne
        exact ⟨j, r1, ch, hj, hl, hr1, by simpa using hb, hs, hd, ht⟩
      · cases h
        exact absurd rfl hne
  · intro hen hk channel hch hvalid
    obtain ⟨k, hk1⟩ : ∃ k, s.bufferIndex = k + 1 := ⟨s.bufferIndex - 1, by omega⟩
    simp [DataMUX.flushBuffer, hk1, DataMUX.flushLoop, hch, DataMUX.setChannel,
      MUXManager.isValidChannel, hvalid, hen]

/-- Instance of C29: on the example `DataMUX` (4 channels, select pins 2 and 3) whose buffer
holds 1, then 9, then 2, `flushBuffer()` replays channel 1, fails on 9 and returns
`ERROR_CHANNEL_INVALID` without a write for 9 or for 2. When channels 1 and 3 are buffered
and the device is then disabled, `flushBuffer()` returns `ERROR_NOT_ENABLED`, no platform
call was made in the whole run and `currentChannel` is still 0. -/
theorem flush_stops_at_failure_witness :
    DataMUX.flushBuffer { startedDataMUX with
        buffering := true,
        buffer := ((startedDataMUX.buffer.set 0 1).set 1 9).set 2 2, bufferIndex := 3 } =
      Except.ok ⟨MUXStatus.ERROR_CHANNEL_INVALID,
        { startedDataMUX with
          buffering := false, currentChannel := 1,
          buffer := ((startedDataMUX.buffer.set 0 1).set 1 9).set 2 2, bufferIndex := 3 },
        [Event.digitalWrite 2 1, Event.digitalWrite 3 0, Event.delayMicros 1]⟩ ∧
    (Device.run quietEnv 0
        [Op.startBuffering, Op.setChannel 1, Op.setChannel 3, Op.disable, Op.flushBuffer] []
        (Device.dataMUX startedDataMUX)).map
      (fun r => (r.ret.getLast?, r.trace, r.dev.base.currentChannel)) =
    Except.ok (some (Op.flushBuffer, Ret.status MUXStatus.ERROR_NOT_ENABLED), [], 0) ∧
    DataMUX.flushBuffer { startedDataMUX with
        enabled := false, buffering := true,
        buffer := (startedDataMUX.buffer.set 0 1).set 1 3, bufferIndex := 2 } =
      Except.ok ⟨MUXStatus.ERROR_NOT_ENABLED,
        { startedDataMUX with
          enabled := false, buffering := false,
          buffer := (startedDataMUX.buffer.set 0 1).set 1 3, bufferIndex := 2 }, []⟩ :=
  ⟨(flush_stops_at_failure { startedDataMUX with
        buffering := true,
        buffer := ((startedDataMUX.buffer.set 0 1).set 1 9).set 2 2, bufferIndex := 3 }).2.1
      [1] 9 rfl (by decide) (by decide) (by decide) (by decide) rfl (by decide),
    by rfl,
    (flush_stops_at_failure { startedDataMUX with
        enabled := false, buffering := true,
        buffer := (startedDataMUX.buffer.set 0 1).set 1 3, bufferIndex := 2 }).2.2.2
      rfl (by decide) 1 rfl (by decide)⟩

/-! ## C30: the address code of the DG409 -/

/-- C30: `DG408::setChannel(c)` for `c < 8` on an enabled device with select pins
`p0, p1, p2`. In DG409 mode it writes bit 1 of `c` to line 0, bit 0 of `c` to line 1 and
bit 2 of `c` to line 2: the code `dg409Code c`, whose bits 0, 1, 2 are bits 1, 0, 2 of
`c`. The code is below 8, coding twice gives `c` back, so the mapping is a bijection on
0..7. Outside DG409 mode the lines get bits 0, 1, 2 of `c` itself. -/
theorem dg409_encoding (s : DG408) (c p0 p1 p2 : Nat) (hc : c < 8)
    (hen : s.enabled = true) (hp : s.selectPins = some [p0, p1, p2]) :
    (s.isDG409 = true →
      DG408.setChannel s c = Except.ok ⟨MUXStatus.OK,
        { s with currentChannel := DG408.dg409Code c },
        [Event.digitalWrite p0 ((c >>> 1) &&& 1), Event.digitalWrite p1 (c &&& 1),
          Event.digitalWrite p2 ((c >>> 2) &&& 1)]⟩) ∧
    (s.isDG409 = false →
      DG408.setChannel s c = Except.ok ⟨MUXStatus.OK, { s with currentChannel := c },
        [Event.digitalWrite p0 (c &&& 1), Event.digitalWrite p1 ((c >>> 1) &&& 1),
          Event.digitalWrite p2 ((c >>> 2) &&& 1)]⟩) ∧
    (DG408.dg409Code c).testBit 0 = c.testBit 1 ∧
    (DG408.dg409Code c).testBit 1 = c.testBit 0 ∧
    (DG408.dg409Code c).testBit 2 = c.testBit 2 ∧
    DG408.dg409Code c < 8 ∧ DG408.dg409Code (DG408.dg409Code c) = c ∧
    (∀ c', c' < 8 → DG408.dg409Code c' = DG408.dg409Code c → c' = c) ∧
    (∃ c', c' < 8 ∧ DG408.dg409Code c' = c) := by
  have hinv : DG408.dg409Code (DG408.dg409Code c) = c := by
    interval_cases c <;> decide
  have hlt : ∀ x, x < 8 → DG408.dg409Code x < 8 := by
    intro x hx
    interval_cases x <;> decide
  have hnot : ¬ 8 ≤ c := by omega
  refine ⟨?_, ?_, ?_, ?_, ?_, hlt c hc, hinv, ?_, ⟨DG408.dg409Code c, hlt c hc, hinv⟩⟩
  · intro hm
    simp only [DG408.setChannel, ge_iff_le, hnot, if_false, hen, Bool.true_eq_false, hm,
      if_true, hp, writeChannelBits, pinAt]
    interval_cases c <;> rfl
  · intro hm
    simp only [DG408.setChannel, ge_iff_le, hnot, if_false, hen, Bool.true_eq_false, hm,
      hp, writeChannelBits, pinAt]
    interval_cases c <;> rfl
  · interval_cases c <;> decide
  · interval_cases c <;> decide
  · interval_cases c <;> decide
  · intro c' hc' h
    interval_cases c <;> interval_cases c' <;> first | rfl | (exact absurd h (by decide))

/-- Instance of C30: a DG409 on select pins 2, 3, 4, channel 1: the code is 2, so line 0
gets 0, line 1 gets 1 and line 2 gets 0. -/
theorem dg409_encoding_witness :
    DG408.setChannel { DG408.new [2, 3, 4] 14 15 5 true true with enabled := true } 1 =
      Except.ok ⟨MUXStatus.OK,
        { DG408.new [2, 3, 4] 14 15 5 true true with
          enabled := true, currentChannel := DG408.dg409Code 1 },
        [Event.digitalWrite 2 ((1 >>> 1) &&& 1), Event.digitalWrite 3 (1 &&& 1),
          Event.digitalWrite 4 ((1 >>> 2) &&& 1)]⟩ ∧
    DG408.dg409Code 1 = 2 :=
  ⟨(dg409_encoding { DG408.new [2, 3, 4] 14 15 5 true true with enabled := true } 1 2 3 4
      (by decide) rfl rfl).1 rfl, by decide⟩

/-! ## C31: `Utility::reverseBits` -/

/-- C31: for every byte `b`, `reverseBits(b)` is the byte whose bit `i` is bit `7 - i` of
`b` for `i = 0..7`, and reversing twice gives `b` back. -/
theorem reverseBits_spec (b : Nat) (hb : b < 256) :
    Utility.reverseBits b < 256 ∧
    (∀ i, i < 8 → (Utility.reverseBits b).testBit i = b.testBit (7 - i)) ∧
    Utility.reverseBits (Utility.reverseBits b) = b := by
  interval_cases b <;> decide

/-- Instance of C31: `reverseBits(0x16) = 0x68`. -/
theorem reverseBits_spec_witness :
    Utility.reverseBits 0x16 = 0x68 ∧
    (∀ i, i < 8 → (Utility.reverseBits 0x16).testBit i = (0x16 : Nat).testBit (7 - i)) ∧
    Utility.reverseBits (Utility.reverseBits 0x16) = 0x16 :=
  ⟨by decide, (reverseBits_spec 0x16 (by decide)).2⟩

/-! ## C32: `Utility::calculateCRC` is CRC-16/MODBUS -/

/-- Shifting right distributes over exclusive or. -/
theorem shiftRight_xor (a x k : Nat) : (a ^^^ x) >>> k = a >>> k ^^^ x >>> k := by
  apply Nat.eq_of_testBit_eq
  intro i
  simp [Nat.testBit_shiftRight, Nat.testBit_xor]

/-- One shift of the source on a register that already holds the remaining bits of the byte
is one bit-serial step on the register without them, with the rest of the byte still folded
in. -/
theorem crcShift_xor (a x : Nat) :
    Utility.crcShift (a ^^^ x) = crc16ModbusBit a (x.testBit 0) ^^^ (x >>> 1) := by
  have h1 : ((a ^^^ x) &&& 1 ≠ 0) ↔ ((a.testBit 0 != x.testBit 0) = true) := by
    rw [Nat.and_one_is_mod]
    simp only [Nat.testBit_zero, bne_iff_ne, ne_eq, decide_eq_decide]
    have := Nat.xor_mod_two_eq_one (a := a) (b := x)
    omega
  simp only [Utility.crcShift, crc16ModbusBit, shiftRight_xor]
  by_cases h : (a.testBit 0 != x.testBit 0) = true
  · rw [if_pos (h1.mpr h), if_pos h]
    ac_rfl
  · rw [if_neg (fun hc => h (h1.mp hc)), if_neg h]

/-- The invariant of the inner loop of `calculateCRC`: after `k` shifts the register of the
source is the bit-serial register exclusive-or the bits of the byte not yet consumed. -/
theorem crcShifts_xor (byte : Nat) (k : Nat) :
    ∀ a j, Utility.crcShifts (a ^^^ (byte >>> j)) k =
      crc16ModbusBits byte j k a ^^^ (byte >>> (j + k)) := by
  induction k with
  | zero => intro a j; rfl
  | succ k ih =>
    intro a j
    have hb : (byte >>> j).testBit 0 = byte.testBit j := by
      simp [Nat.testBit_shiftRight]
    have hs : byte >>> j >>> 1 = byte >>> (j + 1) := by
      rw [Nat.shiftRight_add]
    simp only [Utility.crcShifts, crc16ModbusBits, crcShift_xor, hb, hs, ih]
    congr 2
    omega

/-- Folding a whole byte in and shifting eight times is eight bit-serial steps. -/
theorem crcShifts_byte (a byte : Nat) (hb : byte < 256) :
    Utility.crcShifts (a ^^^ byte) 8 = crc16ModbusBits byte 0 8 a := by
  have h := crcShifts_xor byte 8 a 0
  have h8 : byte >>> 8 = 0 := by
    rw [Nat.shiftRight_eq_div_pow]
    exact Nat.div_eq_of_lt (by norm_num; exact hb)
  simpa [h8] using h

/-- The outer loop of `calculateCRC` over `k` bytes from index `i`, all inside the array,
returns the bit-serial fold over exactly those bytes. -/
theorem crcLoop_eq (data : List Nat) (k : Nat) :
    ∀ i crc, i + k ≤ data.length → (∀ b ∈ data, b < 256) →
      Utility.crcLoop data i k crc =
        Except.ok (((data.drop i).take k).foldl
          (fun crc byte => crc16ModbusBits byte 0 8 crc) crc) := by
  induction k with
  | zero => intro i crc _ _; simp [Utility.crcLoop]
  | succ k ih =>
    intro i crc hi hb
    have hlt : i < data.length := by omega
    have hd : data.drop i = data[i] :: data.drop (i + 1) := by
      rw [List.drop_eq_getElem_cons hlt]
    simp only [Utility.crcLoop, List.getElem?_eq_getElem hlt, hd, List.take_succ_cons,
      List.foldl_cons]
    rw [crcShifts_byte crc _ (hb _ (List.getElem_mem _)), ih (i + 1) _ (by omega) hb]

/-- One bit-serial step keeps the register in 16 bits. -/
theorem crc16ModbusBit_lt (crc : Nat) (bit : Bool) (h : crc < 65536) :
    crc16ModbusBit crc bit < 65536 := by
  have h1 : crc >>> 1 < 2 ^ 16 := by
    rw [Nat.shiftRight_eq_div_pow]
    omega
  simp only [crc16ModbusBit]
  split
  · exact Nat.xor_lt_two_pow h1 (by norm_num)
  · omega

/-- Bit-serial steps keep the register in 16 bits. -/
theorem crc16ModbusBits_lt (byte : Nat) (k : Nat) :
    ∀ j crc, crc < 65536 → crc16ModbusBits byte j k crc < 65536 := by
  induction k with
  | zero => intro j crc h; exact h
  | succ k ih =>
    intro j crc h
    exact ih (j + 1) _ (crc16ModbusBit_lt crc _ h)

/-- The CRC-16/MODBUS of any byte sequence fits 16 bits. -/
theorem crc16Modbus_lt (data : List Nat) : crc16Modbus data < 65536 := by
  have h : ∀ (l : List Nat) (crc : Nat), crc < 65536 →
      l.foldl (fun crc byte => crc16ModbusBits byte 0 8 crc) crc < 65536 := by
    intro l
    induction l with
    | nil => intro crc h; exact h
    | cons b rest ih =>
      intro crc h
      exact ih _ (crc16ModbusBits_lt b 8 0 crc h)
  exact h data 0xFFFF (by norm_num)

/-- C32: for an array that starts with the bytes `data` (at most 255 of them, whatever
follows them in memory), `Utility::calculateCRC(array, data.length)` returns the
CRC-16/MODBUS of `data` as the standard defines it bit by bit (initial value 0xFFFF,
reflected polynomial 0xA001, least significant bit first, no final exclusive or), a 16-bit
value that is a function of those bytes alone; for length 0 it returns 0xFFFF, and for the
nine ASCII bytes "123456789" it returns 0x4B37. -/
theorem calculateCRC_spec (data extra : List Nat) (_hlen : data.length ≤ 255)
    (hbytes : ∀ b ∈ data ++ extra, b < 256) :
    Utility.calculateCRC (data ++ extra) data.length = Except.ok (crc16Modbus data) ∧
    crc16Modbus data < 65536 ∧
    Utility.calculateCRC extra 0 = Except.ok 0xFFFF ∧
    Utility.calculateCRC [0x31, 0x32, 0x33, 0x34, 0x35, 0x36, 0x37, 0x38, 0x39] 9 =
      Except.ok 0x4B37 := by
  refine ⟨?_, crc16Modbus_lt data, rfl, by set_option maxRecDepth 100000 in rfl⟩
  rw [Utility.calculateCRC, crcLoop_eq (data ++ extra) data.length 0 _ (by simp) hbytes]
  simp [crc16Modbus]

/-- Instance of C32: over the first three bytes of the array 1, 2, 3, 9, 9 the source
returns the CRC-16/MODBUS of 1, 2, 3, which is 0x6161. -/
theorem calculateCRC_spec_witness :
    Utility.calculateCRC ([1, 2, 3] ++ [9, 9]) 3 = Except.ok (crc16Modbus [1, 2, 3]) ∧
    crc16Modbus [1, 2, 3] = 0x6161 :=
  ⟨(calculateCRC_spec [1, 2, 3] [9, 9] (by decide) (by decide)).1,
    by set_option maxRecDepth 100000 in decide⟩

/-! ## C33: `Utility::calculateRequiredSelectPins` -/

/-- The loop of `calculateRequiredSelectPins` entered at `pins` with every smaller power of
two below `channels` ends within `9 - pins` tests, at the least sufficient line count. -/
theorem requiredPinsLoop_spec (channels : Nat) (hc : channels < 256) (fuel : Nat) :
    ∀ pins, pins ≤ 8 → 9 ≤ fuel + pins → (∀ q, q < pins → 2 ^ q < channels) →
      ∃ p, Utility.requiredPinsLoop channels fuel pins = Except.ok p ∧ p ≤ 8 ∧
        channels ≤ 2 ^ p ∧ ∀ q, q < p → 2 ^ q < channels := by
  induction fuel with
  | zero =>
    intro pins h8 h9 _
    omega
  | succ fuel ih =>
    intro pins h8 h9 hq
    simp only [Utility.requiredPinsLoop, Nat.shiftLeft_eq, Nat.one_mul]
    by_cases hlt : 2 ^ pins < channels
    · have hp7 : pins < 8 := by
        rcases Nat.lt_or_ge pins 8 with h | h
        · exact h
        · have : pins = 8 := by omega
          rw [this] at hlt
          norm_num at hlt
          omega
      rw [if_pos hlt, Nat.mod_eq_of_lt (by omega)]
      exact ih (pins + 1) (by omega) (by omega) (fun q hq1 => by
        rcases Nat.lt_or_ge q pins with h | h
        · exact hq q h
        · have : q = pins := by omega
          rw [this]
          exact hlt)
    · rw [if_neg hlt]
      exact ⟨pins, rfl, h8, by omega, hq⟩

/-- C33: for every 8-bit `channels`, `Utility::calculateRequiredSelectPins(channels)` ends
(nine tests of the loop condition are enough) and returns the least `p` with
`channels ≤ 2 ^ p`: `p` is at most 8, it is 0 for 0 and for 1, every channel below
`channels` is below `2 ^ p`, and for every smaller line count some channel below `channels`
is not representable. -/
theorem calculateRequiredSelectPins_spec (channels fuel : Nat) (hc : channels < 256)
    (hfuel : 9 ≤ fuel) :
    ∃ p, Utility.calculateRequiredSelectPins fuel channels = Except.ok p ∧ p ≤ 8 ∧
      channels ≤ 2 ^ p ∧ (∀ q, q < p → 2 ^ q < channels) ∧
      (∀ q, channels ≤ 2 ^ q → p ≤ q) ∧
      (channels ≤ 1 → p = 0) ∧
      (∀ c, c < channels → c < 2 ^ p) ∧
      (∀ q, q < p → ∃ c, c < channels ∧ ¬ c < 2 ^ q) := by
  obtain ⟨p, h1, h2, h3, h4⟩ := requiredPinsLoop_spec channels hc fuel 0 (by omega)
    (by omega) (fun q hq => by omega)
  refine ⟨p, h1, h2, h3, h4, ?_, ?_, fun c hc1 => by omega, fun q hq => ⟨2 ^ q, h4 q hq, by omega⟩⟩
  · intro q hq
    by_contra hlt
    have := h4 q (by omega)
    omega
  · intro h01
    by_contra hp
    have := h4 0 (by omega)
    simp at this
    omega

/-- Instance of C33: 200 channels need 8 lines, 16 need 4 and 17 need 5. -/
theorem calculateRequiredSelectPins_spec_witness :
    Utility.calculateRequiredSelectPins 9 200 = Except.ok 8 ∧
    Utility.calculateRequiredSelectPins 9 16 = Except.ok 4 ∧
    Utility.calculateRequiredSelectPins 9 17 = Except.ok 5 ∧
    ∃ p, Utility.calculateRequiredSelectPins 9 17 = Except.ok p ∧ p ≤ 8 ∧
      17 ≤ 2 ^ p ∧ (∀ q, q < p → 2 ^ q < 17) ∧
      (∀ q, 17 ≤ 2 ^ q → p ≤ q) ∧
      (17 ≤ 1 → p = 0) ∧
      (∀ c, c < 17 → c < 2 ^ p) ∧
      (∀ q, q < p → ∃ c, c < 17 ∧ ¬ c < 2 ^ q) :=
  ⟨by rfl, by rfl, by rfl, calculateRequiredSelectPins_spec 17 9 (by decide) (by decide)⟩

/-! ## C34: the channel count derived from the select-line count -/

/-- Under the constants of its class, `setChannel` answers `ERROR_CHANNEL_INVALID` exactly
for the channels that are not below `maxChannels`. -/
theorem setChannel_invalid_iff (env : Env) (fuel : Nat) (hist : List Event) (d : Device)
    (c : Nat) (r : Step Device MUXStatus) (hinv : d.inv = true)
    (h : d.setChannel env fuel hist c = Except.ok r) :
    r.ret = MUXStatus.ERROR_CHANNEL_INVALID ↔ d.base.maxChannels ≤ c := by
  cases d <;>
    simp only [Device.setChannel, liftStep_eq_ok] at h <;>
    obtain ⟨r0, h0, rfl⟩ := h <;>
    simp only [Device.inv, Bool.and_eq_true, beq_iff_eq] at hinv <;>
    simp only [HC4051.setChannel, HC4067.setChannel,
      HC4052.setChannel, ADG508A.setChannel, ADG706.setChannel, ADG506A.setChannel,
      DG408.setChannel, MAX4051A.setChannel, MAX4582.setChannel, HC405X.setChannel,
      CD74HC4067.setChannel, VideoMUX.setChannel, AudioMUX.setChannel, DataMUX.setChannel,
      TCA9548A.setChannel, PCA9547.setChannel, PCA9646.setChannel,
      MUXManager.isValidChannel] at h0 <;>
    (repeat' split at h0) <;>
    cases h0 <;>
    simp_all [Device.base]

/-- Under the constants of its class, a pin-driven device has `maxChannels` equal to
`2 ^ n mod 256` for its count `n` of select lines. -/
theorem gpio_maxChannels (d : Device) (hg : d.isGPIO = true) (hinv : d.inv = true) :
    d.base.maxChannels = 2 ^ d.numPins % 256 := by
  cases d <;> simp only [Device.isGPIO, Bool.false_eq_true] at hg <;>
    simp only [Device.inv, Bool.and_eq_true, beq_iff_eq] at hinv <;>
    simp only [Device.base, Device.numPins] <;>
    (try obtain ⟨h1, h2⟩ := hinv) <;>
    (try split_ifs at h1 h2) <;>
    simp_all [Nat.shiftLeft_eq]

/-- Under the constants of its class, `setChannel` of a channel not below `maxChannels`
returns `ERROR_CHANNEL_INVALID` and does nothing else. -/
theorem setChannel_rejects (env : Env) (fuel : Nat) (hist : List Event) (d : Device)
    (c : Nat) (hinv : d.inv = true) (h : d.base.maxChannels ≤ c) :
    d.setChannel env fuel hist c = Except.ok ⟨MUXStatus.ERROR_CHANNEL_INVALID, d, []⟩ := by
  cases d <;>
    simp_all [Device.setChannel, Device.inv, Device.base, liftStep, MUXManager.isValidChannel,
      HC4051.setChannel, HC4067.setChannel, HC4052.setChannel, ADG508A.setChannel,
      ADG706.setChannel, ADG506A.setChannel, DG408.setChannel, MAX4051A.setChannel,
      MAX4582.setChannel, HC405X.setChannel, CD74HC4067.setChannel, VideoMUX.setChannel,
      AudioMUX.setChannel, DataMUX.setChannel, TCA9548A.setChannel, PCA9547.setChannel,
      PCA9646.setChannel]

/-- C34: built on `n` select lines without an explicit maximum, `AnalogMUX`, `VideoMUX`,
`AudioMUX`, `DataMUX`, `PrecisionMUX` and `ParallelMUX` have `maxChannels = 2 ^ n mod 256`.
For every pin-driven device whose fields are those its constructor sets, `maxChannels` is
`2 ^ n mod 256` for its line count `n`; with `n ≤ 7`, `setChannel` answers
`ERROR_CHANNEL_INVALID` (changing nothing) for every channel from `2 ^ n` on and never for a
channel below `2 ^ n`; with `n = 8`, `maxChannels` is 0 and every channel is rejected. -/
theorem derived_channel_count (sel : List Nat) (n a b e : Nat) (g oa ga : Bool)
    (jo : List Int) (jg : List Nat) (env : Env) (fuel : Nat) (hist : List Event)
    (d : Device) (c : Nat) :
    ((AnalogMUX.new sel n a e g).maxChannels = 2 ^ n % 256 ∧
      (VideoMUX.new sel n a b g).maxChannels = 2 ^ n % 256 ∧
      (AudioMUX.new sel n g).maxChannels = 2 ^ n % 256 ∧
      (DataMUX.new sel n g).maxChannels = 2 ^ n % 256 ∧
      (PrecisionMUX.new sel n g oa ga jo jg).maxChannels = 2 ^ n % 256 ∧
      (ParallelMUX.new sel n e 0).maxChannels = 2 ^ n % 256 ∧
      (Device.videoMUX (VideoMUX.new sel n a b g)).numPins = n ∧
      (Device.audioMUX (AudioMUX.new sel n g)).numPins = n ∧
      (Device.dataMUX (DataMUX.new sel n g)).numPins = n) ∧
    (d.isGPIO = true → d.inv = true →
      d.base.maxChannels = 2 ^ d.numPins % 256 ∧
      (d.numPins ≤ 7 →
        (2 ^ d.numPins ≤ c →
          d.setChannel env fuel hist c =
            Except.ok ⟨MUXStatus.ERROR_CHANNEL_INVALID, d, []⟩) ∧
        (c < 2 ^ d.numPins → ∀ r, d.setChannel env fuel hist c = Except.ok r →
          r.ret ≠ MUXStatus.ERROR_CHANNEL_INVALID)) ∧
      (d.numPins = 8 →
        d.base.maxChannels = 0 ∧
        d.setChannel env fuel hist c =
          Except.ok ⟨MUXStatus.ERROR_CHANNEL_INVALID, d, []⟩)) := by
  refine ⟨?_, ?_⟩
  · cases oa <;> cases ga <;>
      simp [AnalogMUX.new, VideoMUX.new, AudioMUX.new, DataMUX.new, PrecisionMUX.new,
        ParallelMUX.new, FastMUX.new, MUXManager.new, Device.numPins, Nat.shiftLeft_eq]
  · intro hg hinv
    have hmax := gpio_maxChannels d hg hinv
    refine ⟨hmax, ?_, ?_⟩
    · intro h7
      have hlt : 2 ^ d.numPins < 256 := by
        calc 2 ^ d.numPins ≤ 2 ^ 7 := Nat.pow_le_pow_right (by norm_num) h7
          _ < 256 := by norm_num
      rw [Nat.mod_eq_of_lt hlt] at hmax
      refine ⟨fun hc => setChannel_rejects env fuel hist d c hinv (by omega), ?_⟩
      intro hc r hr hret
      have := (setChannel_invalid_iff env fuel hist d c r hinv hr).mp hret
      omega
    · intro h8
      rw [h8] at hmax
      norm_num at hmax
      exact ⟨hmax, setChannel_rejects env fuel hist d c hinv (by omega)⟩

/-- Instance of C34: a `DataMUX` on eight select lines has `maxChannels` 0 and rejects
channel 0; the started `DataMUX` on two lines rejects channel 4 and takes channel 3. -/
theorem derived_channel_count_witness :
    (DataMUX.new [2, 3, 4, 5, 6, 7, 8, 9] 8 true).maxChannels = 0 ∧
    (Device.dataMUX (DataMUX.new [2, 3, 4, 5, 6, 7, 8, 9] 8 true)).setChannel quietEnv 0 [] 0 =
      Except.ok ⟨MUXStatus.ERROR_CHANNEL_INVALID,
        Device.dataMUX (DataMUX.new [2, 3, 4, 5, 6, 7, 8, 9] 8 true), []⟩ ∧
    (Device.dataMUX startedDataMUX).setChannel quietEnv 0 [] 4 =
      Except.ok ⟨MUXStatus.ERROR_CHANNEL_INVALID, Device.dataMUX startedDataMUX, []⟩ ∧
    ((Device.dataMUX startedDataMUX).setChannel quietEnv 0 [] 3).map (fun r => r.ret) =
      Except.ok MUXStatus.OK :=
  ⟨by decide,
    ((derived_channel_count [] 0 0 0 0 true true true [] [] quietEnv 0 []
      (Device.dataMUX (DataMUX.new [2, 3, 4, 5, 6, 7, 8, 9] 8 true)) 0).2
        (by decide) (by decide)).2.2 (by decide) |>.2,
    (((derived_channel_count [] 0 0 0 0 true true true [] [] quietEnv 0 []
      (Device.dataMUX startedDataMUX) 4).2 (by decide) (by decide)).2.1 (by decide)).1
        (by decide),
    by rfl⟩

/-! ## C35: the select lines of an `HC405X` mirror `currentChannel` -/

/-- The select writes of a run of lines split at any point of the run. -/
theorem selectWrites_split (pins : List Nat) (c i a b : Nat) :
    selectWrites pins c i (a + b) = selectWrites pins c i a ++ selectWrites pins c (i + a) b := by
  have h := List.range'_append i a b 1
  rw [Nat.one_mul, Nat.add_comm b a] at h
  simp only [selectWrites, ← List.map_append, h]

/-- A select write of lines `i .. i + k - 1` is on the pin of one of these lines. -/
theorem mem_selectWrites_index (pins : List Nat) (c i k q v : Nat)
    (h : Event.digitalWrite q v ∈ selectWrites pins c i k) :
    ∃ j, i ≤ j ∧ j < i + k ∧ q = pins.getD j 0 := by
  simp only [selectWrites, List.mem_map, List.mem_range'_1] at h
  obtain ⟨j, ⟨h1, h2⟩, hq⟩ := h
  simp only [Event.digitalWrite.injEq] at hq
  exact ⟨j, h1, h2, hq.1.symm⟩

/-- Distinct pins: two lines on the same pin are the same line. -/
theorem getD_inj_of_nodup (pins : List Nat) (hnd : pins.Nodup) (i j : Nat)
    (hi : i < pins.length) (hj : j < pins.length) (h : pins.getD i 0 = pins.getD j 0) :
    i = j := by
  rw [List.getD_eq_getElem _ _ hi, List.getD_eq_getElem _ _ hj] at h
  exact (List.Nodup.getElem_inj_iff hnd).mp h

/-- After the select writes of channel `c` on distinct pins, line `i` is at bit `i` of
`c`. -/
theorem replay_selectWrites (pins : List Nat) (hnd : pins.Nodup) (c i : Nat)
    (hi : i < pins.length) (levels : Nat → Nat) :
    replay levels (selectWrites pins c 0 pins.length) (pins.getD i 0) = (c >>> i) &&& 1 := by
  have hsplit : selectWrites pins c 0 pins.length =
      selectWrites pins c 0 i ++ (selectWrites pins c i 1 ++
        selectWrites pins c (i + 1) (pins.length - i - 1)) := by
    have e : pins.length = i + (1 + (pins.length - i - 1)) := by omega
    conv_lhs => rw [e]
    rw [selectWrites_split, selectWrites_split]
    simp
  rw [hsplit, replay_append, replay_append]
  rw [replay_unwritten]
  · simp [selectWrites, replay, Event.apply]
  · intro v hv
    obtain ⟨j, h1, h2, hq⟩ := mem_selectWrites_index _ _ _ _ _ _ hv
    have := getD_inj_of_nodup pins hnd i j hi (by omega) hq
    omega

/-- After writes of LOW to the pins of `m`, the last write to a pin is LOW when the pin is
in `m`, and there is none otherwise. -/
theorem lastWrite_map_low (m : List Nat) (q : Nat) :
    lastWrite q (m.map (fun p => (p, LOW))) = if q ∈ m then some LOW else none := by
  induction m with
  | nil => simp [lastWrite]
  | cons p rest ih =>
    simp only [List.map_cons, lastWrite, ih, List.mem_cons]
    by_cases h1 : q ∈ rest
    · simp [h1]
    · by_cases h2 : q = p
      · subst h2
        simp [h1]
      · simp [h1, h2]

/-- The select-pin loop of `begin()` over stored pins none of which is 255 ends, and its pin
writes are LOW on each of the pins, in order. -/
theorem configureSelect_pinWrites (l : List Nat) (h255 : 255 ∉ l) (k : Nat) :
    ∀ i, i + k ≤ l.length →
      ∃ t, configureSelect (some l) i k = Except.ok t ∧
        pinWrites t = ((l.drop i).take k).map (fun p => (p, LOW)) := by
  induction k with
  | zero => intro i _; exact ⟨[], rfl, by simp [pinWrites]⟩
  | succ k ih =>
    intro i h
    have hlt : i < l.length := by omega
    obtain ⟨t, ht, hw⟩ := ih (i + 1) (by omega)
    have hne : l[i] ≠ 255 := by
      intro hc
      apply h255
      rw [← hc]
      exact List.getElem_mem _
    have hgi : l[i]? = some l[i] := List.getElem?_eq_getElem hlt
    refine ⟨Event.pinMode l[i] PinMode.OUTPUT :: Event.digitalWrite l[i] LOW :: t, ?_, ?_⟩
    · simp [configureSelect, pinAt, hgi, ht, hne]
    · rw [List.drop_eq_getElem_cons hlt, List.take_succ_cons, List.map_cons, ← hw]
      simp [pinWrites]

/-- Events that write only the pin `en` leave the level of every other pin. -/
theorem replay_other_pin (t : List Event) (en q : Nat) (levels : Nat → Nat)
    (h : ∀ p v, Event.digitalWrite p v ∈ t → p = en) (hq : q ≠ en) :
    replay levels t q = levels q :=
  replay_unwritten q t levels (fun v hv => hq (h q v hv))

/-- One `enable()`, `disable()` or `setChannel(c)` on an `HC405X` with one stored pin per
select line, the pins pairwise distinct and the enable pin not among them: the call returns,
keeps the wiring, and if every select line showed its bit of `currentChannel` before the
call then it does so after it. -/
theorem hc405x_step (env : Env) (fuel : Nat) (hist : List Event) (s : HC405X) (op : Op)
    (hlen : s.selectPins.length = s.numSelectPins) (hnd : s.selectPins.Nodup)
    (hen : s.enablePin ∉ s.selectPins)
    (hop : op = Op.enable ∨ op = Op.disable ∨ ∃ c, op = Op.setChannel c) :
    ∃ r1 s1, (Device.hc405x s).perform env fuel hist op = Except.ok r1 ∧
      r1.dev = Device.hc405x s1 ∧ s1.selectPins = s.selectPins ∧
      s1.numSelectPins = s.numSelectPins ∧ s1.enablePin = s.enablePin ∧
      ∀ levels : Nat → Nat,
        (∀ i, i < s.numSelectPins →
          levels (s.selectPins.getD i 0) = (s.currentChannel >>> i) &&& 1) →
        ∀ i, i < s.numSelectPins →
          replay levels r1.trace (s.selectPins.getD i 0) = (s1.currentChannel >>> i) &&& 1 := by
  have hpin : ∀ i, i < s.numSelectPins → s.selectPins.getD i 0 ≠ s.enablePin := by
    intro i hi hc
    apply hen
    rw [← hc, List.getD_eq_getElem _ _ (by omega)]
    exact List.getElem_mem _
  rcases hop with rfl | rfl | ⟨c, rfl⟩
  · refine ⟨_, _, rfl, rfl, rfl, rfl, rfl, ?_⟩
    intro levels hm i hi
    rw [replay_other_pin _ s.enablePin _ levels _ (hpin i hi)]
    · exact hm i hi
    · intro p v hv
      simp only [Device.enable, HC405X.enable, ParallelMUX.enable] at hv
      split at hv <;> simp at hv
      exact hv.1
  · refine ⟨_, _, rfl, rfl, rfl, rfl, rfl, ?_⟩
    intro levels hm i hi
    rw [replay_other_pin _ s.enablePin _ levels _ (hpin i hi)]
    · exact hm i hi
    · intro p v hv
      simp only [Device.disable, HC405X.disable, ParallelMUX.disable] at hv
      split at hv <;> simp at hv
      exact hv.1
  · by_cases hv : s.isValidChannel c = false
    · refine ⟨⟨Ret.status MUXStatus.ERROR_CHANNEL_INVALID, Device.hc405x s, []⟩, s, ?_,
        rfl, rfl, rfl, rfl, fun levels hm i hi => hm i hi⟩
      simp [Device.perform, Device.setChannel, liftRet, liftStep, HC405X.setChannel, hv]
    · by_cases he : s.enabled = false
      · refine ⟨⟨Ret.status MUXStatus.ERROR_NOT_ENABLED, Device.hc405x s, []⟩, s, ?_,
          rfl, rfl, rfl, rfl, fun levels hm i hi => hm i hi⟩
        simp [Device.perform, Device.setChannel, liftRet, liftStep, HC405X.setChannel, hv, he]
      · have hw := writeChannelBits_ok s.selectPins c s.numSelectPins 0 (by omega)
        refine ⟨⟨Ret.status MUXStatus.OK,
          Device.hc405x { s with currentChannel := c },
          selectWrites s.selectPins c 0 s.numSelectPins⟩, { s with currentChannel := c }, ?_,
          rfl, rfl, rfl, rfl, ?_⟩
        · simp [Device.perform, Device.setChannel, liftRet, liftStep, HC405X.setChannel, hv,
            he, hw]
        · intro levels _ i hi
          simp only []
          rw [← hlen]
          exact replay_selectWrites s.selectPins hnd c i (by omega) levels

/-- Any sequence of `enable()`, `disable()` and `setChannel` calls on such an `HC405X`
returns, keeps the wiring, and keeps the select lines at the bits of `currentChannel`. -/
theorem hc405x_run (env : Env) (fuel : Nat) (ops : List Op) :
    ∀ (hist : List Event) (s : HC405X),
      s.selectPins.length = s.numSelectPins → s.selectPins.Nodup →
      s.enablePin ∉ s.selectPins →
      (∀ op ∈ ops, op = Op.enable ∨ op = Op.disable ∨ ∃ c, op = Op.setChannel c) →
      ∃ r s1, Device.run env fuel ops hist (Device.hc405x s) = Except.ok r ∧
        r.dev = Device.hc405x s1 ∧ s1.selectPins = s.selectPins ∧
        s1.numSelectPins = s.numSelectPins ∧
        ∀ levels : Nat → Nat,
          (∀ i, i < s.numSelectPins →
            levels (s.selectPins.getD i 0) = (s.currentChannel >>> i) &&& 1) →
          ∀ i, i < s.numSelectPins →
            replay levels r.trace (s.selectPins.getD i 0) =
              (s1.currentChannel >>> i) &&& 1 := by
  induction ops with
  | nil =>
    intro hist s _ _ _ _
    exact ⟨⟨[], Device.hc405x s, []⟩, s, rfl, rfl, rfl, rfl, fun levels hm i hi => hm i hi⟩
  | cons op rest ih =>
    intro hist s hlen hnd hen hops
    obtain ⟨r1, s1, h1, hd1, hp1, hn1, he1, hm1⟩ :=
      hc405x_step env fuel hist s op hlen hnd hen (hops op (by simp))
    obtain ⟨r2, s2, h2, hd2, hp2, hn2, hm2⟩ := ih (hist ++ r1.trace) s1
      (by rw [hp1, hn1]; exact hlen) (by rw [hp1]; exact hnd) (by rw [hp1, he1]; exact hen)
      (fun o ho => hops o (List.mem_cons_of_mem _ ho))
    refine ⟨⟨(op, r1.ret) :: r2.ret, r2.dev, r1.trace ++ r2.trace⟩, s2, ?_, hd2,
      hp2.trans hp1, hn2.trans hn1, ?_⟩
    · rw [run_cons]
      exact ⟨r1, r2, h1, by rw [hd1]; exact h2, rfl⟩
    · intro levels hm i hi
      rw [replay_append]
      have := hm2 (replay levels r1.trace)
        (fun j hj => by
          rw [hp1]
          exact hm1 levels hm j (by rw [← hn1]; exact hj))
        i (by rw [hn1]; exact hi)
      rw [hp1] at this
      exact this

/-- `begin()` on a newly constructed `HC405X` whose select pins are stored and are not 255,
with the enable pin not among them: it returns `OK`, enables the device and leaves every
select line LOW. -/
theorem hc405x_begin_new (selPins : List Nat) (type enPin : Nat)
    (hlen : (HC405X.new selPins type enPin).selectPins.length =
      (HC405X.new selPins type enPin).numSelectPins)
    (h255 : 255 ∉ (HC405X.new selPins type enPin).selectPins)
    (hen : enPin ∉ (HC405X.new selPins type enPin).selectPins) :
    ∃ t, HC405X.begin (HC405X.new selPins type enPin) =
        Except.ok ⟨MUXStatus.OK, { HC405X.new selPins type enPin with enabled := true }, t⟩ ∧
      ∀ (levels : Nat → Nat) q, q ∈ (HC405X.new selPins type enPin).selectPins →
        replay levels t q = LOW := by
  obtain ⟨t, ht, hw⟩ := configureSelect_pinWrites _ h255
    (HC405X.new selPins type enPin).numSelectPins 0 (by omega)
  have hpe : (HC405X.new selPins type enPin).enablePin = enPin := rfl
  refine ⟨t ++ (if enPin ≠ 255 then
      [Event.pinMode enPin PinMode.OUTPUT, Event.digitalWrite enPin HIGH] else []) ++
      (if enPin ≠ 255 then [Event.digitalWrite enPin LOW] else []), ?_, ?_⟩
  · simp only [HC405X.begin, ParallelMUX.begin, ParallelMUX.enable, ht, hpe]
  · intro levels q hq
    have hqe : q ≠ enPin := fun hc => hen (hc ▸ hq)
    rw [List.append_assoc, replay_append, replay_other_pin _ enPin q _ _ hqe]
    · rw [replay_eq_writeAll, writeAll_apply, hw, List.drop_zero, ← hlen, List.take_length,
        lastWrite_map_low, if_pos hq]
      rfl
    · intro p v hv
      simp only [List.mem_append] at hv
      rcases hv with hv | hv <;> split at hv <;> simp at hv <;> exact hv.1

/-- C35: an `HC405X` built on real select pins (one stored pin per select line, none of
them 255, pairwise distinct, the enable pin not among them): whatever the pin levels were
before, after one `begin()` on the new device followed by any sequence of `setChannel`,
`enable` and `disable` calls, all calls have returned and the level of select line `i` is
bit `i` of `currentChannel`, for every `i < numSelectPins`. -/
theorem select_lines_mirror (env : Env) (fuel : Nat) (hist : List Event)
    (selPins : List Nat) (type enPin : Nat) (ops : List Op) (levels : Nat → Nat)
    (hst : (Device.hc405x (HC405X.new selPins type enPin)).pinsStored = true)
    (hnd : (HC405X.new selPins type enPin).selectPins.Nodup)
    (h255 : 255 ∉ (HC405X.new selPins type enPin).selectPins)
    (hen : enPin ∉ (HC405X.new selPins type enPin).selectPins)
    (hops : ∀ op ∈ ops, op = Op.enable ∨ op = Op.disable ∨ ∃ c, op = Op.setChannel c) :
    ∃ r, Device.run env fuel (Op.begin :: ops) hist
        (Device.hc405x (HC405X.new selPins type enPin)) = Except.ok r ∧
      ∀ i, i < r.dev.numPins →
        replay levels r.trace (r.dev.selectPins.getD i 0) =
          (r.dev.base.currentChannel >>> i) &&& 1 := by
  have hlen : (HC405X.new selPins type enPin).selectPins.length =
      (HC405X.new selPins type enPin).numSelectPins := by
    simpa [Device.pinsStored, hasPins] using hst
  obtain ⟨t0, hb, hlow⟩ := hc405x_begin_new selPins type enPin hlen h255 hen
  obtain ⟨r, s1, hrun, hd, hp, hn, hm⟩ := hc405x_run env fuel ops (hist ++ t0)
    { HC405X.new selPins type enPin with enabled := true } hlen hnd hen hops
  refine ⟨⟨(Op.begin, Ret.status MUXStatus.OK) :: r.ret, r.dev, t0 ++ r.trace⟩, ?_, ?_⟩
  · rw [run_cons]
    refine ⟨⟨Ret.status MUXStatus.OK,
      Device.hc405x { HC405X.new selPins type enPin with enabled := true }, t0⟩, r, ?_,
      hrun, rfl⟩
    simp [Device.perform, Device.begin, liftRet, liftStep, hb]
  · intro i hi
    simp only [hd, Device.numPins, Device.selectPins, Device.base] at hi ⊢
    rw [hn] at hi
    rw [hp, replay_append]
    refine hm (replay levels t0) (fun j hj => ?_) i hi
    rw [hlow levels _ (by
      rw [List.getD_eq_getElem _ _ (by rw [hlen]; exact hj)]
      exact List.getElem_mem _)]
    simp [HC405X.new, ParallelMUX.new, MUXManager.new]

/-- Instance of C35: an `HC405X` on select pins 2, 3, 4 with enable pin 5, all pins HIGH
at first; after `begin()`, `setChannel(5)`, `disable()`, a refused `setChannel(3)`,
`enable()`, a refused `setChannel(9)` and `setChannel(6)`, `currentChannel` is 6 and the
select lines read 0, 1, 1. -/
theorem select_lines_mirror_witness :
    (Device.run quietEnv 0
        [Op.begin, Op.setChannel 5, Op.disable, Op.setChannel 3, Op.enable, Op.setChannel 9,
          Op.setChannel 6] [] (Device.hc405x (HC405X.new [2, 3, 4] 1 5))).map
      (fun r => (r.ret.map Prod.snd, r.dev.base.currentChannel,
        [replay (fun _ => HIGH) r.trace 2, replay (fun _ => HIGH) r.trace 3,
          replay (fun _ => HIGH) r.trace 4])) =
    Except.ok ([Ret.status MUXStatus.OK, Ret.status MUXStatus.OK, Ret.unit,
        Ret.status MUXStatus.ERROR_NOT_ENABLED, Ret.unit,
        Ret.status MUXStatus.ERROR_CHANNEL_INVALID, Ret.status MUXStatus.OK],
      6, [0, 1, 1]) ∧
    ∃ r, Device.run quietEnv 0
        (Op.begin :: [Op.setChannel 5, Op.disable, Op.setChannel 3, Op.enable,
          Op.setChannel 9, Op.setChannel 6]) []
        (Device.hc405x (HC405X.new [2, 3, 4] 1 5)) = Except.ok r ∧
      ∀ i, i < r.dev.numPins →
        replay (fun _ => HIGH) r.trace (r.dev.selectPins.getD i 0) =
          (r.dev.base.currentChannel >>> i) &&& 1 :=
  ⟨by rfl, select_lines_mirror quietEnv 0 [] [2, 3, 4] 1 5 _ (fun _ => HIGH) (by decide)
    (by decide) (by decide) (by decide) (by simp)⟩

/-! ## C36: a tick of `TCA9548A::update()` -/

/-- The `setChannel` of a `TCA9548A` always returns; it changes at most `currentChannel`, to
the requested channel, and changes nothing when its status is not `OK`. -/
theorem tca9548a_setChannel_returns (env : Env) (hist : List Event) (s : TCA9548A)
    (c : Nat) :
    ∃ r, TCA9548A.setChannel env hist s c = Except.ok r ∧
      (r.dev = s ∨ r.dev = { s with currentChannel := c }) ∧
      (r.ret ≠ MUXStatus.OK → r.dev = s) := by
  simp only [TCA9548A.setChannel]
  split
  · exact ⟨_, rfl, Or.inl rfl, fun _ => rfl⟩
  · split
    · exact ⟨_, rfl, Or.inl rfl, fun _ => rfl⟩
    · split
      · exact ⟨_, rfl, Or.inl rfl, fun _ => rfl⟩
      · exact ⟨_, rfl, Or.inr rfl, fun h => absurd rfl h⟩

/-- C36: `TCA9548A::update()` with no tick due (not scanning, or
`(now - lastScanTime) mod 2 ^ 32 < scanInterval`) returns with the device unchanged and no
bus traffic. When a tick fires and `scanStartCh ≤ scanEndCh`, `update()` returns; it first
stores the next channel of the range (`currentChannel + 1` as an 8-bit value, or
`scanStartCh` when that is outside the range) in `currentChannel` and only then calls
`setChannel` on it, and afterwards `currentChannel` is that next channel, so
`scanStartCh ≤ currentChannel ≤ scanEndCh`, whatever `setChannel` returned: also when the
bus transaction fails or the device is disabled. -/
theorem update_tick (env : Env) (hist : List Event) (s : TCA9548A) :
    (s.fires env hist = false →
      ∃ t, s.update env hist = Except.ok ⟨(), s, t⟩ ∧ hasBusEvent t = false) ∧
    (s.fires env hist = true → s.scanStartCh ≤ s.scanEndCh →
      ∃ next r1 r, next = (if (s.currentChannel + 1) % 256 > s.scanEndCh ∨
            (s.currentChannel + 1) % 256 < s.scanStartCh then s.scanStartCh
          else (s.currentChannel + 1) % 256) ∧
        TCA9548A.setChannel env (hist ++ [Event.millis (env.millis hist)])
          { s with currentChannel := next } next = Except.ok r1 ∧
        s.update env hist = Except.ok r ∧
        r.dev = { s with currentChannel := next, lastScanTime := r.dev.lastScanTime } ∧
        r.trace = [Event.millis (env.millis hist)] ++ r1.trace ++
          [Event.millis (env.millis (hist ++ [Event.millis (env.millis hist)] ++ r1.trace))] ∧
        r.dev.currentChannel = next ∧
        s.scanStartCh ≤ r.dev.currentChannel ∧ r.dev.currentChannel ≤ s.scanEndCh) := by
  constructor
  · intro hf
    simp only [TCA9548A.fires, Bool.and_eq_false_iff] at hf
    by_cases hsc : s.scanning = false
    · exact ⟨[], by simp [TCA9548A.update, hsc], rfl⟩
    · have ht : s.tickDue (env.millis hist) = false := by
        rcases hf with h | h
        · exact absurd h hsc
        · exact h
      exact ⟨[Event.millis (env.millis hist)], by simp [TCA9548A.update, hsc, ht], rfl⟩
  · intro hf hab
    simp only [TCA9548A.fires, Bool.and_eq_true] at hf
    obtain ⟨hsc, ht⟩ := hf
    obtain ⟨next, hnext⟩ : ∃ next, next =
        (if (s.currentChannel + 1) % 256 > s.scanEndCh ∨
            (s.currentChannel + 1) % 256 < s.scanStartCh then s.scanStartCh
          else (s.currentChannel + 1) % 256) := ⟨_, rfl⟩
    obtain ⟨r1, h1, hdev, -⟩ := tca9548a_setChannel_returns env
      (hist ++ [Event.millis (env.millis hist)]) { s with currentChannel := next } next
    have hcc : r1.dev = { s with currentChannel := next } := by
      rcases hdev with h | h <;> exact h
    have hupd : s.update env hist = Except.ok ⟨(),
        { r1.dev with
          lastScanTime :=
            env.millis (hist ++ [Event.millis (env.millis hist)] ++ r1.trace) % 2 ^ 32 },
        [Event.millis (env.millis hist)] ++ r1.trace ++
          [Event.millis
            (env.millis (hist ++ [Event.millis (env.millis hist)] ++ r1.trace))]⟩ := by
      unfold TCA9548A.update
      rw [if_neg (by simp [hsc])]
      simp only []
      rw [if_neg (by simp [ht])]
      simp only [← hnext, h1]
    have hrange : s.scanStartCh ≤ next ∧ next ≤ s.scanEndCh := by
      rw [hnext]
      split <;> omega
    refine ⟨next, r1, _, hnext, h1, hupd, ?_, rfl, ?_, ?_, ?_⟩
    · simp only [hcc]
    · simp only [hcc]
    · simp only [hcc]
      exact hrange.1
    · simp only [hcc]
      exact hrange.2

/-- Instance of C36: a tick on a disabled device at channel 5 of the range 2..5 leaves
`currentChannel` at 2 with no bus write; a tick on a started device whose bus does not
answer leaves `currentChannel` at 2 after the failed transaction; a device that is not
scanning is left as it is. -/
theorem update_tick_witness :
    (TCA9548A.update tickingEnv []
        { (TCA9548A.new 112).startScan 2 5 |>.dev with currentChannel := 5 }).map
      (fun r => (r.dev.currentChannel, r.dev.enabled, busWrites r.trace)) =
      Except.ok (2, false, []) ∧
    (TCA9548A.update deadBusEnv []
        { startedTCA9548A.startScan 2 5 |>.dev with scanInterval := 0 }).map
      (fun r => (r.dev.currentChannel, r.trace)) =
      Except.ok (2, [Event.millis 0, Event.beginTransmission 112, Event.wireWrite 4,
        Event.endTransmission 2, Event.millis 0]) ∧
    ∃ t, TCA9548A.update tickingEnv [] (TCA9548A.new 112) =
      Except.ok ⟨(), TCA9548A.new 112, t⟩ ∧ hasBusEvent t = false :=
  ⟨by rfl, by rfl, (update_tick tickingEnv [] (TCA9548A.new 112)).1 (by decide)⟩

end MUXLib
